import Mathlib

/-!
# Scheduler and PCP mutex layer of the lab3 kernel

Shallow embedding of `code/kernel/src/syscall_thread.c`, and of the trap
dispatch of `kernel.c`, the character and heap system calls of `syscalls.c`
(over `uart.c`) and the frame buffer of `screen.c`.

* `uint32_t` values are natural numbers; arithmetic that can wrap is reduced
  modulo `WORD = 2 ^ 32`.
* `int` values (`mutex_t.lock`, `mutex_t.thread`, return codes) are integers.
* Arrays are functions from the index; a pointer to a `mutex_t` is the
  address of the object, `0` being `NULL`; `current_task` is the index of the
  TCB it points to inside `tcb_list`.
* `disable_interrupts` / `enable_interrupts` bracket a section that runs
  without a tick in between; every function below is such a section.
-/

namespace Lab3

/-! ## Constants of `syscall_thread.c` -/

/-- Total thread number: 31 tasks + 1 idle function. -/
def THREAD_NUM : Nat := 32
/-- Number of saved words of a context. -/
def TCB_REG_NUM : Nat := 20
def RUNNABLE : Nat := 1
def WAITING : Nat := 0
def RUNNING : Nat := 2
def SPSR_SVC : Nat := 0
def SP_SVC : Nat := 1
def LR_SVC : Nat := 2
def SP_USER : Nat := 3
def LR_USER : Nat := 4
def LR_IRQ : Nat := 18
def SPSR_IRQ : Nat := 19
/-- Modulus of `uint32_t`. -/
def WORD : Nat := 2 ^ 32

/-- Conversion `uint32_t → int` (two's complement), as in
`mutex->thread = current_task->priority`. -/
def toInt32 (x : Nat) : Int :=
  if x % WORD < 2 ^ 31 then ((x % WORD : Nat) : Int) else ((x % WORD : Nat) : Int) - (WORD : Int)

/-- Array store `a[i] = v`. -/
def upd {α : Type} (a : Nat → α) (i : Nat) (v : α) : Nat → α :=
  fun x => if x = i then v else a x

/-! ## Data model -/

/-- Task control block `tcb_t` (the supervisor stack area is represented by
its address only, see `thread_create`). -/
structure TCB where
  tcb_regs : Nat → Nat
  wakeup : Nat
  execution : Nat
  sleep : Nat
  computation : Nat
  period : Nat
  priority : Nat
  curr_priority : Nat
  status : Nat

/-- Mutex datatype of `mutex.h`. -/
structure mutex_t where
  lock : Int
  ceiling : Nat
  thread : Int

/-- The globals of `syscall_thread.c`, and the memory holding the mutex
objects of the user program (`heap`, indexed by address). -/
structure Kernel where
  tcb_list : Nat → TCB
  mutex_list : Nat → Nat
  mutex_index : Nat
  current_task : Nat
  runnable_pool : Nat
  waiting_pool : Nat
  mutex_ceiling : Nat
  time : Nat
  heap : Nat → mutex_t

/-- The TCB `current_task` points to. -/
def cur (s : Kernel) : TCB := s.tcb_list s.current_task

/-- Store through `current_task`. -/
def set_cur (s : Kernel) (t : TCB) : Kernel :=
  { s with tcb_list := upd s.tcb_list s.current_task t }

/-- Static initialisation of the globals: everything zero, except
`mutex_ceiling = 31`. -/
def zero_tcb : TCB :=
  { tcb_regs := fun _ => 0, wakeup := 0, execution := 0, sleep := 0, computation := 0,
    period := 0, priority := 0, curr_priority := 0, status := 0 }

def boot : Kernel :=
  { tcb_list := fun _ => zero_tcb, mutex_list := fun _ => 0, mutex_index := 0,
    current_task := 0, runnable_pool := 0, waiting_pool := 0, mutex_ceiling := 31,
    time := 0, heap := fun _ => { lock := 0, ceiling := 0, thread := 0 } }

/-! ## Runnable / waiting pools -/

/-- The word `1 << prio`. -/
def bit (prio : Nat) : Nat := (1 <<< prio) % WORD

/-- The word `~(1 << prio)`. -/
def nbit (prio : Nat) : Nat := WORD - 1 - bit prio

def is_runnable (s : Kernel) (prio : Nat) : Nat := (s.runnable_pool >>> prio) &&& 1

def set_run_pool (s : Kernel) (prio : Nat) : Kernel :=
  { s with runnable_pool := s.runnable_pool ||| bit prio }

def clear_run_pool (s : Kernel) (prio : Nat) : Kernel :=
  { s with runnable_pool := s.runnable_pool &&& nbit prio }

def is_waiting (s : Kernel) (prio : Nat) : Nat := (s.waiting_pool >>> prio) &&& 1

def set_wait_pool (s : Kernel) (prio : Nat) : Kernel :=
  { s with waiting_pool := s.waiting_pool ||| bit prio }

def clear_wait_pool (s : Kernel) (prio : Nat) : Kernel :=
  { s with waiting_pool := s.waiting_pool &&& nbit prio }

/-! ## Thread creation -/

/-- Address of `tcb_list[i].tcb_stack + 1023`, `base` being the address of
`tcb_list`; a `tcb_t` is `1024 + 20 + 8` words long. -/
def svc_stack_top (base i : Nat) : Nat := (base + 4 * 1052 * i + 4 * 1023) % WORD

/-- Register file written by `thread_init` and `thread_create`. -/
def fresh_regs (old : Nat → Nat) (fn stack_start svc_sp : Nat) : Nat → Nat :=
  upd (upd (upd (upd (upd (upd old SP_USER stack_start) SPSR_IRQ 0x10) SPSR_SVC 0x10)
    LR_IRQ fn) LR_USER fn) SP_SVC svc_sp

def thread_init (base : Nat) (s : Kernel) (idle_fn idle_stack_start : Nat) : Kernel × Int :=
  if idle_fn = 0 ∨ idle_stack_start = 0 then (s, -1)
  else
    let c_tcb : TCB :=
      { tcb_regs := fresh_regs (s.tcb_list 31).tcb_regs idle_fn idle_stack_start
          (svc_stack_top base 31),
        wakeup := 0, execution := 0, sleep := 0, computation := 100000, period := 1,
        priority := 31, curr_priority := 31, status := RUNNABLE }
    ({ s with tcb_list := upd s.tcb_list 31 c_tcb }, 0)

/-- `thread_create`. The TCB written is `tcb_list[prio]`; it is inside the
pool for `prio < THREAD_NUM`. -/
def thread_create (base : Nat) (s : Kernel) (fn stack_start prio C T : Nat) : Kernel × Int :=
  if fn = 0 ∨ stack_start = 0 then (s, -1)
  else
    let c_tcb : TCB :=
      { tcb_regs := fresh_regs (s.tcb_list prio).tcb_regs fn stack_start
          (svc_stack_top base prio),
        wakeup := 0, execution := 0, sleep := 0, computation := C, period := T,
        priority := prio, curr_priority := prio, status := RUNNABLE }
    (set_run_pool { s with tcb_list := upd s.tcb_list prio c_tcb } prio, 0)

/-! ## Scheduler -/

/-- First part of `find_next_task`: tick accounting of the outgoing task. -/
def account (s : Kernel) : Kernel :=
  let prio := (cur s).priority
  let period := (cur s).period
  let exec := (cur s).execution
  if (cur s).status = RUNNING then
    let s1 := set_cur s { cur s with execution := (exec + 1) % WORD,
                                     sleep := ((cur s).sleep + 1) % WORD }
    if exec ≥ (cur s1).computation then
      let s2 := set_cur s1 { cur s1 with status := WAITING }
      let s3 := set_wait_pool (clear_run_pool s2 prio) prio
      set_cur s3 { cur s3 with execution := 0, wakeup := ((cur s3).wakeup + period) % WORD }
    else
      clear_wait_pool (set_run_pool s1 prio) prio
  else if (cur s).status = WAITING then
    let s1 := clear_run_pool (set_wait_pool s prio) prio
    set_cur s1 { cur s1 with execution := 0, wakeup := ((cur s1).wakeup + period) % WORD }
  else s

/-- Body of the wake-up loop of `find_next_task` for index `i`. -/
def wake_one (s : Kernel) (i : Nat) : Kernel :=
  if is_waiting s i ≠ 0 ∧ s.time ≥ (s.tcb_list i).wakeup then
    let t : TCB := { (s.tcb_list i) with status := RUNNABLE, execution := 0 }
    let s1 := { s with tcb_list := upd s.tcb_list i t }
    clear_wait_pool (set_run_pool s1 i) i
  else s

/-- State after the iterations `i = 0 .. n-1` of the wake-up loop. -/
def wake_loop (s : Kernel) : Nat → Kernel
  | 0 => s
  | n + 1 => wake_one (wake_loop s n) n

/-- Selection loop of `find_next_task`, started at `j` with `fuel` iterations
left: `for (j = 0; j < 31; j++) if (is_runnable(j) && (j <= prio)) return j;
return 31;`. -/
def select_from (s : Kernel) (prio : Nat) : Nat → Nat → Nat
  | 0, _ => 31
  | fuel + 1, j =>
    if is_runnable s j ≠ 0 ∧ j ≤ prio then j else select_from s prio fuel (j + 1)

/-- State in which the selection loop of `find_next_task` runs. -/
def after_wake (s : Kernel) : Kernel := wake_loop (account s) 31

def find_next_task (s : Kernel) : Kernel × Nat :=
  let prio := (cur s).priority
  (after_wake s, select_from (after_wake s) prio 31 0)

/-- Copy loop `for (i = 0; i < n; i++) regs[i] = sp[i]`. -/
def save_regs (regs sp : Nat → Nat) : Nat → (Nat → Nat)
  | 0 => regs
  | n + 1 => upd (save_regs regs sp n) n (sp n)

/-- The statement `time++`. -/
def time_inc (s : Kernel) : Kernel := { s with time := (s.time + 1) % WORD }

/-- Tick handler. Returns the new state and the register frame
`current_task->tcb_regs` of the elected task. The test `current_task != NULL`
of the source is true here: `current_task` is the index of a TCB, and
`find_next_task` has already read through the pointer. -/
def call_scheduler (s : Kernel) (sp : Nat → Nat) : Kernel × (Nat → Nat) :=
  let (s1, next) := find_next_task (time_inc s)
  let s2 := set_cur s1 { cur s1 with tcb_regs := save_regs (cur s1).tcb_regs sp TCB_REG_NUM }
  let s3 :=
    if next ≠ (cur s2).priority ∧ is_waiting s2 (cur s2).priority = 0 then
      let t := set_cur s2 { cur s2 with status := RUNNABLE }
      set_run_pool (clear_wait_pool t (cur t).priority) (cur t).priority
    else s2
  let s4 := { s3 with current_task := next }
  let s5 := set_cur s4 { cur s4 with status := RUNNING }
  let s6 := clear_run_pool (clear_wait_pool s5 (cur s5).priority) (cur s5).priority
  (s6, (cur s6).tcb_regs)

/-- State written by `scheduler_start` on entry and, once the task set is
accepted, before the timer is started. -/
def scheduler_start_state (s : Kernel) : Kernel :=
  let s1 := { s with current_task := 31 }
  let s2 := set_cur s1 { cur s1 with execution := 0, status := RUNNING }
  { s2 with time := 0 }

/-- Store of `wait_until_next_period` before it busy-waits on the status. -/
def wait_until_next_period_entry (s : Kernel) : Kernel :=
  set_cur s { cur s with status := WAITING }

/-! ## PCP mutex layer -/

/-- `mutex_init`. The array `mutex_list` has `THREAD_NUM` entries in the
source; the store is inside it as long as `mutex_index < THREAD_NUM`. -/
def mutex_init (s : Kernel) (mutex max_prio : Nat) : Kernel × Int :=
  if mutex = 0 then (s, -1)
  else
    ({ s with mutex_list := upd s.mutex_list s.mutex_index mutex,
              mutex_index := (s.mutex_index + 1) % WORD,
              heap := upd s.heap mutex { lock := 0, ceiling := max_prio, thread := -1 } }, 0)

/-- `mutex_lock`, for a call in which no tick falls between the test of the
loop `while (mutex->lock){;}` and the interrupt-disabled section that follows
it. `none`: the caller stays in the loop (the mutex is held on entry, the call
does not return in this state). `some`: the state in which the call returns.
The test is outside the section in the source; a call that is preempted
between the two is the test in one state and `mutex_lock_section` in a later
one. -/
def mutex_lock (s : Kernel) (mutex : Nat) : Option Kernel :=
  if (s.heap mutex).lock ≠ 0 then none
  else
    if (cur s).curr_priority ≥ (s.heap mutex).ceiling ∧ (cur s).curr_priority < s.mutex_ceiling then
      let h1 := upd s.heap mutex { (s.heap mutex) with lock := 1, thread := toInt32 (cur s).priority }
      some { s with heap := h1,
                    mutex_ceiling :=
                      if (h1 mutex).ceiling < s.mutex_ceiling then (h1 mutex).ceiling
                      else s.mutex_ceiling }
    else some s

/-- The interrupt-disabled section of `mutex_lock`: the statements between
`disable_interrupts()` and `enable_interrupts()`, which the caller runs once
it has left the loop `while (mutex->lock){;}`. The section does not read
`mutex->lock`: when a tick falls between the loop and the section, other tasks
run in between, and the section runs on the mutex as they have left it. -/
def mutex_lock_section (s : Kernel) (mutex : Nat) : Kernel :=
  if (cur s).curr_priority ≥ (s.heap mutex).ceiling ∧ (cur s).curr_priority < s.mutex_ceiling then
    let h1 := upd s.heap mutex { (s.heap mutex) with lock := 1, thread := toInt32 (cur s).priority }
    { s with heap := h1,
             mutex_ceiling :=
               if (h1 mutex).ceiling < s.mutex_ceiling then (h1 mutex).ceiling
               else s.mutex_ceiling }
  else s

/-- Value of `sum` after the iterations `i = 0 .. n-1` of the loop of
`mutex_unlock`. -/
def ceiling_sum (heap : Nat → mutex_t) (mutex_list : Nat → Nat) : Nat → Nat
  | 0 => 0
  | n + 1 =>
    if (heap (mutex_list n)).lock ≠ 0 then
      (ceiling_sum heap mutex_list n + (heap (mutex_list n)).ceiling) % WORD
    else ceiling_sum heap mutex_list n

def mutex_unlock (s : Kernel) (mutex : Nat) : Kernel :=
  let h1 := upd s.heap mutex { (s.heap mutex) with lock := 0, thread := -1 }
  let s1 := set_cur { s with heap := h1 } { cur s with curr_priority := (cur s).priority }
  { s1 with mutex_ceiling := ceiling_sum s1.heap s1.mutex_list s1.mutex_index }

/-! ## Calls issued by tasks -/

/-- The state in which the task of priority `p` is the running one
(`current_task = &tcb_list[p]`). -/
def asTask (s : Kernel) (p : Nat) : Kernel := { s with current_task := p }

/-- A mutex call: `init m c` is `mutex_init(m, c)`; `lock p m` and
`unlock p m` are `mutex_lock(m)` and `mutex_unlock(m)` issued by the task of
priority `p`. -/
inductive Call where
  | init (m c : Nat)
  | lock (p m : Nat)
  | unlock (p m : Nat)

/-- Effect of a call that returns; `none` when the call does not return in
this state (a `mutex_lock` on a held mutex). -/
def Call.exec (s : Kernel) : Call → Option Kernel
  | .init m c => some (mutex_init s m c).1
  | .lock p m => mutex_lock (asTask s p) m
  | .unlock p m => some (mutex_unlock (asTask s p) m)

/-- State after a sequence of calls, each of which returns. A `mutex_lock`
whose caller spins changes nothing until the mutex is free; from then on it
is a `lock` call on a free mutex, so the states these sequences reach are the
states the calls of the tasks reach. -/
def run (s : Kernel) : List Call → Option Kernel
  | [] => some s
  | c :: cs => (c.exec s).bind (fun s' => run s' cs)

/-- Specification side: `min ({m.ceiling | m initialised and held} ∪ {31})`
over the first `n` entries of the mutex list. -/
def held_min (heap : Nat → mutex_t) (mutex_list : Nat → Nat) : Nat → Nat
  | 0 => 31
  | n + 1 =>
    if (heap (mutex_list n)).lock ≠ 0 then
      min (held_min heap mutex_list n) (heap (mutex_list n)).ceiling
    else held_min heap mutex_list n

/-- Specification side: the system ceiling the specification prescribes for
the state `s`. -/
def spec_ceiling (s : Kernel) : Nat := held_min s.heap s.mutex_list s.mutex_index

/-! ## Concrete configurations -/

/-- Creates the tasks of the priorities listed, each with `C = 1`, `T = 1000`. -/
def spawn (s : Kernel) : List Nat → Kernel
  | [] => s
  | p :: ps => spawn (thread_create 0x10000 s 0x8000 (0x20000 + 0x1000 * p) p 1 1000).1 ps

/-- Test 8 after `main` has run up to `scheduler_start`: idle task, `mutex0`
(at address `0x40`, ceiling 1), `mutex1` (at `0x50`, ceiling 2), tasks of
priority 1 (C = 20, T = 104) and 2 (C = 30, T = 200). -/
def test8 : Kernel :=
  let s1 := (thread_init 0x10000 boot 0x8000 0x20000).1
  let s2 := (mutex_init s1 0x40 1).1
  let s3 := (mutex_init s2 0x50 2).1
  let s4 := (thread_create 0x10000 s3 0x8100 0x21000 1 20 104).1
  (thread_create 0x10000 s4 0x8200 0x22000 2 30 200).1

/-- Test 11 after `main` has run up to `scheduler_start`: tasks of priority
1, 2 and 3, `mutex1` (at `0x40`, ceiling 0) and `mutex2` (at `0x50`, ceiling 1). -/
def test11 : Kernel :=
  let s1 := (thread_init 0x10000 boot 0x8000 0x20000).1
  let s2 := (thread_create 0x10000 s1 0x8100 0x21000 1 100 600).1
  let s3 := (thread_create 0x10000 s2 0x8200 0x22000 2 100 400).1
  let s4 := (thread_create 0x10000 s3 0x8300 0x23000 3 800 9001).1
  let s5 := (mutex_init s4 0x40 0).1
  (mutex_init s5 0x50 1).1

/-- Four tasks of priority 2, 5, 7 and 10 and four mutexes: at `0x40` with
ceiling 10, at `0x50` with ceiling 5, at `0x60` with ceiling 2 and at `0x70`
with ceiling 7. -/
def four_tasks : Kernel :=
  let s1 := spawn (thread_init 0x10000 boot 0x8000 0x20000).1 [2, 5, 7, 10]
  let s2 := (mutex_init s1 0x40 10).1
  let s3 := (mutex_init s2 0x50 5).1
  let s4 := (mutex_init s3 0x60 2).1
  (mutex_init s4 0x70 7).1

/-- The caller of `mutex_lock(m)` gets the mutex: the call returns, and in
the state it returns in `m` is held and its recorded owner is the caller's
base priority. -/
def acquires (s : Kernel) (m : Nat) : Prop :=
  ∃ s', mutex_lock s m = some s' ∧ (s'.heap m).lock = 1 ∧
    (s'.heap m).thread = toInt32 (cur s).priority

/-- The mutex at `m` is held. -/
def held (s : Kernel) (m : Nat) : Prop := (s.heap m).lock ≠ 0

/-- The mutex at `m` is recorded in the global mutex list. -/
def initialised (s : Kernel) (m : Nat) : Prop := ∃ i, i < s.mutex_index ∧ s.mutex_list i = m

/-- Every mutex was initialised once: the mutex list has no repetition. -/
def init_once (s : Kernel) : Prop :=
  ∀ i j, i < s.mutex_index → j < s.mutex_index → s.mutex_list i = s.mutex_list j → i = j

/-- The TCB of index `p` holds a task of base and current priority `p`, as
`thread_create` leaves it. -/
def created (s : Kernel) (p : Nat) : Prop :=
  (s.tcb_list p).priority = p ∧ (s.tcb_list p).curr_priority = p

/-- Calls of a configuration whose mutexes all have ceiling `c`: `mutex_lock`
and `mutex_unlock` on an initialised mutex by a created task of priority
numerically at least `c`. -/
def same_ceiling_call (s0 : Kernel) (c : Nat) : Call → Prop
  | .init _ _ => False
  | .lock p m => initialised s0 m ∧ created s0 p ∧ c ≤ p
  | .unlock p m => initialised s0 m ∧ created s0 p ∧ c ≤ p

/-- Invariant of the executions of a configuration `s0` whose mutexes all
have ceiling `c`. -/
structure SameCeiling (s0 : Kernel) (c : Nat) (s : Kernel) : Prop where
  idx : s.mutex_index = s0.mutex_index
  lst : s.mutex_list = s0.mutex_list
  ceil : ∀ m, initialised s0 m → (s.heap m).ceiling = c
  crt : ∀ p, created s0 p → created s p
  one : ∀ m1 m2, initialised s0 m1 → initialised s0 m2 → held s m1 → held s m2 → m1 = m2
  sc : ∀ m, initialised s0 m → held s m → s.mutex_ceiling ≤ c

/-- Test 12 after `main` has run up to `scheduler_start`: tasks of priority
1 and 2, `mutex1` (at `0x40`) and `mutex2` (at `0x50`), both of ceiling 1. -/
def test12 : Kernel :=
  let s1 := (thread_init 0x10000 boot 0x8000 0x20000).1
  let s2 := (thread_create 0x10000 s1 0x8100 0x21000 1 200 500).1
  let s3 := (thread_create 0x10000 s2 0x8200 0x22000 2 900 9000).1
  let s4 := (mutex_init s3 0x40 1).1
  (mutex_init s4 0x50 1).1

/-! ## Tasks inside `mutex_lock` -/

/-- Kernel state together with the tasks that are inside the loop
`while (mutex->lock){;}` of `mutex_lock`: `spin p = some m` when the task of
priority `p` spins on the mutex at `m`. -/
structure Sys where
  k : Kernel
  spin : Nat → Option Nat

/-- Steps of the tasks: `lock p m`, task `p` calls `mutex_lock(m)`;
`resume p`, the spinning task `p` finds its mutex free and goes on;
`unlock p m`, task `p` calls `mutex_unlock(m)`. -/
inductive Ev where
  | lock (p m : Nat)
  | resume (p : Nat)
  | unlock (p m : Nat)

/-- One step; `none` when the step cannot be taken (a spinning task issues no
call; a task resumes only if it spins on a mutex that is now free). A
`mutex_lock` on a held mutex leaves the caller spinning. -/
def Sys.step (t : Sys) : Ev → Option Sys
  | .lock p m =>
    if (t.spin p).isSome then none
    else
      match mutex_lock (asTask t.k p) m with
      | none => some { t with spin := upd t.spin p (some m) }
      | some k' => some { t with k := k' }
  | .resume p =>
    match t.spin p with
    | none => none
    | some m =>
      match mutex_lock (asTask t.k p) m with
      | none => none
      | some k' => some { k := k', spin := upd t.spin p none }
  | .unlock p m =>
    if (t.spin p).isSome then none
    else some { t with k := mutex_unlock (asTask t.k p) m }

/-- The states an execution goes through, the first one included; the
execution stops at the first step that cannot be taken. -/
def visited (t : Sys) : List Ev → List Sys
  | [] => [t]
  | e :: es =>
    t :: (match t.step e with
          | some t' => visited t' es
          | none => [])

/-- Two distinct tasks each hold a mutex and each spins in `mutex_lock` on a
mutex held by the other. -/
def deadlock (t : Sys) : Prop :=
  ∃ a b m1 m2, a ≠ b ∧
    held t.k m1 ∧ (t.k.heap m1).thread = toInt32 a ∧
    held t.k m2 ∧ (t.k.heap m2).thread = toInt32 b ∧
    t.spin a = some m2 ∧ t.spin b = some m1

/-- Steps in which a created task locks or unlocks an initialised mutex of
the configuration `s0`, and locks only mutexes it is entitled to: the ceiling
of the mutex is numerically at most its priority. -/
def entitled (s0 : Kernel) : Ev → Prop
  | .lock p m => initialised s0 m ∧ created s0 p ∧ p < THREAD_NUM ∧ (s0.heap m).ceiling ≤ p
  | .resume _ => True
  | .unlock p m => initialised s0 m ∧ created s0 p ∧ p < THREAD_NUM

/-- The system ceiling is at least as restrictive as the one the
specification prescribes: it is numerically at most the minimum of 31 and the
ceilings of the held mutexes. -/
@[reducible] def ceiling_kept (t : Sys) : Prop := t.k.mutex_ceiling ≤ spec_ceiling t.k

/-- Invariant of the kernel state in the executions of entitled tasks. -/
structure PcpInv (s0 : Kernel) (k : Kernel) : Prop where
  idx : k.mutex_index = s0.mutex_index
  lst : k.mutex_list = s0.mutex_list
  ceil : ∀ m, (k.heap m).ceiling = (s0.heap m).ceiling
  crt : ∀ p, created s0 p → created k p
  pair : ∀ m m' a b, initialised s0 m → initialised s0 m' → m ≠ m' → held k m → held k m' →
    (k.heap m).thread = toInt32 a → (k.heap m').thread = toInt32 b →
    a < THREAD_NUM → b < THREAD_NUM →
    a < (s0.heap m').ceiling ∨ b < (s0.heap m).ceiling

/-- Invariant of the spinning tasks: each spins on an initialised mutex it is
entitled to. -/
def SpinInv (s0 : Kernel) (spin : Nat → Option Nat) : Prop :=
  ∀ p m, spin p = some m →
    initialised s0 m ∧ created s0 p ∧ p < THREAD_NUM ∧ (s0.heap m).ceiling ≤ p

/-- Two tasks of priority 2 and 5, a mutex at `0x40` with ceiling 5 and a
mutex at `0x50` with ceiling 2, no task spinning. -/
def two_tasks : Sys :=
  { k := (mutex_init (mutex_init (spawn boot [2, 5]) 0x40 5).1 0x50 2).1, spin := fun _ => none }

/-- The configuration `four_tasks` at the start, no task spinning. -/
def four_tasks_sys : Sys := { k := four_tasks, spin := fun _ => none }

/-- Tasks 5, 7 and 10, and the mutexes at `0x40` (ceiling 10, used by task
10), `0x50` (ceiling 5, used by tasks 5 and 7), `0x60` (ceiling 7, used by
task 7) and `0x70` (ceiling 5, used by tasks 5 and 7), no task spinning. Each
ceiling is the priority of the highest-priority user, as `mutex_init` asks. -/
def three_tasks : Sys :=
  { k := (mutex_init (mutex_init (mutex_init (mutex_init (spawn boot [5, 7, 10])
      0x40 10).1 0x50 5).1 0x60 7).1 0x70 5).1,
    spin := fun _ => none }


/-! ## Remaining system calls -/

/-- Store of `spin_wait` before it busy-waits on the sleep counter. -/
def spin_wait_entry (s : Kernel) : Kernel := set_cur s { cur s with sleep := 0 }

/-- Value returned by `get_time`; the state is not written. -/
def get_time (s : Kernel) : Nat := s.time

/-- Value returned by `get_priority`; the state is not written. -/
def get_priority (s : Kernel) : Nat := (cur s).priority

/-- The global mutex list: the entries `mutex_list[0 .. mutex_index - 1]`. -/
def mutex_seq (s : Kernel) : List Nat := (List.range s.mutex_index).map s.mutex_list


/-! ## The three parts of `call_scheduler` after `find_next_task` -/

/-- The copy of the interrupted frame into the outgoing TCB. -/
def save_frame (s : Kernel) (sp : Nat → Nat) : Kernel :=
  set_cur s { cur s with tcb_regs := save_regs (cur s).tcb_regs sp TCB_REG_NUM }

/-- The conditional `if (... next != current_task->priority && !is_waiting(...))`. -/
def requeue (s : Kernel) (next : Nat) : Kernel :=
  if next ≠ (cur s).priority ∧ is_waiting s (cur s).priority = 0 then
    let t := set_cur s { cur s with status := RUNNABLE }
    set_run_pool (clear_wait_pool t (cur t).priority) (cur t).priority
  else s

/-- The switch to `tcb_list[next]`. -/
def switch_to (s : Kernel) (next : Nat) : Kernel :=
  let s4 := { s with current_task := next }
  let s5 := set_cur s4 { cur s4 with status := RUNNING }
  clear_run_pool (clear_wait_pool s5 (cur s5).priority) (cur s5).priority


/-! ## Executions of the started kernel -/

/-- The condition under which the wake-up loop releases index `i`. -/
@[reducible] def due (s : Kernel) (i : Nat) : Prop :=
  is_waiting s i ≠ 0 ∧ s.time ≥ (s.tcb_list i).wakeup

/-- State after `n` ticks, each with the all-zero frame. -/
def ticks (s : Kernel) : Nat → Kernel
  | 0 => s
  | n + 1 => (call_scheduler (ticks s n) (fun _ => 0)).1

/-- One task of priority 1 with `C = 10` and `T = 100`, and the idle task,
before `scheduler_start`. -/
def budget_task : Kernel :=
  (thread_create 0x10000 (thread_init 0x10000 boot 0x8000 0x20000).1 0x8100 0x21000 1 10 100).1


/-- TCB `i` is queued: it is RUNNABLE with its runnable bit set and its
waiting bit clear, or WAITING with its waiting bit set and its runnable bit
clear. -/
@[reducible] def parked (s : Kernel) (i : Nat) : Prop :=
  (is_runnable s i ≠ 0 ∧ is_waiting s i = 0 ∧ (s.tcb_list i).status = RUNNABLE) ∨
  (is_runnable s i = 0 ∧ is_waiting s i ≠ 0 ∧ (s.tcb_list i).status = WAITING)

/-- Status of TCB `i` and its bits in the two pools agree. -/
@[reducible] def consistent (s : Kernel) (i : Nat) : Prop :=
  (is_runnable s i ≠ 0 ↔ (s.tcb_list i).status = RUNNABLE) ∧
  (is_waiting s i ≠ 0 ↔ (s.tcb_list i).status = WAITING) ∧
  ((is_runnable s i = 0 ∧ is_waiting s i = 0) ↔ (s.tcb_list i).status = RUNNING)

/-- Exactly one TCB of the pool is RUNNING, the one `current_task` points to. -/
def one_running (s : Kernel) : Prop :=
  s.current_task < THREAD_NUM ∧
  ∀ i, i < THREAD_NUM → ((s.tcb_list i).status = RUNNING ↔ i = s.current_task)

/-- State of the kernel when `main` calls `scheduler_start`: `T` tells which
TCBs were initialised, TCB 31 by `thread_init` and the others by
`thread_create`; the latter are RUNNABLE with their runnable bit set. -/
structure Prestart (T : Nat → Bool) (s : Kernel) : Prop where
  idle_task : T 31 = true
  prio : ∀ i, i < THREAD_NUM → T i = true → (s.tcb_list i).priority = i
  run_word : s.runnable_pool < WORD
  wait_word : s.waiting_pool < WORD
  rest : ∀ i, i < THREAD_NUM → T i = false →
    is_runnable s i = 0 ∧ is_waiting s i = 0 ∧ (s.tcb_list i).status ≠ RUNNING
  tasks : ∀ i, i < THREAD_NUM → T i = true → i ≠ 31 → parked s i

/-- Invariant of the started kernel, between two ticks: the running task is
an initialised TCB, RUNNING or (inside `wait_until_next_period`) WAITING; every
other initialised TCB is queued; the TCBs never initialised have no bit in
the pools. -/
structure Ticking (T : Nat → Bool) (s : Kernel) : Prop where
  cur_lt : s.current_task < THREAD_NUM
  cur_task : T s.current_task = true
  idle_task : T 31 = true
  prio : ∀ i, i < THREAD_NUM → T i = true → (s.tcb_list i).priority = i
  run_word : s.runnable_pool < WORD
  wait_word : s.waiting_pool < WORD
  rest : ∀ i, i < THREAD_NUM → T i = false →
    is_runnable s i = 0 ∧ is_waiting s i = 0 ∧ (s.tcb_list i).status ≠ RUNNING
  others : ∀ i, i < THREAD_NUM → T i = true → i ≠ s.current_task → parked s i
  cur_status : (cur s).status = RUNNING ∨ (cur s).status = WAITING

/-- What the started kernel does: a timer tick with the interrupted frame
`sp`, or a system call of the running task (`wait_until_next_period`,
`spin_wait`, `mutex_init`, `mutex_lock`, `mutex_unlock`). -/
inductive KStep where
  | tick (sp : Nat → Nat)
  | wait
  | spin
  | init (m c : Nat)
  | lock (m : Nat)
  | unlock (m : Nat)

/-- State after a step. A `mutex_lock` whose caller spins writes nothing. -/
def KStep.exec (s : Kernel) : KStep → Kernel
  | .tick sp => (call_scheduler s sp).1
  | .wait => wait_until_next_period_entry s
  | .spin => spin_wait_entry s
  | .init m c => (mutex_init s m c).1
  | .lock m => (mutex_lock s m).getD s
  | .unlock m => mutex_unlock s m

/-- State after a sequence of steps. -/
def krun (s : Kernel) : List KStep → Kernel
  | [] => s
  | e :: es => krun (e.exec s) es


/-- The TCBs initialised in Test 8: tasks 1 and 2, and the idle TCB 31. -/
def test8_tasks (i : Nat) : Bool := i == 1 || i == 2 || i == 31


/-- Test 8 after 100000 ticks spent in the idle task since `scheduler_start`:
the idle TCB is the running one and its execution count has reached its
budget of 100000. -/
def test8_idle_spent : Kernel :=
  let s := scheduler_start_state test8
  { s with time := 100000,
           tcb_list := upd s.tcb_list 31 { (s.tcb_list 31) with execution := 100000 } }

/-- The idle task and one task of priority 1 with `C = 1` and `T = 2`, before
`scheduler_start`. -/
def quick_task : Kernel :=
  (thread_create 0x10000 (thread_init 0x10000 boot 0x8000 0x20000).1 0x8100 0x21000 1 1 2).1

/-- The TCBs initialised in `quick_task` and in `budget_task`. -/
def one_task (i : Nat) : Bool := i == 1 || i == 31


/-! ## The calls of `main` before `scheduler_start` -/

/-- A call of `main` before `scheduler_start`: `thread_init`, `thread_create`
or `mutex_init`. -/
inductive SetupCall where
  | idle (fn stack_start : Nat)
  | create (fn stack_start prio C T : Nat)
  | mutex (m c : Nat)

/-- State after a call of `main`, `base` being the address of `tcb_list`. -/
def SetupCall.exec (base : Nat) (s : Kernel) : SetupCall → Kernel
  | .idle fn stack_start => (thread_init base s fn stack_start).1
  | .create fn stack_start prio C T => (thread_create base s fn stack_start prio C T).1
  | .mutex m c => (mutex_init s m c).1

/-- State after a sequence of calls of `main`. -/
def setup (base : Nat) (s : Kernel) : List SetupCall → Kernel
  | [] => s
  | c :: cs => setup base (c.exec base s) cs

/-- The call initialises TCB `i`: it is a `thread_init` (for `i = 31`) or a
`thread_create` with priority `i`, and its two pointers are not `NULL`. -/
def SetupCall.inits (i : Nat) : SetupCall → Bool
  | .idle fn stack_start => i == 31 && fn != 0 && stack_start != 0
  | .create fn stack_start prio _ _ => i == prio && fn != 0 && stack_start != 0
  | .mutex _ _ => false

/-- The TCBs a sequence of calls initialises. -/
def setup_tasks (cs : List SetupCall) (i : Nat) : Bool := cs.any (SetupCall.inits i)

/-- Tasks are created with a priority in 0..30. -/
def SetupCall.ok : SetupCall → Prop
  | .create _ _ prio _ _ => prio < 31
  | _ => True

/-- Invariant of the state while `main` sets the tasks up. -/
structure SetupInv (T : Nat → Bool) (s : Kernel) : Prop where
  prio : ∀ i, i < THREAD_NUM → T i = true → (s.tcb_list i).priority = i
  run_word : s.runnable_pool < WORD
  no_wait : s.waiting_pool = 0
  rest : ∀ i, i < THREAD_NUM → T i = false →
    is_runnable s i = 0 ∧ (s.tcb_list i).status ≠ RUNNING
  tasks : ∀ i, i < THREAD_NUM → T i = true → i ≠ 31 →
    is_runnable s i ≠ 0 ∧ (s.tcb_list i).status = RUNNABLE


/-! ## OLED frame buffer (`screen.c`, `screen.h`) -/

/-- Number of rows in the OLED display. -/
def OLED_ROWS : Nat := 32
/-- Number of columns in the OLED display. -/
def OLED_COLS : Nat := 128
/-- Highest row we can index. -/
def OLED_MAX_ROW : Nat := OLED_ROWS - 1
/-- Highest column we can index. -/
def OLED_MAX_COL : Nat := OLED_COLS - 1
/-- Number of pixels that each buffer element represents. -/
def OLED_CELL_SIZE : Nat := 8
/-- Size of the OLED internal buffer. -/
def OLED_BUF_SIZE : Nat := (OLED_ROWS * OLED_COLS) / OLED_CELL_SIZE

/-- `oled_buf_pixel_set` on the frame buffer `buf` (an array of `uint8_t`);
`none` is `panic()`. -/
def oled_buf_pixel_set (buf : Nat → Nat) (row col : Nat) : Option (Nat → Nat) :=
  if col ≥ OLED_COLS ∨ row ≥ OLED_ROWS then none
  else
    let col := OLED_MAX_COL - col
    let row := OLED_MAX_ROW - row
    let index := col + (row / OLED_CELL_SIZE) * OLED_COLS
    let offset := row % OLED_CELL_SIZE
    some (upd buf index ((buf index ||| (1 <<< offset)) % 256))

/-- Frame buffer after the iterations `i = 0 .. n-1` of the loop of
`oled_buf_clr`. -/
def oled_clr_loop (buf : Nat → Nat) : Nat → (Nat → Nat)
  | 0 => buf
  | n + 1 => upd (oled_clr_loop buf n) n 0

/-- `oled_buf_clr`: `for (i = 0; i < OLED_COLS; i++) { _oled_frame_buffer[i] = 0;}`. -/
def oled_buf_clr (buf : Nat → Nat) : Nat → Nat := oled_clr_loop buf OLED_COLS

/-- The frame buffer with no pixel set. -/
def blank_buffer : Nat → Nat := fun _ => 0

/-! ## Character and heap system calls (`syscalls.c`, `uart.c`) -/

/-- The UART as the kernel sees it: `rx`, the bytes the receiver will
deliver, in order; `tx`, the bytes written to the transmitter so far. -/
structure Uart where
  rx : List Nat
  tx : List Nat

/-- `uart_put_byte`: the byte goes out once the transmitter is ready. -/
def uart_put_byte (u : Uart) (byte : Nat) : Uart := { u with tx := u.tx ++ [byte % 256] }

/-- `uart_get_byte`: the next received byte; `none` when no byte ever
arrives (the call stays in its polling loop). -/
def uart_get_byte (u : Uart) : Option (Uart × Nat) :=
  match u.rx with
  | [] => none
  | b :: rest => some ({ u with rx := rest }, b % 256)

/-- UART after the iterations `c = 0 .. n-1` of the loop of `syscall_write`;
`mem` is the byte-addressed memory of the caller. -/
def write_loop (mem : Nat → Nat) (u : Uart) (ptr : Nat) : Nat → Uart
  | 0 => u
  | n + 1 => uart_put_byte (write_loop mem u ptr n) (mem (ptr + n))

/-- `syscall_write`. The loop `while (c < len)` runs `len` times for a
positive `len` and not at all otherwise. -/
def syscall_write (mem : Nat → Nat) (u : Uart) (file : Int) (ptr : Nat) (len : Int) :
    Uart × Int :=
  if file ≠ 1 then (u, -1)
  else (write_loop mem u ptr len.toNat, 0)

/-- Memory holding the bytes of `"abc"` at address `0x9000`. -/
def abc_mem : Nat → Nat := upd (upd (upd (fun _ => 0) 0x9000 97) 0x9001 98) 0x9002 99

/-- `syscall_sbrk`. `heap_low` and `heap_top` are the addresses of the linker
symbols `__heap_low` and `__heap_top`; the first component is the new value
of the global `heap_end`; pointer arithmetic is modulo `2 ^ 32`; the value
returned is the previous end of the heap, or -1. -/
def syscall_sbrk (heap_low heap_top : Nat) (heap_end : Nat) (incr : Int) : Nat × Int :=
  let heap_end := if heap_end = 0 then heap_low else heap_end
  let prev_heap_end := heap_end
  if (((heap_end : Int) + incr) % (WORD : Int)).toNat > heap_top then (heap_end, -1)
  else ((((heap_end : Int) + incr) % (WORD : Int)).toNat, (prev_heap_end : Int))

/-- The end of the heap a value of the global `heap_end` stands for: the
global is 0 until the first call of `syscall_sbrk`, which reads it as
`&__heap_low`. -/
def heap_end_of (heap_low heap_end : Nat) : Nat := if heap_end = 0 then heap_low else heap_end


/-- Loop of `syscall_read`, entered with `ct` bytes stored, the receiver
holding `rx` and the transmitter having sent `tx`. Each iteration takes the
head of `rx` (`uart_get_byte`, which returns it as a `uint8_t`); `none` is a
`uart_get_byte` that waits for a byte that never arrives. `newline` are the
bytes `printk("\n")` transmits (`printk` is not part of these sources). The
counter `ct` is a natural number: it starts at 0 and is decremented only
under `ct > 0`. The result is the UART, the memory and the value returned. -/
def read_loop (newline : List Nat) (ptr : Nat) (len : Int) :
    List Nat → List Nat → (Nat → Nat) → Nat → Option (Uart × (Nat → Nat) × Int)
  | [], tx, mem, ct =>
    if (ct : Int) < len then none else some ({ rx := [], tx := tx }, mem, (ct : Int))
  | b :: rest, tx, mem, ct =>
    if (ct : Int) < len then
      if b % 256 = 4 then some ({ rx := rest, tx := tx }, mem, (ct : Int))
      else if b % 256 = 8 ∨ b % 256 = 127 then
        if ct > 0 then read_loop newline ptr len rest (tx ++ [8, 32, 8]) mem (ct - 1)
        else read_loop newline ptr len rest tx mem ct
      else if b % 256 = 13 then
        match rest with
        | [] => none
        | _ :: rest2 =>
          some ({ rx := rest2, tx := tx ++ newline }, upd mem (ptr + ct) 10, ((ct + 1 : Nat) : Int))
      else if b % 256 = 10 then
        some ({ rx := rest, tx := tx ++ newline }, upd mem (ptr + ct) 10, ((ct + 1 : Nat) : Int))
      else
        read_loop newline ptr len rest (tx ++ [b % 256]) (upd mem (ptr + ct) (b % 256)) (ct + 1)
    else some ({ rx := b :: rest, tx := tx }, mem, (ct : Int))

/-- `syscall_read`: the UART, the memory and the value returned, or `none`
when the call waits for input that never arrives. -/
def syscall_read (newline : List Nat) (mem : Nat → Nat) (u : Uart) (file : Int) (ptr : Nat)
    (len : Int) : Option (Uart × (Nat → Nat) × Int) :=
  if file ≠ 0 then some (u, mem, -1)
  else read_loop newline ptr len u.rx u.tx mem 0

/-- The bytes `ptr[0 .. n)` of the memory. -/
def stored (mem : Nat → Nat) (ptr n : Nat) : List Nat := (List.range n).map (fun i => mem (ptr + i))

/-- Specification side: the line a terminal read of at most `len` bytes
leaves, `buf` being the bytes stored so far. End-of-transmission (4) stops
the read without being stored; backspace and delete (8, 127) remove the last
stored byte, if any; line feed (10) and carriage return (13, once the byte
after it has arrived) store one newline byte 10 and stop; any other byte is
stored. `none`: the input ends before the read does. -/
def spec_line (len : Nat) : List Nat → List Nat → Option (List Nat)
  | [], buf => if buf.length < len then none else some buf
  | b :: rest, buf =>
    if buf.length < len then
      if b % 256 = 4 then some buf
      else if b % 256 = 8 ∨ b % 256 = 127 then spec_line len rest buf.dropLast
      else if b % 256 = 13 then (if rest = [] then none else some (buf ++ [10]))
      else if b % 256 = 10 then some (buf ++ [10])
      else spec_line len rest (buf ++ [b % 256])
    else some buf

/-! ## `scheduler_start` and the trap dispatch (`kernel.c`) -/

/-- `scheduler_start`. `exceeds` is the outcome of the test
`utest > utilization_list[thr_count]`, which the source computes in
single-precision floating point from the `computation` and `period` of the
TCBs in the runnable pool; it is a parameter here. The value returned is -1
when the task set is rejected; `none` when it is accepted: the call then
stays in `while(1){;}`. -/
def scheduler_start (exceeds : Kernel → Bool) (s : Kernel) : Kernel × Option Int :=
  let s1 := { s with current_task := 31 }
  let s2 := set_cur s1 { cur s1 with execution := 0, status := RUNNING }
  if exceeds s2 then (s2, some (-1))
  else ({ s2 with time := 0 }, none)

/-- The syscall numbers of `swi_num.h`. The header is not part of these
sources: the numbers are a parameter of `swi_c_handler`. -/
structure swi_num_h where
  SWI_SBRK : Int
  SWI_WRITE : Int
  SWI_READ : Int
  SWI_EXIT : Int
  SWI_CLOSE : Int
  SWI_FSTAT : Int
  SWI_ISATTY : Int
  SWI_LSEEK : Int
  SWI_ADC_START : Int
  SWI_ADC_STOP : Int
  SWI_THR_INIT : Int
  SWI_THR_CREATE : Int
  SWI_MUT_INIT : Int
  SWI_MUT_LOK : Int
  SWI_MUT_ULK : Int
  SWI_WAIT : Int
  SWI_TIME : Int
  SWI_SCHD_START : Int
  SWI_PRIORITY : Int
  SWI_SPIN_WAIT : Int

/-- What the kernel takes from outside these sources: the address of
`tcb_list`, the linker symbols `__heap_low` and `__heap_top`, the bytes
`printk("\n")` transmits, and the outcome of the floating-point test of
`scheduler_start`. -/
structure Board where
  tcb_base : Nat
  heap_low : Nat
  heap_top : Nat
  newline : List Nat
  exceeds : Kernel → Bool

/-- State of the machine a system call acts on: the globals of
`syscall_thread.c`, the global `heap_end` of `syscalls.c`, the UART and the
byte-addressed memory of the user program. -/
structure Machine where
  k : Kernel
  heap_end : Nat
  uart : Uart
  mem : Nat → Nat

/-- Conversion of an `int` argument to `unsigned int` or to a pointer. -/
def word (x : Int) : Nat := (x % (WORD : Int)).toNat

/-- `swi_c_handler`. The second component is the value returned, `none` when
the call does not return in the state reached: `syscall_exit`, an accepted
`scheduler_start`, a `syscall_read` without input, and the calls that
busy-wait for a write made by another task or by a tick (`mutex_lock` on a
held mutex, `wait_until_next_period`, `spin_wait` of a positive time); the
first component then holds what the call has written before it waits. The
messages of `printk` in `syscall_exit` and `scheduler_start` are left out. -/
def swi_c_handler (b : Board) (n : swi_num_h) (m : Machine) (swi_num : Int) (args : Nat → Int)
    (more : Int) : Machine × Option Int :=
  if swi_num = n.SWI_SBRK then
    let r := syscall_sbrk b.heap_low b.heap_top m.heap_end (args 0)
    ({ m with heap_end := r.1 }, some r.2)
  else if swi_num = n.SWI_WRITE then
    let r := syscall_write m.mem m.uart (args 0) (word (args 1)) (args 2)
    ({ m with uart := r.1 }, some r.2)
  else if swi_num = n.SWI_READ then
    match syscall_read b.newline m.mem m.uart (args 0) (word (args 1)) (args 2) with
    | none => (m, none)
    | some (u, mem, r) => ({ m with uart := u, mem := mem }, some r)
  else if swi_num = n.SWI_EXIT then (m, none)
  else if swi_num = n.SWI_CLOSE then (m, some (-1))
  else if swi_num = n.SWI_FSTAT then (m, some 0)
  else if swi_num = n.SWI_ISATTY then (m, some 1)
  else if swi_num = n.SWI_LSEEK then (m, some 0)
  else if swi_num = n.SWI_ADC_START ∨ swi_num = n.SWI_ADC_STOP ∨ swi_num = n.SWI_THR_INIT then
    let r := thread_init b.tcb_base m.k (word (args 0)) (word (args 1))
    ({ m with k := r.1 }, some r.2)
  else if swi_num = n.SWI_THR_CREATE then
    let r := thread_create b.tcb_base m.k (word (args 0)) (word (args 1)) (word (args 2))
      (word (args 3)) (word more)
    ({ m with k := r.1 }, some r.2)
  else if swi_num = n.SWI_MUT_INIT then
    let r := mutex_init m.k (word (args 0)) (word (args 1))
    ({ m with k := r.1 }, some r.2)
  else if swi_num = n.SWI_MUT_LOK then
    match mutex_lock m.k (word (args 0)) with
    | none => (m, none)
    | some k => ({ m with k := k }, some (-1))
  else if swi_num = n.SWI_MUT_ULK then
    ({ m with k := mutex_unlock m.k (word (args 0)) }, some (-1))
  else if swi_num = n.SWI_WAIT then
    ({ m with k := wait_until_next_period_entry m.k }, none)
  else if swi_num = n.SWI_TIME then (m, some (get_time m.k : Int))
  else if swi_num = n.SWI_SCHD_START then
    let r := scheduler_start b.exceeds m.k
    ({ m with k := r.1 }, r.2)
  else if swi_num = n.SWI_PRIORITY then (m, some (get_priority m.k : Int))
  else if swi_num = n.SWI_SPIN_WAIT then
    ({ m with k := spin_wait_entry m.k }, if word (args 0) = 0 then some (-1) else none)
  else (m, some (-1))

/-- The reserved numbers of the trap ABI. -/
def reserved (n : swi_num_h) : List Int :=
  [n.SWI_SBRK, n.SWI_WRITE, n.SWI_READ, n.SWI_CLOSE, n.SWI_FSTAT, n.SWI_ISATTY, n.SWI_LSEEK,
   n.SWI_EXIT, n.SWI_THR_INIT, n.SWI_THR_CREATE, n.SWI_MUT_INIT, n.SWI_MUT_LOK, n.SWI_MUT_ULK,
   n.SWI_WAIT, n.SWI_TIME, n.SWI_SCHD_START, n.SWI_PRIORITY, n.SWI_SPIN_WAIT]

/-- A numbering of the system calls with twenty distinct numbers, in the
order of the cases of `swi_c_handler`. -/
def numbering : swi_num_h :=
  { SWI_SBRK := 1, SWI_WRITE := 2, SWI_READ := 3, SWI_EXIT := 4, SWI_CLOSE := 5, SWI_FSTAT := 6,
    SWI_ISATTY := 7, SWI_LSEEK := 8, SWI_ADC_START := 9, SWI_ADC_STOP := 10, SWI_THR_INIT := 11,
    SWI_THR_CREATE := 12, SWI_MUT_INIT := 13, SWI_MUT_LOK := 14, SWI_MUT_ULK := 15,
    SWI_WAIT := 16, SWI_TIME := 17, SWI_SCHD_START := 18, SWI_PRIORITY := 19,
    SWI_SPIN_WAIT := 20 }

/-- A board: `tcb_list` at `0x10000`, the heap between `0x100000` and
`0x200000`, a `printk` that transmits the newline byte, and a test of
`scheduler_start` that accepts every task set. -/
def board : Board :=
  { tcb_base := 0x10000, heap_low := 0x100000, heap_top := 0x200000, newline := [10],
    exceeds := fun _ => false }

/-- The machine after boot: the kernel globals in their static
initialisation, an empty heap, a silent UART, the memory all zero. -/
def boot_machine : Machine :=
  { k := boot, heap_end := 0, uart := { rx := [], tx := [] }, mem := fun _ => 0 }

/-- Arguments `args[0] = 0x8000`, `args[1] = 0x20000` of a system call. -/
def two_pointers : Nat → Int := fun i => if i = 0 then 0x8000 else if i = 1 then 0x20000 else 0


/-- Three tasks of priority 1, 2 and 3 with `C = 50` and `T = 100` each, and
the idle task, before `scheduler_start`: a task set of utilisation 1.5. The
quotients 50 / 100 and their sum 1.5 are exact in single precision, and 1.5
exceeds `utilization_list[3] = 0.779763`: `scheduler_start` rejects it. -/
def overloaded : Kernel :=
  let s1 := (thread_init 0x10000 boot 0x8000 0x20000).1
  let s2 := (thread_create 0x10000 s1 0x8100 0x21000 1 50 100).1
  let s3 := (thread_create 0x10000 s2 0x8200 0x22000 2 50 100).1
  (thread_create 0x10000 s3 0x8300 0x23000 3 50 100).1

/-- Number of ticks among the steps. -/
def tick_count : List KStep → Nat
  | [] => 0
  | .tick _ :: es => tick_count es + 1
  | _ :: es => tick_count es

/-- The calls of `main` in Test 8, up to `scheduler_start`. -/
def test8_calls : List SetupCall :=
  [.idle 0x8000 0x20000, .mutex 0x40 1, .mutex 0x50 2, .create 0x8100 0x21000 1 20 104,
   .create 0x8200 0x22000 2 30 200]


/-! ## Busy-waits of `spin_wait` and `wait_until_next_period` over the steps -/

/-- The test that ends the loop `while(*s < ms){;}` of `spin_wait`: `p` is
the index of the caller's TCB, whose `sleep` field `s` points to. -/
def spin_wait_done (s : Kernel) (p ms : Nat) : Bool := decide (¬ (s.tcb_list p).sleep < ms)

/-- Number of ticks among the steps at which TCB `p` is the outgoing task
and is RUNNING. -/
def own_ticks (p : Nat) : Kernel → List KStep → Nat
  | _, [] => 0
  | s, .tick sp :: es =>
    (if s.current_task = p ∧ (cur s).status = RUNNING then 1 else 0)
      + own_ticks p (call_scheduler s sp).1 es
  | s, e :: es => own_ticks p (e.exec s) es

/-- The task of TCB `p` issues no system call in these steps (it is inside a
busy-wait): every step that is not a tick is taken while another task runs. -/
def calls_by_others (p : Nat) : Kernel → List KStep → Prop
  | _, [] => True
  | s, .tick sp :: es => calls_by_others p (call_scheduler s sp).1 es
  | s, e :: es => s.current_task ≠ p ∧ calls_by_others p (e.exec s) es


/-- The tick taken in state `s` releases TCB `p`: the wake-up loop, which
runs on the state left by the accounting of the outgoing task, finds `p`
below 31, in the waiting pool and with `time ≥ wakeup`. -/
@[reducible] def releases (s : Kernel) (p : Nat) : Prop := p < 31 ∧ due (account (time_inc s)) p

/-- The values of `time` at the ticks among the steps that release TCB `p`,
in order. -/
def release_times (p : Nat) : Kernel → List KStep → List Nat
  | _, [] => []
  | s, .tick sp :: es =>
    (if releases s p then [(time_inc s).time] else [])
      ++ release_times p (call_scheduler s sp).1 es
  | s, e :: es => release_times p (e.exec s) es

/-- The task of TCB `p` keeps to its period over the steps: at a tick that
finds it RUNNING it has budget left, so that it becomes WAITING through
`wait_until_next_period` only; at the tick that finds it WAITING, it has
called `wait_until_next_period` strictly before its next wakeup time
`wakeup + period`. The counters do not wrap: `time + 1` and
`wakeup + period` stay below `2 ^ 32`. -/
def punctual (p : Nat) : Kernel → List KStep → Prop
  | _, [] => True
  | s, .tick sp :: es =>
    s.time + 1 < WORD ∧
    (s.current_task = p → (cur s).status = RUNNING → (cur s).execution < (cur s).computation) ∧
    (s.current_task = p → (cur s).status = WAITING →
      s.time < (cur s).wakeup + (cur s).period ∧ (cur s).wakeup + (cur s).period < WORD) ∧
    punctual p (call_scheduler s sp).1 es
  | s, e :: es => punctual p (e.exec s) es

/-- TCB `p`, of period `P`, after `r` releases: it is out of the waiting
pool with `wakeup = r * P`, or it is in the waiting pool, before its wakeup
time `(r + 1) * P`. -/
def on_schedule (P p r : Nat) (s : Kernel) : Prop :=
  (s.tcb_list p).period = P ∧
  ((is_waiting s p = 0 ∧ (s.tcb_list p).wakeup = r * P) ∨
   (is_waiting s p ≠ 0 ∧ s.time < (s.tcb_list p).wakeup ∧ (s.tcb_list p).wakeup = (r + 1) * P))


/-- Specification side: `mutex_lock` with the acquisition test made on the
base priority of the caller instead of `curr_priority`. -/
def mutex_lock_base (s : Kernel) (mutex : Nat) : Option Kernel :=
  if (s.heap mutex).lock ≠ 0 then none
  else
    if (cur s).priority ≥ (s.heap mutex).ceiling ∧ (cur s).priority < s.mutex_ceiling then
      let h1 := upd s.heap mutex { (s.heap mutex) with lock := 1, thread := toInt32 (cur s).priority }
      some { s with heap := h1,
                    mutex_ceiling :=
                      if (h1 mutex).ceiling < s.mutex_ceiling then (h1 mutex).ceiling
                      else s.mutex_ceiling }
    else some s


/-! ## Ownership of the mutexes along the calls -/

/-- Specification side: the record of the task whose `mutex_lock` acquired
each mutex, after the call `c` issued in state `s`: a `mutex_init` and a
`mutex_unlock` erase the entry of their mutex, a `mutex_lock` that returns
with the mutex held enters its caller. -/
def Call.acquirer (s : Kernel) (g : Nat → Option Nat) : Call → Nat → Option Nat
  | .init m _ => if m = 0 then g else upd g m none
  | .lock p m =>
    match mutex_lock (asTask s p) m with
    | some s' => if (s'.heap m).lock ≠ 0 then upd g m (some p) else g
    | none => g
  | .unlock _ m => upd g m none

/-- Specification side: the record of acquirers after a sequence of calls,
each of which returns. -/
def acquirers (s : Kernel) (g : Nat → Option Nat) : List Call → Nat → Option Nat
  | [] => g
  | c :: cs =>
    match c.exec s with
    | some s' => acquirers s' (c.acquirer s g) cs
    | none => g

/-- The calls `mutex_lock` and `mutex_unlock` are issued by tasks of the
pool. -/
def Call.by_task : Call → Prop
  | .init _ _ => True
  | .lock p _ => p < THREAD_NUM
  | .unlock p _ => p < THREAD_NUM

/-- Invariant of the mutexes along the calls from `s0`: base priorities are
those of `s0`; an initialised mutex is held iff its recorded owner is not
-1, and the recorded owner of a held mutex is the base priority of the task
entered in the record of acquirers. -/
structure OwnInv (s0 s : Kernel) (g : Nat → Option Nat) : Prop where
  prio : ∀ p, (s.tcb_list p).priority = (s0.tcb_list p).priority
  own : ∀ m, initialised s m →
    ((held s m ↔ (s.heap m).thread ≠ -1) ∧
     (held s m → ∃ p, g m = some p ∧ p < THREAD_NUM ∧
        (s.heap m).thread = toInt32 (s0.tcb_list p).priority))


/-! ## The utilisation table -/

/-- The decimal entries of `utilization_list[33]`, the hard-coded utilization
table for 0 to 32 tasks, as written in the source (the array holds them in
single precision). The array has no entry beyond index 32. -/
def utilization_list : Nat → ℚ
  | 0 => 0
  | 1 => 1
  | 2 => 828427 / 1000000
  | 3 => 779763 / 1000000
  | 4 => 756828 / 1000000
  | 5 => 743492 / 1000000
  | 6 => 734772 / 1000000
  | 7 => 728627 / 1000000
  | 8 => 724062 / 1000000
  | 9 => 720538 / 1000000
  | 10 => 717735 / 1000000
  | 11 => 715452 / 1000000
  | 12 => 713557 / 1000000
  | 13 => 711959 / 1000000
  | 14 => 710593 / 1000000
  | 15 => 709412 / 1000000
  | 16 => 708381 / 1000000
  | 17 => 707472 / 1000000
  | 18 => 706666 / 1000000
  | 19 => 705946 / 1000000
  | 20 => 705298 / 1000000
  | 21 => 704713 / 1000000
  | 22 => 704182 / 1000000
  | 23 => 703698 / 1000000
  | 24 => 703254 / 1000000
  | 25 => 702846 / 1000000
  | 26 => 702469 / 1000000
  | 27 => 702121 / 1000000
  | 28 => 701798 / 1000000
  | 29 => 701497 / 1000000
  | 30 => 701217 / 1000000
  | 31 => 700955 / 1000000
  | 32 => 700709 / 1000000
  | _ => 0


/-- The idle task and one task of priority 1 with `C = 1` and `T = 100002`,
before `scheduler_start`. -/
def late_task : Kernel :=
  (thread_create 0x10000 (thread_init 0x10000 boot 0x8000 0x20000).1 0x8100 0x21000 1 1 100002).1

/-- The kernel of `late_task` started, after the first tick, which elects
task 1, and the call of `wait_until_next_period` by task 1. -/
def late_sleeper : Kernel :=
  wait_until_next_period_entry (call_scheduler (scheduler_start_state late_task) (fun _ => 0)).1

/-- Tasks 1 (`C = 1`, `T = 4`) and 2 (`C = 2`, `T = 40`) and the idle task,
with the mutexes at `0x40` (ceiling 1, used by tasks 1 and 2), at `0x50`
(ceiling 2, used by task 2) and at `0x60` (ceiling 1, used by task 1), before
`scheduler_start`. The utilisation is 1/4 + 2/40 = 0.3, below the bound
0.828427 of two tasks. -/
def race_tasks : Kernel :=
  let s1 := (thread_init 0x10000 boot 0x8000 0x20000).1
  let s2 := (mutex_init s1 0x40 1).1
  let s3 := (mutex_init s2 0x50 2).1
  let s4 := (mutex_init s3 0x60 1).1
  let s5 := (thread_create 0x10000 s4 0x8100 0x21000 1 1 4).1
  (thread_create 0x10000 s5 0x8200 0x22000 2 2 40).1

/-- The kernel of `race_tasks` started, at the moment task 2 reads
`mutex->lock` in the loop of `mutex_lock` on the mutex at `0x40`: the tick of
time 1 has elected task 1, which has called `wait_until_next_period`; the
tick of time 2 has elected the idle task and the tick of time 3 task 2, which
has locked the mutex at `0x50`. -/
def race_at_test : Kernel :=
  krun (scheduler_start_state race_tasks)
    [.tick (fun _ => 0), .wait, .tick (fun _ => 0), .tick (fun _ => 0), .lock 0x50]

/-- The kernel of `race_tasks` when task 2 runs again after `race_at_test`:
the tick of time 4 has released and elected task 1, which has called
`mutex_lock` on the mutex at `0x40`, `mutex_lock` and `mutex_unlock` on the
mutex at `0x60` and `wait_until_next_period`; the tick of time 5 has elected
the idle task and the tick of time 6 task 2. Task 2 has not run between the
two states. -/
def race_at_section : Kernel :=
  krun race_at_test
    [.tick (fun _ => 0), .lock 0x40, .lock 0x60, .unlock 0x60, .wait, .tick (fun _ => 0),
     .tick (fun _ => 0)]

/-! ## Theorems -/

set_option maxRecDepth 100000

/-- C1 (evaluation of the code). Test 11, task 3 holds `mutex1` (ceiling 0);
task 2 calls `mutex_lock(mutex2)` on the free `mutex2`: the call returns, and
`mutex2` is still free and without owner. -/
theorem mutex_lock_returns_without_mutex :
    (run test11 [.lock 3 0x40]).map (fun s => ((s.heap 0x40).lock, (s.heap 0x50).lock)) = some (1, 0)
    ∧ (run test11 [.lock 3 0x40, .lock 2 0x50]).map
        (fun s => ((s.heap 0x50).lock, (s.heap 0x50).thread)) = some (0, -1) := by
  decide

/-- C2 as stated fails: in Test 8 task 1 (base priority 1) locks the free
`mutex0` of ceiling 1 and gets it, although `1 < 1` is false. -/
theorem acquires_not_strictly_above_ceiling :
    (test8.heap 0x40).lock = 0 ∧ acquires (asTask test8 1) 0x40 ∧
    ¬ ((cur (asTask test8 1)).priority < ((asTask test8 1).heap 0x40).ceiling ∧
       (cur (asTask test8 1)).priority < (asTask test8 1).mutex_ceiling) := by
  refine ⟨by decide, ⟨_, rfl, by decide, by decide⟩, by decide⟩

/-- C2 (amended). For every state and every free mutex `m`, `mutex_lock(m)`
gives the caller the mutex if and only if the caller's current priority is
numerically at least `m.ceiling` and strictly below the system ceiling. -/
theorem mutex_lock_acquires_iff (s : Kernel) (m : Nat) (hfree : (s.heap m).lock = 0) :
    acquires s m ↔
      ((s.heap m).ceiling ≤ (cur s).curr_priority ∧ (cur s).curr_priority < s.mutex_ceiling) := by
  by_cases hg : (cur s).curr_priority ≥ (s.heap m).ceiling ∧ (cur s).curr_priority < s.mutex_ceiling
  · refine iff_of_true ?_ hg
    unfold acquires mutex_lock
    rw [if_neg (by simp [hfree]), if_pos hg]
    exact ⟨_, rfl, by simp [upd], by simp [upd]⟩
  · refine iff_of_false ?_ hg
    unfold acquires mutex_lock
    rw [if_neg (by simp [hfree]), if_neg hg]
    rintro ⟨s', hs', hl, -⟩
    cases hs'
    rw [hfree] at hl
    exact absurd hl (by decide)

/-- Witness of `mutex_lock_acquires_iff`: Test 8, task 1 and `mutex0`. -/
theorem mutex_lock_acquires_iff_witness :
    (test8.heap 0x40).lock = 0 ∧
    (acquires (asTask test8 1) 0x40 ↔
      (((asTask test8 1).heap 0x40).ceiling ≤ (cur (asTask test8 1)).curr_priority ∧
        (cur (asTask test8 1)).curr_priority < (asTask test8 1).mutex_ceiling)) :=
  ⟨by decide, mutex_lock_acquires_iff (asTask test8 1) 0x40 (by decide)⟩

/-- C3 (evaluation of the code). With tasks 10, 5 and 2 holding the mutexes
of ceiling 10, 5 and 2, task 2 unlocks its mutex: the system ceiling becomes
15. Task 7 then locks the free mutex of ceiling 7 and gets it, while the mutex
of ceiling 5 is held by task 5. -/
theorem lock_granted_under_held_ceiling :
    (run four_tasks [.lock 10 0x40, .lock 5 0x50, .lock 2 0x60, .unlock 2 0x60]).map
        (fun s => (s.mutex_ceiling, (s.heap 0x50).lock, (s.heap 0x50).thread,
                   (s.heap 0x50).ceiling, (s.heap 0x70).lock)) = some (15, 1, 5, 5, 0)
    ∧ (run four_tasks [.lock 10 0x40, .lock 5 0x50, .lock 2 0x60, .unlock 2 0x60,
                        .lock 7 0x70]).map
        (fun s => ((s.heap 0x70).lock, (s.heap 0x70).thread, (s.heap 0x50).lock,
                   (s.heap 0x50).thread)) = some (1, 7, 1, 5) := by
  decide

/-- C4 (evaluation of the code). Test 8, task 1 holds `mutex0` and unlocks
it: `mutex0` is free and without owner, no mutex is held, and the system
ceiling is 0, not 31. -/
theorem mutex_unlock_ceiling_zero :
    (run test8 [.lock 1 0x40]).map
        (fun s => ((mutex_unlock (asTask s 1) 0x40).heap 0x40).lock) = some 0
    ∧ (run test8 [.lock 1 0x40]).map
        (fun s => ((mutex_unlock (asTask s 1) 0x40).heap 0x40).thread) = some (-1)
    ∧ (run test8 [.lock 1 0x40]).map
        (fun s => ((mutex_unlock (asTask s 1) 0x40).heap 0x50).lock) = some 0
    ∧ (run test8 [.lock 1 0x40]).map
        (fun s => (mutex_unlock (asTask s 1) 0x40).mutex_ceiling) = some 0
    ∧ (run test8 [.lock 1 0x40]).map
        (fun s => spec_ceiling (mutex_unlock (asTask s 1) 0x40)) = some 31 := by
  decide

/-- C5 (evaluation of the code). Two states reached from the initial state
by `mutex_init`, `mutex_lock` and `mutex_unlock` in which the system ceiling
is not the minimum of 31 and the ceilings of the held mutexes: 0 instead of 31
with no mutex held, 15 instead of 5 with the mutexes of ceiling 10 and 5 held. -/
theorem system_ceiling_not_minimum :
    (run (spawn boot [1]) [.init 0x40 1, .lock 1 0x40, .unlock 1 0x40]).map
        (fun s => (s.mutex_ceiling, spec_ceiling s)) = some (0, 31)
    ∧ (run (spawn boot [2, 5, 10])
        [.init 0x40 10, .init 0x50 5, .init 0x60 2,
         .lock 10 0x40, .lock 5 0x50, .lock 2 0x60, .unlock 2 0x60]).map
        (fun s => (s.mutex_ceiling, spec_ceiling s)) = some (15, 5) := by
  decide

/-- C6 (evaluation of the code). Test 8, no mutex held and system ceiling
31: task 1 locks `mutex0`, gets it and unlocks it; the system ceiling is then
0, and the `mutex_lock(mutex0)` of task 2 that follows returns with `mutex0`
free. -/
theorem lock_unlock_no_round_trip :
    test8.mutex_ceiling = 31
    ∧ (run test8 [.lock 1 0x40]).map (fun s => ((s.heap 0x40).lock, (s.heap 0x40).thread))
        = some (1, 1)
    ∧ (run test8 [.lock 1 0x40, .unlock 1 0x40]).map
        (fun s => ((s.heap 0x40).lock, (s.heap 0x40).thread, s.mutex_ceiling)) = some (0, -1, 0)
    ∧ (run test8 [.lock 1 0x40, .unlock 1 0x40, .lock 2 0x40]).map
        (fun s => ((s.heap 0x40).lock, (s.heap 0x40).thread)) = some (0, -1) := by
  decide

/-- C7 (evaluation of the code). Test 8, task 2 holds `mutex0` (ceiling 1)
and no other mutex is held; its `mutex_lock(mutex1)` on the free `mutex1`
(ceiling 2) returns with `mutex1` free. -/
theorem nested_lock_denied :
    (run test8 [.lock 2 0x40]).map
        (fun s => ((s.heap 0x40).lock, (s.heap 0x40).thread, (s.heap 0x50).lock,
                   (s.heap 0x50).ceiling, s.mutex_ceiling)) = some (1, 2, 0, 2, 1)
    ∧ (run test8 [.lock 2 0x40, .lock 2 0x50]).map
        (fun s => ((s.heap 0x40).lock, (s.heap 0x40).thread, (s.heap 0x50).lock,
                   (s.heap 0x50).thread)) = some (1, 2, 0, -1) := by
  decide

/-- The selection loop returns 31 when no index in `[j, j + fuel)` is
runnable and at most `prio`, and the least such index otherwise. -/
theorem select_from_spec (s : Kernel) (prio fuel j : Nat) :
    (select_from s prio fuel j = 31 ∧
      ∀ i, j ≤ i → i < j + fuel → ¬ (is_runnable s i ≠ 0 ∧ i ≤ prio)) ∨
    (j ≤ select_from s prio fuel j ∧ select_from s prio fuel j < j + fuel ∧
      is_runnable s (select_from s prio fuel j) ≠ 0 ∧ select_from s prio fuel j ≤ prio ∧
      ∀ i, j ≤ i → i < select_from s prio fuel j → ¬ (is_runnable s i ≠ 0 ∧ i ≤ prio)) := by
  induction fuel generalizing j with
  | zero =>
    left
    exact ⟨rfl, fun i h1 h2 => absurd h2 (by omega)⟩
  | succ fuel ih =>
    unfold select_from
    by_cases hj : is_runnable s j ≠ 0 ∧ j ≤ prio
    · right
      rw [if_pos hj]
      exact ⟨le_refl _, by omega, hj.1, hj.2, fun i h1 h2 => absurd h2 (by omega)⟩
    · rw [if_neg hj]
      rcases ih (j + 1) with ⟨h31, hnone⟩ | ⟨h1, h2, h3, h4, h5⟩
      · left
        refine ⟨h31, fun i h1 h2 => ?_⟩
        by_cases hij : i = j
        · subst hij; exact hj
        · exact hnone i (by omega) (by omega)
      · right
        refine ⟨by omega, by omega, h3, h4, fun i hi1 hi2 => ?_⟩
        by_cases hij : i = j
        · subst hij; exact hj
        · exact h5 i (by omega) hi2

/-- With at most one held mutex among the first `n` entries of a mutex list
without repetition, all of ceiling `c`, the sum computed by `mutex_unlock` is
at most `c`, and it is 0 when none is held. -/
theorem ceiling_sum_le (heap : Nat → mutex_t) (ml : Nat → Nat) (c n : Nat)
    (hinj : ∀ i j, i < n → j < n → ml i = ml j → i = j)
    (hone : ∀ i j, i < n → j < n → (heap (ml i)).lock ≠ 0 → (heap (ml j)).lock ≠ 0 → ml i = ml j)
    (hc : ∀ i, i < n → (heap (ml i)).ceiling = c) :
    ceiling_sum heap ml n ≤ c ∧
      ((∀ i, i < n → (heap (ml i)).lock = 0) → ceiling_sum heap ml n = 0) := by
  induction n with
  | zero => exact ⟨Nat.zero_le _, fun _ => rfl⟩
  | succ n ih =>
    have ih' := ih (fun i j hi hj => hinj i j (by omega) (by omega))
      (fun i j hi hj => hone i j (by omega) (by omega)) (fun i hi => hc i (by omega))
    unfold ceiling_sum
    by_cases hn : (heap (ml n)).lock ≠ 0
    · rw [if_pos hn]
      have hnone : ∀ i, i < n → (heap (ml i)).lock = 0 := by
        intro i hi
        by_contra hi0
        have := hinj i n (by omega) (by omega) (hone i n (by omega) (by omega) hi0 hn)
        omega
      rw [ih'.2 hnone, hc n (by omega), Nat.zero_add]
      exact ⟨Nat.mod_le _ _, fun h => absurd (h n (by omega)) hn⟩
    · rw [if_neg hn]
      exact ⟨ih'.1, fun h => ih'.2 (fun i hi => h i (by omega))⟩

theorem same_ceiling_lock {s0 s s' : Kernel} {c p m : Nat} (h : SameCeiling s0 c s)
    (hm : initialised s0 m) (hp : created s0 p) (hcp : c ≤ p)
    (hl : mutex_lock (asTask s p) m = some s') : SameCeiling s0 c s' := by
  have hcur : (cur (asTask s p)).curr_priority = p := (h.crt p hp).2
  unfold mutex_lock at hl
  split at hl
  · cases hl
  · rename_i hfree
    split at hl
    · rename_i hg
      cases hl
      rw [hcur] at hg
      have hnone : ∀ x, initialised s0 x → ¬ held s x := by
        intro x hx hheld
        have := h.sc x hx hheld
        have h2 : p < s.mutex_ceiling := hg.2
        omega
      refine ⟨h.idx, h.lst, ?_, h.crt, ?_, ?_⟩
      · intro x hx
        show ((upd s.heap m _) x).ceiling = c
        unfold upd
        split
        · exact h.ceil m hm
        · exact h.ceil x hx
      · intro m1 m2 h1 h2 hh1 hh2
        have e1 : m1 = m := by
          by_contra hne
          apply hnone m1 h1
          have : held _ m1 := hh1
          simpa [held, upd, hne] using this
        have e2 : m2 = m := by
          by_contra hne
          apply hnone m2 h2
          have : held _ m2 := hh2
          simpa [held, upd, hne] using this
        rw [e1, e2]
      · intro x hx _
        show (if ((upd s.heap m _) m).ceiling < s.mutex_ceiling then ((upd s.heap m _) m).ceiling
          else s.mutex_ceiling) ≤ c
        have hmc : (s.heap m).ceiling = c := h.ceil m hm
        simp only [upd, if_true]
        have h2 : p < s.mutex_ceiling := hg.2
        show (if (s.heap m).ceiling < s.mutex_ceiling then (s.heap m).ceiling
          else s.mutex_ceiling) ≤ c
        rw [hmc, if_pos (by omega)]
    · cases hl
      exact ⟨h.idx, h.lst, h.ceil, h.crt, h.one, h.sc⟩

theorem same_ceiling_unlock {s0 s : Kernel} {c : Nat} (p m : Nat) (h : SameCeiling s0 c s)
    (hinj : init_once s0) : SameCeiling s0 c (mutex_unlock (asTask s p) m) := by
  have hheld : ∀ x, held (mutex_unlock (asTask s p) m) x → x ≠ m ∧ held s x := by
    intro x hx
    have hx' : ((upd s.heap m { (s.heap m) with lock := 0, thread := -1 }) x).lock ≠ 0 := hx
    unfold upd at hx'
    by_cases hxm : x = m
    · simp [hxm] at hx'
    · rw [if_neg hxm] at hx'
      exact ⟨hxm, hx'⟩
  have hceil : ∀ x, initialised s0 x → ((mutex_unlock (asTask s p) m).heap x).ceiling = c := by
    intro x hx
    show ((upd s.heap m { (s.heap m) with lock := 0, thread := -1 }) x).ceiling = c
    unfold upd
    split
    · rename_i hxm
      rw [hxm] at hx
      exact h.ceil m hx
    · exact h.ceil x hx
  refine ⟨h.idx, h.lst, hceil, ?_, ?_, ?_⟩
  · intro q hq
    have hq' := h.crt q hq
    unfold created
    show ((upd s.tcb_list p _) q).priority = q ∧ ((upd s.tcb_list p _) q).curr_priority = q
    unfold upd
    split
    · rename_i hqp
      subst hqp
      exact ⟨hq'.1, hq'.1⟩
    · exact hq'
  · intro m1 m2 h1 h2 hh1 hh2
    exact h.one m1 m2 h1 h2 (hheld m1 hh1).2 (hheld m2 hh2).2
  · intro x _ _
    show ceiling_sum (mutex_unlock (asTask s p) m).heap s.mutex_list s.mutex_index ≤ c
    rw [h.idx, h.lst]
    refine (ceiling_sum_le _ _ c _ hinj ?_ ?_).1
    · intro i j hi hj hli hlj
      exact h.one _ _ ⟨i, hi, rfl⟩ ⟨j, hj, rfl⟩ (hheld _ hli).2 (hheld _ hlj).2
    · intro i hi
      exact hceil _ ⟨i, hi, rfl⟩

theorem same_ceiling_run {s0 : Kernel} {c : Nat} (hinj : init_once s0) (tr : List Call) :
    ∀ s s', SameCeiling s0 c s → (∀ call ∈ tr, same_ceiling_call s0 c call) →
      run s tr = some s' → SameCeiling s0 c s' := by
  induction tr with
  | nil =>
    intro s s' h _ hr
    cases hr
    exact h
  | cons call tr ih =>
    intro s s' h hcalls hr
    have hcall := hcalls call (List.mem_cons_self _ _)
    have hrest : ∀ x ∈ tr, same_ceiling_call s0 c x :=
      fun x hx => hcalls x (List.mem_cons_of_mem _ hx)
    cases call with
    | init m c' => exact absurd hcall id
    | lock p m =>
      obtain ⟨hm, hp, hcp⟩ := hcall
      cases hstep : mutex_lock (asTask s p) m with
      | none =>
        simp [run, Call.exec, hstep] at hr
      | some s1 =>
        have hr' : run s1 tr = some s' := by
          simpa [run, Call.exec, hstep] using hr
        exact ih s1 s' (same_ceiling_lock h hm hp hcp hstep) hrest hr'
    | unlock p m =>
      have hr' : run (mutex_unlock (asTask s p) m) tr = some s' := by
        simpa [run, Call.exec] using hr
      exact ih _ s' (same_ceiling_unlock p m h hinj) hrest hr'

/-- C8. In a configuration whose mutexes were each initialised once, all
with ceiling `c`, and are all free, every state reached by `mutex_lock` and
`mutex_unlock` calls of tasks of priority numerically at least `c` has at most
one held mutex; so all held mutexes are owned by one and the same task. -/
theorem single_holder (s0 : Kernel) (c : Nat) (tr : List Call) (s : Kernel)
    (honce : init_once s0)
    (hceil : ∀ m, initialised s0 m → (s0.heap m).ceiling = c)
    (hfree : ∀ m, initialised s0 m → (s0.heap m).lock = 0)
    (hcalls : ∀ call ∈ tr, same_ceiling_call s0 c call)
    (hrun : run s0 tr = some s) :
    ∀ m1 m2, initialised s m1 → initialised s m2 → held s m1 → held s m2 →
      m1 = m2 ∧ (s.heap m1).thread = (s.heap m2).thread := by
  have h0 : SameCeiling s0 c s0 :=
    ⟨rfl, rfl, hceil, fun _ hp => hp, fun m1 _ h1 _ hh1 _ => absurd (hfree m1 h1) hh1,
      fun m hm hh => absurd (hfree m hm) hh⟩
  have h := same_ceiling_run honce tr s0 s h0 hcalls hrun
  intro m1 m2 h1 h2 hh1 hh2
  have h1' : initialised s0 m1 := by
    obtain ⟨i, hi, hmi⟩ := h1
    exact ⟨i, h.idx ▸ hi, h.lst ▸ hmi⟩
  have h2' : initialised s0 m2 := by
    obtain ⟨i, hi, hmi⟩ := h2
    exact ⟨i, h.idx ▸ hi, h.lst ▸ hmi⟩
  have e := h.one m1 m2 h1' h2' hh1 hh2
  exact ⟨e, by rw [e]⟩

/-- Witness of `single_holder`: Test 12, where task 2 locks `mutex2`, and
task 1 calls `mutex_unlock(mutex1)` and then `mutex_lock(mutex1)`. -/
theorem single_holder_witness :
    init_once test12 ∧
    (∀ m, initialised test12 m → (test12.heap m).ceiling = 1) ∧
    (∀ m, initialised test12 m → (test12.heap m).lock = 0) ∧
    ∃ s, run test12 [.lock 2 0x50, .unlock 1 0x40, .lock 1 0x40] = some s ∧
      ∀ m1 m2, initialised s m1 → initialised s m2 → held s m1 → held s m2 →
        m1 = m2 ∧ (s.heap m1).thread = (s.heap m2).thread := by
  have hidx : test12.mutex_index = 2 := by decide
  have honce : init_once test12 := by
    intro i j hi hj
    rw [hidx] at hi hj
    interval_cases i <;> interval_cases j <;> decide
  have hceil : ∀ m, initialised test12 m → (test12.heap m).ceiling = 1 := by
    rintro m ⟨i, hi, rfl⟩
    rw [hidx] at hi
    interval_cases i <;> decide
  have hfree : ∀ m, initialised test12 m → (test12.heap m).lock = 0 := by
    rintro m ⟨i, hi, rfl⟩
    rw [hidx] at hi
    interval_cases i <;> decide
  have hcalls : ∀ call ∈ [Call.lock 2 0x50, Call.unlock 1 0x40, Call.lock 1 0x40],
      same_ceiling_call test12 1 call := by
    intro call hcall
    simp only [List.mem_cons, List.mem_singleton, List.not_mem_nil, or_false] at hcall
    rcases hcall with rfl | rfl | rfl
    · exact ⟨⟨1, by decide, by decide⟩, ⟨by decide, by decide⟩, by decide⟩
    · exact ⟨⟨0, by decide, by decide⟩, ⟨by decide, by decide⟩, by decide⟩
    · exact ⟨⟨0, by decide, by decide⟩, ⟨by decide, by decide⟩, by decide⟩
  exact ⟨honce, hceil, hfree, _, rfl,
    single_holder test12 1 [.lock 2 0x50, .unlock 1 0x40, .lock 1 0x40] _ honce hceil hfree
      hcalls rfl⟩

theorem toInt32_small {a : Nat} (ha : a < THREAD_NUM) : toInt32 a = (a : Int) := by
  unfold THREAD_NUM at ha
  unfold toInt32 WORD
  have h1 : a % 2 ^ 32 = a := Nat.mod_eq_of_lt (by omega)
  rw [h1, if_pos (by omega)]

theorem toInt32_inj {a b : Nat} (ha : a < THREAD_NUM) (hb : b < THREAD_NUM)
    (h : toInt32 a = toInt32 b) : a = b := by
  rw [toInt32_small ha, toInt32_small hb] at h
  exact_mod_cast h

/-- The minimum of the specification is below the ceiling of every held
mutex of the list. -/
theorem held_min_le (heap : Nat → mutex_t) (ml : Nat → Nat) (n i : Nat) (hi : i < n)
    (hl : (heap (ml i)).lock ≠ 0) : held_min heap ml n ≤ (heap (ml i)).ceiling := by
  induction n with
  | zero => omega
  | succ n ih =>
    unfold held_min
    by_cases hin : i = n
    · subst hin
      rw [if_pos hl]
      exact Nat.min_le_right _ _
    · have := ih (by omega)
      split
      · exact le_trans (Nat.min_le_left _ _) this
      · exact this

theorem spec_ceiling_le {k : Kernel} {m : Nat} (hm : initialised k m) (hh : held k m) :
    spec_ceiling k ≤ (k.heap m).ceiling := by
  obtain ⟨i, hi, rfl⟩ := hm
  exact held_min_le k.heap k.mutex_list k.mutex_index i hi hh

theorem pcp_lock {s0 k k' : Kernel} {p m : Nat} (h : PcpInv s0 k) (hp : created s0 p)
    (hp32 : p < THREAD_NUM) (hk : k.mutex_ceiling ≤ spec_ceiling k)
    (hl : mutex_lock (asTask k p) m = some k') : PcpInv s0 k' := by
  have hcur : (cur (asTask k p)).curr_priority = p := (h.crt p hp).2
  have hpri : (cur (asTask k p)).priority = p := (h.crt p hp).1
  have hinit : ∀ x, initialised s0 x → initialised k x := by
    rintro x ⟨i, hi, hx⟩
    exact ⟨i, h.idx ▸ hi, h.lst ▸ hx⟩
  unfold mutex_lock at hl
  split at hl
  · cases hl
  · split at hl
    · rename_i hg
      cases hl
      rw [hcur] at hg
      have hlow : ∀ y, initialised s0 y → held k y → p < (s0.heap y).ceiling := by
        intro y hy hhy
        have h1 := spec_ceiling_le (hinit y hy) hhy
        have h2 : p < k.mutex_ceiling := hg.2
        rw [h.ceil y] at h1
        omega
      refine ⟨h.idx, h.lst, ?_, h.crt, ?_⟩
      · intro x
        show ((upd k.heap m _) x).ceiling = (s0.heap x).ceiling
        unfold upd
        split
        · rename_i hxm
          rw [hxm]
          exact h.ceil m
        · exact h.ceil x
      · intro x y a b hx hy hxy hhx hhy hta htb ha hb
        have hhx' : ((upd k.heap m _) x).lock ≠ 0 := hhx
        have hhy' : ((upd k.heap m _) y).lock ≠ 0 := hhy
        have hta' : ((upd k.heap m _) x).thread = toInt32 a := hta
        have htb' : ((upd k.heap m _) y).thread = toInt32 b := htb
        unfold upd at hhx' hhy' hta' htb'
        by_cases hxm : x = m
        · by_cases hym : y = m
          · exact absurd (hxm.trans hym.symm) hxy
          · left
            rw [if_neg hym] at hhy'
            rw [if_pos hxm] at hta'
            have hap : a = p := by
              apply toInt32_inj ha hp32
              rw [← hta']
              show toInt32 (cur (asTask k p)).priority = toInt32 p
              rw [hpri]
            rw [hap]
            exact hlow y hy hhy'
        · by_cases hym : y = m
          · right
            rw [if_neg hxm] at hhx'
            rw [if_pos hym] at htb'
            have hbp : b = p := by
              apply toInt32_inj hb hp32
              rw [← htb']
              show toInt32 (cur (asTask k p)).priority = toInt32 p
              rw [hpri]
            rw [hbp]
            exact hlow x hx hhx'
          · rw [if_neg hxm] at hhx' hta'
            rw [if_neg hym] at hhy' htb'
            exact h.pair x y a b hx hy hxy hhx' hhy' hta' htb' ha hb
    · cases hl
      exact ⟨h.idx, h.lst, h.ceil, h.crt, h.pair⟩

theorem pcp_unlock {s0 k : Kernel} (p m : Nat) (h : PcpInv s0 k) :
    PcpInv s0 (mutex_unlock (asTask k p) m) := by
  refine ⟨h.idx, h.lst, ?_, ?_, ?_⟩
  · intro x
    show ((upd k.heap m _) x).ceiling = (s0.heap x).ceiling
    unfold upd
    split
    · rename_i hxm
      rw [hxm]
      exact h.ceil m
    · exact h.ceil x
  · intro q hq
    have hq' := h.crt q hq
    unfold created
    show ((upd k.tcb_list p _) q).priority = q ∧ ((upd k.tcb_list p _) q).curr_priority = q
    unfold upd
    split
    · rename_i hqp
      subst hqp
      exact ⟨hq'.1, hq'.1⟩
    · exact hq'
  · intro x y a b hx hy hxy hhx hhy hta htb ha hb
    have hhx' : ((upd k.heap m _) x).lock ≠ 0 := hhx
    have hhy' : ((upd k.heap m _) y).lock ≠ 0 := hhy
    have hta' : ((upd k.heap m _) x).thread = toInt32 a := hta
    have htb' : ((upd k.heap m _) y).thread = toInt32 b := htb
    unfold upd at hhx' hhy' hta' htb'
    by_cases hxm : x = m
    · rw [if_pos hxm] at hhx'
      exact absurd rfl hhx'
    · by_cases hym : y = m
      · rw [if_pos hym] at hhy'
        exact absurd rfl hhy'
      · rw [if_neg hxm] at hhx' hta'
        rw [if_neg hym] at hhy' htb'
        exact h.pair x y a b hx hy hxy hhx' hhy' hta' htb' ha hb

theorem spin_inv_upd_none {s0 : Kernel} {spin : Nat → Option Nat} (p : Nat)
    (h : SpinInv s0 spin) : SpinInv s0 (upd spin p none) := by
  intro q x hq
  unfold upd at hq
  split at hq
  · cases hq
  · exact h q x hq

theorem spin_inv_upd_some {s0 : Kernel} {spin : Nat → Option Nat} {p m : Nat}
    (h : SpinInv s0 spin) (hm : initialised s0 m) (hp : created s0 p) (hp32 : p < THREAD_NUM)
    (hc : (s0.heap m).ceiling ≤ p) : SpinInv s0 (upd spin p (some m)) := by
  intro q x hq
  unfold upd at hq
  split at hq
  · rename_i hqp
    cases hq
    rw [hqp]
    exact ⟨hm, hp, hp32, hc⟩
  · exact h q x hq

theorem pcp_step {s0 : Kernel} {t t' : Sys} {e : Ev} (hk : PcpInv s0 t.k)
    (hs : SpinInv s0 t.spin) (he : entitled s0 e) (hkept : ceiling_kept t)
    (hstep : t.step e = some t') : PcpInv s0 t'.k ∧ SpinInv s0 t'.spin := by
  cases e with
  | lock p m =>
    obtain ⟨hm, hp, hp32, hc⟩ := he
    simp only [Sys.step] at hstep
    split at hstep
    · cases hstep
    · split at hstep
      · cases hstep
        exact ⟨hk, spin_inv_upd_some hs hm hp hp32 hc⟩
      · rename_i k' hl
        cases hstep
        exact ⟨pcp_lock hk hp hp32 hkept hl, hs⟩
  | resume p =>
    simp only [Sys.step] at hstep
    split at hstep
    · cases hstep
    · rename_i m hsp
      obtain ⟨-, hp, hp32, -⟩ := hs p m hsp
      split at hstep
      · cases hstep
      · rename_i k' hl
        cases hstep
        exact ⟨pcp_lock hk hp hp32 hkept hl, spin_inv_upd_none p hs⟩
  | unlock p m =>
    simp only [Sys.step] at hstep
    split at hstep
    · cases hstep
    · cases hstep
      exact ⟨pcp_unlock p m hk, hs⟩

theorem pcp_visited {s0 : Kernel} (tr : List Ev) :
    ∀ t0 : Sys, PcpInv s0 t0.k → SpinInv s0 t0.spin → (∀ e ∈ tr, entitled s0 e) →
      (∀ t ∈ visited t0 tr, ceiling_kept t) →
      ∀ t ∈ visited t0 tr, PcpInv s0 t.k ∧ SpinInv s0 t.spin := by
  induction tr with
  | nil =>
    intro t0 hk hs _ _ t ht
    simp only [visited, List.mem_singleton] at ht
    rw [ht]
    exact ⟨hk, hs⟩
  | cons e es ih =>
    intro t0 hk hs hev hkept t ht
    unfold visited at ht hkept
    rcases List.mem_cons.mp ht with rfl | ht'
    · exact ⟨hk, hs⟩
    · have hk0 : ceiling_kept t0 := hkept t0 (List.mem_cons_self _ _)
      cases hstep : t0.step e with
      | none =>
        rw [hstep] at ht'
        exact absurd ht' (List.not_mem_nil _)
      | some t1 =>
        rw [hstep] at ht' hkept
        have h1 := pcp_step hk hs (hev e (List.mem_cons_self _ _)) hk0 hstep
        exact ih t1 h1.1 h1.2 (fun x hx => hev x (List.mem_cons_of_mem _ hx))
          (fun x hx => hkept x (List.mem_cons_of_mem _ hx)) t ht'

theorem no_deadlock_of_inv {s0 : Kernel} {t : Sys} (hk : PcpInv s0 t.k)
    (hs : SpinInv s0 t.spin) : ¬ deadlock t := by
  rintro ⟨a, b, m1, m2, hab, hh1, ht1, hh2, ht2, hsa, hsb⟩
  obtain ⟨hm2, -, ha, hca⟩ := hs a m2 hsa
  obtain ⟨hm1, -, hb, hcb⟩ := hs b m1 hsb
  have hne : m1 ≠ m2 := by
    intro hm
    rw [hm, ht2] at ht1
    exact hab (toInt32_inj ha hb ht1.symm)
  rcases hk.pair m1 m2 a b hm1 hm2 hne hh1 hh2 ht1 ht2 ha hb with h | h <;> omega

/-- A ceiling declared outside the contract of `mutex_init` (`max_prio` is
the maximum priority of a thread which could use the mutex): `two_tasks`
declares the mutex at `0x40` with ceiling 5 and task 2 uses it. Task 5 locks
the mutex of ceiling 5, task 2 locks the mutex of ceiling 2, then task 5 calls
`mutex_lock` on the mutex held by task 2 and task 2 calls `mutex_lock` on the
mutex held by task 5; both spin. -/
theorem deadlock_reached :
    ∃ t ∈ visited two_tasks [.lock 5 0x40, .lock 2 0x50, .lock 5 0x50, .lock 2 0x40],
      deadlock t := by
  refine ⟨_, List.mem_of_getLast?_eq_some rfl, 5, 2, 0x40, 0x50, by decide, ?_, by decide, ?_,
    by decide, by decide, by decide⟩
  · unfold held; decide
  · unfold held; decide

/-- What the test of `mutex_lock` gives as long as the system ceiling is the
minimum: from a state in which no mutex is held and no task spins, along
every execution of `mutex_lock` / `mutex_unlock` steps in which each task
calls `mutex_lock` only on mutexes whose ceiling is numerically at most its
priority, and in which the system ceiling is in every state numerically at
most the minimum of 31 and the ceilings of the held mutexes, no state is
reached in which two distinct tasks each hold a mutex and each spin in
`mutex_lock` on a mutex held by the other. The hypothesis on the system
ceiling is not an invariant of the code: the sum of `mutex_unlock` breaks it,
as the execution of `three_tasks` below shows. -/
theorem no_deadlock_entitled (t0 : Sys) (tr : List Ev)
    (hspin : ∀ p, t0.spin p = none)
    (hfree : ∀ m, initialised t0.k m → (t0.k.heap m).lock = 0)
    (hev : ∀ e ∈ tr, entitled t0.k e)
    (hkept : ∀ t ∈ visited t0 tr, ceiling_kept t) :
    ∀ t ∈ visited t0 tr, ¬ deadlock t := by
  have hk0 : PcpInv t0.k t0.k :=
    ⟨rfl, rfl, fun _ => rfl, fun _ hp => hp,
      fun m _ _ _ hm _ _ hh _ _ _ _ _ => absurd (hfree m hm) hh⟩
  have hs0 : SpinInv t0.k t0.spin := by
    intro p m hpm
    rw [hspin p] at hpm
    cases hpm
  intro t ht
  have h := pcp_visited tr t0 hk0 hs0 hev hkept t ht
  exact no_deadlock_of_inv h.1 h.2

/-- Witness of `no_deadlock_entitled`: tasks 10 and 5 lock their mutexes,
task 7 spins on the mutex of task 5, task 5 unlocks it and task 7 gets it. -/
theorem no_deadlock_entitled_witness :
    (∀ p, four_tasks_sys.spin p = none) ∧
    (∀ m, initialised four_tasks_sys.k m → (four_tasks_sys.k.heap m).lock = 0) ∧
    (∀ t ∈ visited four_tasks_sys
        [.lock 10 0x40, .lock 5 0x50, .lock 7 0x50, .unlock 5 0x50, .resume 7], ceiling_kept t) ∧
    (visited four_tasks_sys
        [.lock 10 0x40, .lock 5 0x50, .lock 7 0x50, .unlock 5 0x50, .resume 7]).length = 6 ∧
    ∀ t ∈ visited four_tasks_sys
        [.lock 10 0x40, .lock 5 0x50, .lock 7 0x50, .unlock 5 0x50, .resume 7], ¬ deadlock t := by
  have hidx : four_tasks_sys.k.mutex_index = 4 := by decide
  have hfree : ∀ m, initialised four_tasks_sys.k m → (four_tasks_sys.k.heap m).lock = 0 := by
    rintro m ⟨i, hi, rfl⟩
    rw [hidx] at hi
    interval_cases i <;> decide
  have hev : ∀ e ∈ [Ev.lock 10 0x40, Ev.lock 5 0x50, Ev.lock 7 0x50, Ev.unlock 5 0x50,
      Ev.resume 7], entitled four_tasks_sys.k e := by
    intro e he
    simp only [List.mem_cons, List.mem_singleton, List.not_mem_nil, or_false] at he
    rcases he with rfl | rfl | rfl | rfl | rfl
    · exact ⟨⟨0, by decide, by decide⟩, ⟨by decide, by decide⟩, by decide, by decide⟩
    · exact ⟨⟨1, by decide, by decide⟩, ⟨by decide, by decide⟩, by decide, by decide⟩
    · exact ⟨⟨1, by decide, by decide⟩, ⟨by decide, by decide⟩, by decide, by decide⟩
    · exact ⟨⟨1, by decide, by decide⟩, ⟨by decide, by decide⟩, by decide⟩
    · exact True.intro
  have hkept : ∀ t ∈ visited four_tasks_sys
      [.lock 10 0x40, .lock 5 0x50, .lock 7 0x50, .unlock 5 0x50, .resume 7],
      ceiling_kept t := by
    decide
  exact ⟨fun _ => rfl, hfree, hkept, by decide,
    no_deadlock_entitled four_tasks_sys _ (fun _ => rfl) hfree hev hkept⟩

/-- C9 (evaluation of the code). In `three_tasks` every mutex is declared
with the priority of its highest-priority user as ceiling, and every task
locks only mutexes it is entitled to. Tasks 10 and 5 lock the mutexes of
ceiling 10 and 5; task 7 calls `mutex_lock` and then `mutex_unlock` on the
mutex of ceiling 7: the unlock sets the system ceiling to the sum 10 + 5 = 15,
where the minimum of the held ceilings is 5. Task 7 then locks the second
mutex of ceiling 5 and gets it (7 < 15) while task 5 holds a mutex of ceiling
5; then task 7 and task 5 call `mutex_lock` on the mutex of the other, and the
state reached is a deadlock: two distinct tasks each hold a mutex and each
spin in `mutex_lock` on a mutex held by the other. -/
theorem deadlock_after_unlock :
    (∀ e ∈ [Ev.lock 10 0x40, Ev.lock 5 0x50, Ev.lock 7 0x60, Ev.unlock 7 0x60, Ev.lock 7 0x70,
        Ev.lock 7 0x50, Ev.lock 5 0x70], entitled three_tasks.k e) ∧
    (visited three_tasks
        [.lock 10 0x40, .lock 5 0x50, .lock 7 0x60, .unlock 7 0x60]).getLast?.map
      (fun t => (t.k.mutex_ceiling, spec_ceiling t.k)) = some (15, 5) ∧
    ∃ t ∈ visited three_tasks
        [.lock 10 0x40, .lock 5 0x50, .lock 7 0x60, .unlock 7 0x60, .lock 7 0x70,
         .lock 7 0x50, .lock 5 0x70],
      deadlock t := by
  refine ⟨?_, by decide, ?_⟩
  · intro e he
    simp only [List.mem_cons, List.mem_singleton, List.not_mem_nil, or_false] at he
    rcases he with rfl | rfl | rfl | rfl | rfl | rfl | rfl
    · exact ⟨⟨0, by decide, by decide⟩, ⟨by decide, by decide⟩, by decide, by decide⟩
    · exact ⟨⟨1, by decide, by decide⟩, ⟨by decide, by decide⟩, by decide, by decide⟩
    · exact ⟨⟨2, by decide, by decide⟩, ⟨by decide, by decide⟩, by decide, by decide⟩
    · exact ⟨⟨2, by decide, by decide⟩, ⟨by decide, by decide⟩, by decide⟩
    · exact ⟨⟨3, by decide, by decide⟩, ⟨by decide, by decide⟩, by decide, by decide⟩
    · exact ⟨⟨1, by decide, by decide⟩, ⟨by decide, by decide⟩, by decide, by decide⟩
    · exact ⟨⟨3, by decide, by decide⟩, ⟨by decide, by decide⟩, by decide, by decide⟩
  · refine ⟨_, List.mem_of_getLast?_eq_some rfl, 7, 5, 0x70, 0x50, by decide, ?_, by decide, ?_,
      by decide, by decide, by decide⟩
    · unfold held; decide
    · unfold held; decide


/-! ### Frames of the operations on the TCB pool -/

theorem upd_apply {α : Type} (a : Nat → α) (i : Nat) (v : α) (x : Nat) :
    upd a i v x = if x = i then v else a x := rfl

theorem upd_same {α : Type} (a : Nat → α) (i : Nat) (v : α) : upd a i v i = v := by
  simp [upd_apply]

theorem upd_other {α : Type} (a : Nat → α) {i x : Nat} (v : α) (h : x ≠ i) :
    upd a i v x = a x := by
  simp [upd_apply, h]

theorem account_current (s : Kernel) : (account s).current_task = s.current_task := by
  unfold account
  simp only [set_cur, clear_wait_pool, set_run_pool, set_wait_pool, clear_run_pool]
  split_ifs <;> rfl

theorem account_regs (s : Kernel) (j : Nat) :
    ((account s).tcb_list j).tcb_regs = (s.tcb_list j).tcb_regs := by
  unfold account
  simp only [set_cur, cur, clear_wait_pool, set_run_pool, set_wait_pool, clear_run_pool]
  by_cases hj : j = s.current_task
  · subst hj
    split_ifs <;> simp [upd_same]
  · split_ifs <;> simp [upd_other _ _ hj]

theorem wake_one_current (s : Kernel) (i : Nat) : (wake_one s i).current_task = s.current_task := by
  unfold wake_one
  split_ifs <;> rfl

theorem wake_one_regs (s : Kernel) (i j : Nat) :
    ((wake_one s i).tcb_list j).tcb_regs = (s.tcb_list j).tcb_regs := by
  unfold wake_one
  simp only [clear_wait_pool, set_run_pool]
  by_cases hj : j = i
  · subst hj
    split_ifs <;> simp [upd_same]
  · split_ifs <;> simp [upd_other _ _ hj]

theorem wake_loop_current (s : Kernel) (n : Nat) :
    (wake_loop s n).current_task = s.current_task := by
  induction n with
  | zero => rfl
  | succ n ih => rw [wake_loop, wake_one_current, ih]

theorem wake_loop_regs (s : Kernel) (n j : Nat) :
    ((wake_loop s n).tcb_list j).tcb_regs = (s.tcb_list j).tcb_regs := by
  induction n with
  | zero => rfl
  | succ n ih => rw [wake_loop, wake_one_regs, ih]

theorem after_wake_current (s : Kernel) : (after_wake s).current_task = s.current_task := by
  unfold after_wake
  rw [wake_loop_current, account_current]

theorem after_wake_regs (s : Kernel) (j : Nat) :
    ((after_wake s).tcb_list j).tcb_regs = (s.tcb_list j).tcb_regs := by
  unfold after_wake
  rw [wake_loop_regs, account_regs]

theorem save_regs_lt (regs sp : Nat → Nat) (n i : Nat) (hi : i < n) :
    save_regs regs sp n i = sp i := by
  induction n with
  | zero => omega
  | succ n ih =>
    unfold save_regs upd
    by_cases h : i = n
    · rw [if_pos h, h]
    · rw [if_neg h]
      exact ih (by omega)

theorem save_regs_ge (regs sp : Nat → Nat) (n i : Nat) (hi : n ≤ i) :
    save_regs regs sp n i = regs i := by
  induction n with
  | zero => rfl
  | succ n ih =>
    unfold save_regs upd
    rw [if_neg (by omega)]
    exact ih (by omega)

theorem save_frame_tcb (s : Kernel) (sp : Nat → Nat) (j : Nat) :
    (save_frame s sp).tcb_list j =
      if j = s.current_task then
        { (s.tcb_list j) with tcb_regs := save_regs (s.tcb_list j).tcb_regs sp TCB_REG_NUM }
      else s.tcb_list j := by
  unfold save_frame set_cur cur
  simp only [upd_apply]
  split_ifs with h
  · rw [h]
  · rfl

theorem requeue_tcb (s : Kernel) (n j : Nat) :
    (requeue s n).tcb_list j =
      if (n ≠ (cur s).priority ∧ is_waiting s (cur s).priority = 0) ∧ j = s.current_task then
        { (s.tcb_list j) with status := RUNNABLE }
      else s.tcb_list j := by
  unfold requeue
  by_cases hc : n ≠ (cur s).priority ∧ is_waiting s (cur s).priority = 0
  · rw [if_pos hc]
    by_cases hj : j = s.current_task
    · rw [if_pos ⟨hc, hj⟩, hj]
      simp only [set_run_pool, clear_wait_pool, set_cur, cur, upd_same]
    · rw [if_neg (fun h => hj h.2)]
      simp only [set_run_pool, clear_wait_pool, set_cur, cur, upd_other _ _ hj]
  · rw [if_neg hc, if_neg (fun h => hc h.1)]

theorem switch_to_tcb (s : Kernel) (n j : Nat) :
    (switch_to s n).tcb_list j =
      if j = n then { (s.tcb_list j) with status := RUNNING } else s.tcb_list j := by
  unfold switch_to
  simp only [clear_run_pool, clear_wait_pool, set_cur, cur, upd_apply]
  split_ifs with h
  · rw [h]
  · rfl

theorem save_frame_current (s : Kernel) (sp : Nat → Nat) :
    (save_frame s sp).current_task = s.current_task := rfl

theorem requeue_current (s : Kernel) (n : Nat) : (requeue s n).current_task = s.current_task := by
  unfold requeue
  split_ifs <;> rfl

theorem switch_to_current (s : Kernel) (n : Nat) : (switch_to s n).current_task = n := rfl

/-- The next task computed at a tick. -/
theorem call_scheduler_fst (s : Kernel) (sp : Nat → Nat) :
    (call_scheduler s sp).1 =
      switch_to (requeue (save_frame (after_wake (time_inc s)) sp) (find_next_task (time_inc s)).2)
        (find_next_task (time_inc s)).2 := rfl

/-- Register file of TCB `j` after `call_scheduler`: the saved frame for the
outgoing TCB, the old one for every other TCB. -/
theorem call_scheduler_regs (s : Kernel) (sp : Nat → Nat) (j : Nat) :
    ((call_scheduler s sp).1.tcb_list j).tcb_regs =
      if j = s.current_task then save_regs (s.tcb_list j).tcb_regs sp TCB_REG_NUM
      else (s.tcb_list j).tcb_regs := by
  have hc : (after_wake (time_inc s)).current_task = s.current_task := after_wake_current _
  have hr : ((after_wake (time_inc s)).tcb_list j).tcb_regs = (s.tcb_list j).tcb_regs :=
    after_wake_regs (time_inc s) j
  rw [call_scheduler_fst, switch_to_tcb, requeue_tcb, save_frame_tcb, hc]
  split_ifs <;> simp [hr]

/-- C16. `call_scheduler(f)` stores the 20 words of `f` in the register file
of the outgoing TCB, leaves the register file of every other TCB as it was,
and returns the register file of the elected TCB, which holds `f` when the
elected task is the outgoing one; `mutex_init`, `mutex_lock`, `mutex_unlock`,
`wait_until_next_period` and `spin_wait` change no register file, and
`get_time` and `get_priority` only read the state. -/
theorem context_save_restore (s : Kernel) (f : Nat → Nat) :
    (∀ i, i < TCB_REG_NUM →
      ((call_scheduler s f).1.tcb_list s.current_task).tcb_regs i = f i) ∧
    (∀ i, TCB_REG_NUM ≤ i →
      ((call_scheduler s f).1.tcb_list s.current_task).tcb_regs i =
        (s.tcb_list s.current_task).tcb_regs i) ∧
    (∀ j, j ≠ s.current_task →
      ((call_scheduler s f).1.tcb_list j).tcb_regs = (s.tcb_list j).tcb_regs) ∧
    (call_scheduler s f).2 =
      ((call_scheduler s f).1.tcb_list (call_scheduler s f).1.current_task).tcb_regs ∧
    ((call_scheduler s f).1.current_task = s.current_task →
      ∀ i, i < TCB_REG_NUM → (call_scheduler s f).2 i = f i) ∧
    (∀ m c j, ((mutex_init s m c).1.tcb_list j).tcb_regs = (s.tcb_list j).tcb_regs) ∧
    (∀ m s' j, mutex_lock s m = some s' → (s'.tcb_list j).tcb_regs = (s.tcb_list j).tcb_regs) ∧
    (∀ m j, ((mutex_unlock s m).tcb_list j).tcb_regs = (s.tcb_list j).tcb_regs) ∧
    (∀ j, ((wait_until_next_period_entry s).tcb_list j).tcb_regs = (s.tcb_list j).tcb_regs) ∧
    (∀ j, ((spin_wait_entry s).tcb_list j).tcb_regs = (s.tcb_list j).tcb_regs) ∧
    get_time s = s.time ∧ get_priority s = (s.tcb_list s.current_task).priority := by
  have hcur : ∀ i, ((call_scheduler s f).1.tcb_list s.current_task).tcb_regs i =
      save_regs (s.tcb_list s.current_task).tcb_regs f TCB_REG_NUM i := by
    intro i
    rw [call_scheduler_regs, if_pos rfl]
  refine ⟨fun i hi => ?_, fun i hi => ?_, fun j hj => ?_, rfl, fun hsame i hi => ?_, ?_, ?_, ?_,
    ?_, ?_, rfl, rfl⟩
  · rw [hcur, save_regs_lt _ _ _ _ hi]
  · rw [hcur, save_regs_ge _ _ _ _ hi]
  · rw [call_scheduler_regs, if_neg hj]
  · have h2 : (call_scheduler s f).2 =
        ((call_scheduler s f).1.tcb_list (call_scheduler s f).1.current_task).tcb_regs := rfl
    rw [h2, hsame, hcur, save_regs_lt _ _ _ _ hi]
  · intro m c j
    unfold mutex_init
    split_ifs <;> rfl
  · intro m s' j h
    unfold mutex_lock at h
    split_ifs at h
    · cases h
      rfl
    · cases h
      rfl
  · intro m j
    simp only [mutex_unlock, set_cur, cur, upd]
    split_ifs <;> simp_all
  · intro j
    simp only [wait_until_next_period_entry, set_cur, cur, upd]
    split_ifs <;> simp_all
  · intro j
    simp only [spin_wait_entry, set_cur, cur, upd]
    split_ifs <;> simp_all


/-! ### Bits of the pools -/

theorem bit_lt (p : Nat) : bit p < 2 ^ 32 := Nat.mod_lt _ (by decide)

theorem bit_testBit (p j : Nat) : (bit p).testBit j = (decide (p = j) && decide (p < 32)) := by
  unfold bit WORD
  rw [Nat.one_shiftLeft, Nat.testBit_mod_two_pow, Nat.testBit_two_pow]
  by_cases h : p = j
  · subst h
    simp
  · simp [h]

theorem nbit_testBit (p j : Nat) :
    (nbit p).testBit j = (decide (j < 32) && !decide (p = j)) := by
  have h : nbit p = 2 ^ 32 - (bit p + 1) := by
    unfold nbit WORD
    omega
  rw [h, Nat.testBit_two_pow_sub_succ (bit_lt p), bit_testBit]
  by_cases h1 : p = j
  · subst h1
    by_cases h2 : p < 32 <;> simp [h2]
  · simp [h1]

theorem nbit_lt (p : Nat) : nbit p < 2 ^ 32 := by
  unfold nbit WORD
  omega

theorem pool_bit (x j : Nat) : (x >>> j) &&& 1 = (x.testBit j).toNat := by
  rw [Nat.and_one_is_mod, Nat.shiftRight_eq_div_pow, Nat.toNat_testBit]

theorem is_runnable_ne_zero (s : Kernel) (j : Nat) :
    is_runnable s j ≠ 0 ↔ s.runnable_pool.testBit j = true := by
  unfold is_runnable
  rw [pool_bit]
  cases s.runnable_pool.testBit j <;> simp

theorem is_runnable_eq_zero (s : Kernel) (j : Nat) :
    is_runnable s j = 0 ↔ s.runnable_pool.testBit j = false := by
  unfold is_runnable
  rw [pool_bit]
  cases s.runnable_pool.testBit j <;> simp

theorem is_waiting_ne_zero (s : Kernel) (j : Nat) :
    is_waiting s j ≠ 0 ↔ s.waiting_pool.testBit j = true := by
  unfold is_waiting
  rw [pool_bit]
  cases s.waiting_pool.testBit j <;> simp

theorem is_waiting_eq_zero (s : Kernel) (j : Nat) :
    is_waiting s j = 0 ↔ s.waiting_pool.testBit j = false := by
  unfold is_waiting
  rw [pool_bit]
  cases s.waiting_pool.testBit j <;> simp

/-- Bit `j` of a pool word after `pool |= (1 << p)`. -/
theorem set_bit_testBit (x p j : Nat) :
    (x ||| bit p).testBit j = (x.testBit j || (decide (p = j) && decide (p < 32))) := by
  rw [Nat.testBit_or, bit_testBit]

/-- Bit `j` of a pool word after `pool &= ~(1 << p)`. -/
theorem clear_bit_testBit (x p j : Nat) :
    (x &&& nbit p).testBit j = (x.testBit j && (decide (j < 32) && !decide (p = j))) := by
  rw [Nat.testBit_and, nbit_testBit]

theorem testBit_lt_word {x j : Nat} (hx : x < 2 ^ 32) (h : x.testBit j = true) : j < 32 := by
  by_contra hj
  have h1 : x < 2 ^ j := lt_of_lt_of_le hx (Nat.pow_le_pow_right (by decide) (by omega))
  rw [Nat.testBit_lt_two_pow h1] at h
  cases h

/-! ### Creation of tasks and mutexes -/

/-- C17. For `prio` in 0..30, `thread_create` returns -1 with the state
unchanged exactly when `fn` or `stack_start` is `NULL`; otherwise it returns
0, fills `tcb_list[prio]` as stated, sets the runnable bit of `prio`, and
leaves every other TCB, every other runnable bit and the waiting pool as they
were. -/
theorem thread_create_spec (base : Nat) (s : Kernel) (fn stack_start prio C T : Nat)
    (hprio : prio < 31) :
    (((thread_create base s fn stack_start prio C T).2 = -1 ∧
        (thread_create base s fn stack_start prio C T).1 = s) ↔
      (fn = 0 ∨ stack_start = 0)) ∧
    (¬ (fn = 0 ∨ stack_start = 0) →
      (thread_create base s fn stack_start prio C T).2 = 0 ∧
      ((thread_create base s fn stack_start prio C T).1.tcb_list prio).priority = prio ∧
      ((thread_create base s fn stack_start prio C T).1.tcb_list prio).curr_priority = prio ∧
      ((thread_create base s fn stack_start prio C T).1.tcb_list prio).computation = C ∧
      ((thread_create base s fn stack_start prio C T).1.tcb_list prio).period = T ∧
      ((thread_create base s fn stack_start prio C T).1.tcb_list prio).status = RUNNABLE ∧
      ((thread_create base s fn stack_start prio C T).1.tcb_list prio).wakeup = 0 ∧
      ((thread_create base s fn stack_start prio C T).1.tcb_list prio).execution = 0 ∧
      ((thread_create base s fn stack_start prio C T).1.tcb_list prio).sleep = 0 ∧
      ((thread_create base s fn stack_start prio C T).1.tcb_list prio).tcb_regs LR_USER = fn ∧
      ((thread_create base s fn stack_start prio C T).1.tcb_list prio).tcb_regs LR_IRQ = fn ∧
      ((thread_create base s fn stack_start prio C T).1.tcb_list prio).tcb_regs SP_USER
        = stack_start ∧
      ((thread_create base s fn stack_start prio C T).1.tcb_list prio).tcb_regs SP_SVC
        = svc_stack_top base prio ∧
      ((thread_create base s fn stack_start prio C T).1.tcb_list prio).tcb_regs SPSR_IRQ = 0x10 ∧
      ((thread_create base s fn stack_start prio C T).1.tcb_list prio).tcb_regs SPSR_SVC = 0x10 ∧
      is_runnable (thread_create base s fn stack_start prio C T).1 prio = 1 ∧
      (∀ j, j ≠ prio →
        (thread_create base s fn stack_start prio C T).1.tcb_list j = s.tcb_list j) ∧
      (∀ j, j ≠ prio →
        is_runnable (thread_create base s fn stack_start prio C T).1 j = is_runnable s j) ∧
      (thread_create base s fn stack_start prio C T).1.waiting_pool = s.waiting_pool) := by
  by_cases hnull : fn = 0 ∨ stack_start = 0
  · refine ⟨iff_of_true ?_ hnull, fun h => absurd hnull h⟩
    unfold thread_create
    rw [if_pos hnull]
    exact ⟨rfl, rfl⟩
  · refine ⟨iff_of_false ?_ hnull, fun _ => ?_⟩
    · unfold thread_create
      rw [if_neg hnull]
      intro h
      exact absurd h.1 (by simp)
    · unfold thread_create
      rw [if_neg hnull]
      refine ⟨rfl, ?_, ?_, ?_, ?_, ?_, ?_, ?_, ?_, ?_, ?_, ?_, ?_, ?_, ?_, ?_,
        fun j hj => upd_other _ _ hj, fun j hj => ?_, rfl⟩
      iterate 14
        simp [set_run_pool, upd_same, fresh_regs, upd_apply, SP_USER, SPSR_IRQ, SPSR_SVC, LR_IRQ,
          LR_USER, SP_SVC]
      · unfold is_runnable set_run_pool
        rw [pool_bit, set_bit_testBit]
        simp [show prio < 32 by omega]
      · unfold is_runnable set_run_pool
        rw [pool_bit, pool_bit, set_bit_testBit]
        simp [Ne.symm hj]


/-- Witness of `thread_create_spec`: the creation of task 1 in Test 8
(`fn = 0x8100`, `stack_start = 0x21000`, `C = 20`, `T = 104`) from the boot
state. -/
theorem thread_create_spec_witness :
    (1 : Nat) < 31 ∧
    (thread_create 0x10000 boot 0x8100 0x21000 1 20 104).2 = 0 ∧
    ((thread_create 0x10000 boot 0x8100 0x21000 1 20 104).1.tcb_list 1).computation = 20 ∧
    ((thread_create 0x10000 boot 0x8100 0x21000 1 20 104).1.tcb_list 1).period = 104 ∧
    is_runnable (thread_create 0x10000 boot 0x8100 0x21000 1 20 104).1 1 = 1 :=
  have h := (thread_create_spec 0x10000 boot 0x8100 0x21000 1 20 104 (by decide)).2 (by decide)
  ⟨by decide, h.1, h.2.2.2.1, h.2.2.2.2.1, h.2.2.2.2.2.2.2.2.2.2.2.2.2.2.2.1⟩

/-- C18. `thread_init` returns -1 with the state unchanged exactly when
`idle_fn` or `idle_stack_start` is `NULL`; otherwise it returns 0, fills
`tcb_list[31]` as stated and changes neither pool, nor any other TCB. -/
theorem thread_init_spec (base : Nat) (s : Kernel) (idle_fn idle_stack_start : Nat) :
    (((thread_init base s idle_fn idle_stack_start).2 = -1 ∧
        (thread_init base s idle_fn idle_stack_start).1 = s) ↔
      (idle_fn = 0 ∨ idle_stack_start = 0)) ∧
    (¬ (idle_fn = 0 ∨ idle_stack_start = 0) →
      (thread_init base s idle_fn idle_stack_start).2 = 0 ∧
      ((thread_init base s idle_fn idle_stack_start).1.tcb_list 31).priority = 31 ∧
      ((thread_init base s idle_fn idle_stack_start).1.tcb_list 31).curr_priority = 31 ∧
      ((thread_init base s idle_fn idle_stack_start).1.tcb_list 31).period = 1 ∧
      ((thread_init base s idle_fn idle_stack_start).1.tcb_list 31).computation = 100000 ∧
      ((thread_init base s idle_fn idle_stack_start).1.tcb_list 31).status = RUNNABLE ∧
      ((thread_init base s idle_fn idle_stack_start).1.tcb_list 31).wakeup = 0 ∧
      ((thread_init base s idle_fn idle_stack_start).1.tcb_list 31).execution = 0 ∧
      ((thread_init base s idle_fn idle_stack_start).1.tcb_list 31).sleep = 0 ∧
      ((thread_init base s idle_fn idle_stack_start).1.tcb_list 31).tcb_regs LR_USER = idle_fn ∧
      ((thread_init base s idle_fn idle_stack_start).1.tcb_list 31).tcb_regs LR_IRQ = idle_fn ∧
      ((thread_init base s idle_fn idle_stack_start).1.tcb_list 31).tcb_regs SP_USER
        = idle_stack_start ∧
      ((thread_init base s idle_fn idle_stack_start).1.tcb_list 31).tcb_regs SP_SVC
        = svc_stack_top base 31 ∧
      ((thread_init base s idle_fn idle_stack_start).1.tcb_list 31).tcb_regs SPSR_IRQ = 0x10 ∧
      ((thread_init base s idle_fn idle_stack_start).1.tcb_list 31).tcb_regs SPSR_SVC = 0x10 ∧
      (thread_init base s idle_fn idle_stack_start).1.runnable_pool = s.runnable_pool ∧
      (thread_init base s idle_fn idle_stack_start).1.waiting_pool = s.waiting_pool ∧
      (∀ j, j ≠ 31 → (thread_init base s idle_fn idle_stack_start).1.tcb_list j = s.tcb_list j)) := by
  by_cases hnull : idle_fn = 0 ∨ idle_stack_start = 0
  · refine ⟨iff_of_true ?_ hnull, fun h => absurd hnull h⟩
    unfold thread_init
    rw [if_pos hnull]
    exact ⟨rfl, rfl⟩
  · refine ⟨iff_of_false ?_ hnull, fun _ => ?_⟩
    · unfold thread_init
      rw [if_neg hnull]
      intro h
      exact absurd h.1 (by simp)
    · unfold thread_init
      rw [if_neg hnull]
      refine ⟨rfl, ?_, ?_, ?_, ?_, ?_, ?_, ?_, ?_, ?_, ?_, ?_, ?_, ?_, ?_, rfl, rfl,
        fun j hj => upd_other _ _ hj⟩
      iterate 14
        simp [upd_same, fresh_regs, upd_apply, SP_USER, SPSR_IRQ, SPSR_SVC, LR_IRQ, LR_USER,
          SP_SVC]

theorem mutex_seq_succ (ml : Nat → Nat) (n m : Nat) :
    (List.range (n + 1)).map (upd ml n m) = (List.range n).map ml ++ [m] := by
  rw [List.range_succ, List.map_append, List.map_singleton, upd_same]
  congr 1
  apply List.map_congr_left
  intro i hi
  exact upd_other _ _ (Nat.ne_of_lt (List.mem_range.mp hi))

/-- C19. With room left in the mutex list (`mutex_index < THREAD_NUM`),
`mutex_init` returns -1 with the state unchanged exactly when `m` is `NULL`;
otherwise it returns 0, appends `m` at the end of the mutex list, whose length
grows by one, leaves `m` free, without owner and with the given ceiling, and
changes neither another mutex nor the system ceiling. -/
theorem mutex_init_spec (s : Kernel) (m c : Nat) (hroom : s.mutex_index < THREAD_NUM) :
    (((mutex_init s m c).2 = -1 ∧ (mutex_init s m c).1 = s) ↔ m = 0) ∧
    (m ≠ 0 →
      (mutex_init s m c).2 = 0 ∧
      mutex_seq (mutex_init s m c).1 = mutex_seq s ++ [m] ∧
      (mutex_init s m c).1.mutex_index = s.mutex_index + 1 ∧
      ((mutex_init s m c).1.heap m).lock = 0 ∧
      ((mutex_init s m c).1.heap m).thread = -1 ∧
      ((mutex_init s m c).1.heap m).ceiling = c ∧
      (∀ m', m' ≠ m → (mutex_init s m c).1.heap m' = s.heap m') ∧
      (mutex_init s m c).1.mutex_ceiling = s.mutex_ceiling ∧
      (mutex_init s m c).1.tcb_list = s.tcb_list ∧
      (mutex_init s m c).1.runnable_pool = s.runnable_pool ∧
      (mutex_init s m c).1.waiting_pool = s.waiting_pool ∧
      (mutex_init s m c).1.current_task = s.current_task ∧
      (mutex_init s m c).1.time = s.time) := by
  have hidx : (s.mutex_index + 1) % WORD = s.mutex_index + 1 := by
    unfold THREAD_NUM at hroom
    unfold WORD
    exact Nat.mod_eq_of_lt (by omega)
  by_cases hnull : m = 0
  · refine ⟨iff_of_true ?_ hnull, fun h => absurd hnull h⟩
    unfold mutex_init
    rw [if_pos hnull]
    exact ⟨rfl, rfl⟩
  · refine ⟨iff_of_false ?_ hnull, fun _ => ?_⟩
    · unfold mutex_init
      rw [if_neg hnull]
      intro h
      exact absurd h.1 (by simp)
    · unfold mutex_init
      rw [if_neg hnull]
      refine ⟨rfl, ?_, hidx, ?_, ?_, ?_, fun m' hm' => upd_other _ _ hm', rfl, rfl, rfl, rfl,
        rfl, rfl⟩
      · show (List.range ((s.mutex_index + 1) % WORD)).map (upd s.mutex_list s.mutex_index m) =
          (List.range s.mutex_index).map s.mutex_list ++ [m]
        rw [hidx, mutex_seq_succ]
      · simp [upd_same]
      · simp [upd_same]
      · simp [upd_same]

/-- Witness of `mutex_init_spec`: `mutex_init(&mutex1, 2)` of Test 8, with
`mutex0` already in the list. -/
theorem mutex_init_spec_witness :
    (mutex_init (thread_init 0x10000 boot 0x8000 0x20000).1 0x40 1).1.mutex_index < THREAD_NUM ∧
    (0x50 : Nat) ≠ 0 ∧
    mutex_seq (mutex_init (mutex_init (thread_init 0x10000 boot 0x8000 0x20000).1 0x40 1).1
      0x50 2).1 = [0x40, 0x50] :=
  have h := (mutex_init_spec (mutex_init (thread_init 0x10000 boot 0x8000 0x20000).1 0x40 1).1
    0x50 2 (by decide)).2 (by decide)
  ⟨by decide, by decide, h.2.1.trans (by decide)⟩


/-! ### Tick accounting -/

theorem account_time (s : Kernel) : (account s).time = s.time := by
  unfold account
  simp only [set_cur, clear_wait_pool, set_run_pool, set_wait_pool, clear_run_pool]
  split_ifs <;> rfl

theorem account_other (s : Kernel) {j : Nat} (hj : j ≠ s.current_task) :
    (account s).tcb_list j = s.tcb_list j := by
  unfold account
  simp only [set_cur, cur, clear_wait_pool, set_run_pool, set_wait_pool, clear_run_pool]
  split_ifs <;> simp [upd_other _ _ hj]

/-- Accounting of a RUNNING task whose execution count before the increment
has reached its computation budget. -/
theorem account_exhausted (s : Kernel) (h1 : (cur s).status = RUNNING)
    (h2 : (cur s).computation ≤ (cur s).execution) :
    (account s).tcb_list s.current_task =
      { (cur s) with status := WAITING, execution := 0,
                     sleep := ((cur s).sleep + 1) % WORD,
                     wakeup := ((cur s).wakeup + (cur s).period) % WORD } ∧
    (account s).runnable_pool = s.runnable_pool &&& nbit (cur s).priority ∧
    (account s).waiting_pool = s.waiting_pool ||| bit (cur s).priority := by
  unfold account
  rw [if_pos h1]
  have h2' : (s.tcb_list s.current_task).execution ≥ (s.tcb_list s.current_task).computation := h2
  simp only [set_cur, cur, clear_wait_pool, set_run_pool, set_wait_pool, clear_run_pool, upd_same]
  rw [if_pos h2']
  simp [upd_same]

/-- Accounting of a RUNNING task whose execution count before the increment
is below its computation budget. -/
theorem account_budget (s : Kernel) (h1 : (cur s).status = RUNNING)
    (h2 : (cur s).execution < (cur s).computation) :
    (account s).tcb_list s.current_task =
      { (cur s) with execution := ((cur s).execution + 1) % WORD,
                     sleep := ((cur s).sleep + 1) % WORD } ∧
    (account s).runnable_pool = s.runnable_pool ||| bit (cur s).priority ∧
    (account s).waiting_pool = s.waiting_pool &&& nbit (cur s).priority := by
  unfold account
  rw [if_pos h1]
  have h2' : ¬ (s.tcb_list s.current_task).execution ≥ (s.tcb_list s.current_task).computation :=
    Nat.not_le.mpr h2
  simp only [set_cur, cur, clear_wait_pool, set_run_pool, set_wait_pool, clear_run_pool, upd_same]
  rw [if_neg h2']
  simp [upd_same]

/-- Accounting of a task that is WAITING when the tick comes. -/
theorem account_waiting (s : Kernel) (h1 : (cur s).status = WAITING) :
    (account s).tcb_list s.current_task =
      { (cur s) with execution := 0,
                     wakeup := ((cur s).wakeup + (cur s).period) % WORD } ∧
    (account s).runnable_pool = s.runnable_pool &&& nbit (cur s).priority ∧
    (account s).waiting_pool = s.waiting_pool ||| bit (cur s).priority := by
  unfold account
  rw [if_neg (by rw [h1]; decide), if_pos h1]
  simp [set_cur, cur, clear_wait_pool, set_run_pool, set_wait_pool, clear_run_pool, upd_same]


/-! ### Wake-up loop -/

theorem wake_one_due (s : Kernel) (i : Nat) (h : due s i) :
    (wake_one s i).tcb_list =
      upd s.tcb_list i { (s.tcb_list i) with status := RUNNABLE, execution := 0 } ∧
    (wake_one s i).runnable_pool = s.runnable_pool ||| bit i ∧
    (wake_one s i).waiting_pool = s.waiting_pool &&& nbit i ∧
    (wake_one s i).time = s.time := by
  unfold wake_one
  rw [if_pos h]
  exact ⟨rfl, rfl, rfl, rfl⟩

theorem wake_one_not_due (s : Kernel) (i : Nat) (h : ¬ due s i) : wake_one s i = s := by
  unfold wake_one
  rw [if_neg h]

/-- Effect of the first `n` iterations of the wake-up loop on index `j`. -/
theorem wake_loop_view (s : Kernel) (n : Nat) (hn : n ≤ 32) :
    ∀ j, j < 32 →
      (wake_loop s n).time = s.time ∧
      ((wake_loop s n).tcb_list j =
        if j < n ∧ due s j then { (s.tcb_list j) with status := RUNNABLE, execution := 0 }
        else s.tcb_list j) ∧
      ((wake_loop s n).runnable_pool.testBit j = true ↔
        s.runnable_pool.testBit j = true ∨ (j < n ∧ due s j)) ∧
      ((wake_loop s n).waiting_pool.testBit j = true ↔
        s.waiting_pool.testBit j = true ∧ ¬ (j < n ∧ due s j)) := by
  induction n with
  | zero =>
    intro j _
    refine ⟨rfl, ?_, ?_, ?_⟩
    · rw [if_neg (fun h => absurd h.1 (Nat.not_lt_zero _))]
      rfl
    · show s.runnable_pool.testBit j = true ↔ _
      constructor
      · exact fun h => Or.inl h
      · rintro (h | h)
        · exact h
        · exact absurd h.1 (Nat.not_lt_zero _)
    · show s.waiting_pool.testBit j = true ↔ _
      constructor
      · exact fun h => ⟨h, fun h' => absurd h'.1 (Nat.not_lt_zero _)⟩
      · exact fun h => h.1
  | succ n ih =>
    have ih' := ih (by omega)
    obtain ⟨hnt, hntcb, -, hnw⟩ := ih' n (by omega)
    rw [if_neg (fun h => absurd h.1 (Nat.lt_irrefl _))] at hntcb
    have hdue : due (wake_loop s n) n ↔ due s n := by
      unfold due
      rw [is_waiting_ne_zero, is_waiting_ne_zero, hnw, hnt, hntcb]
      constructor
      · exact fun h => ⟨h.1.1, h.2⟩
      · exact fun h => ⟨⟨h.1, fun h' => absurd h'.1 (Nat.lt_irrefl _)⟩, h.2⟩
    intro j hj
    obtain ⟨hjt, hjtcb, hjr, hjw⟩ := ih' j hj
    rw [wake_loop]
    by_cases hd : due s n
    · obtain ⟨e1, e2, e3, e4⟩ := wake_one_due (wake_loop s n) n (hdue.mpr hd)
      rw [e1, e2, e3, e4, set_bit_testBit, clear_bit_testBit]
      by_cases hjn : j = n
      · subst hjn
        refine ⟨hjt, ?_, ?_, ?_⟩
        · rw [upd_same, if_pos ⟨Nat.lt_succ_self _, hd⟩, hntcb]
        · exact iff_of_true (by simp [hj]) (Or.inr ⟨Nat.lt_succ_self _, hd⟩)
        · exact iff_of_false (by simp) (fun h => h.2 ⟨Nat.lt_succ_self _, hd⟩)
      · refine ⟨hjt, ?_, ?_, ?_⟩
        · rw [upd_other _ _ hjn, hjtcb]
          by_cases hc : j < n ∧ due s j
          · rw [if_pos hc, if_pos ⟨by omega, hc.2⟩]
          · rw [if_neg hc, if_neg (fun h => hc ⟨by omega, h.2⟩)]
        · simp only [Bool.or_eq_true, Bool.and_eq_true, decide_eq_true_eq, hjr]
          constructor
          · rintro (h | h)
            · rcases h with h | h
              · exact Or.inl h
              · exact Or.inr ⟨by omega, h.2⟩
            · exact absurd h.1.symm hjn
          · rintro (h | h)
            · exact Or.inl (Or.inl h)
            · exact Or.inl (Or.inr ⟨by omega, h.2⟩)
        · simp only [Bool.and_eq_true, decide_eq_true_eq, Bool.not_eq_true', decide_eq_false_iff_not,
            hjw]
          constructor
          · rintro ⟨⟨h1, h2⟩, -⟩
            exact ⟨h1, fun h => h2 ⟨by omega, h.2⟩⟩
          · rintro ⟨h1, h2⟩
            exact ⟨⟨h1, fun h => h2 ⟨by omega, h.2⟩⟩, hj, fun h => hjn h.symm⟩
    · rw [wake_one_not_due _ _ (fun h => hd (hdue.mp h))]
      refine ⟨hjt, ?_, ?_, ?_⟩
      · rw [hjtcb]
        by_cases hc : j < n ∧ due s j
        · rw [if_pos hc, if_pos ⟨by omega, hc.2⟩]
        · rw [if_neg hc, if_neg]
          rintro ⟨h1, h2⟩
          by_cases hjn : j = n
          · subst hjn; exact hd h2
          · exact hc ⟨by omega, h2⟩
      · rw [hjr]
        constructor
        · rintro (h | h)
          · exact Or.inl h
          · exact Or.inr ⟨by omega, h.2⟩
        · rintro (h | ⟨h1, h2⟩)
          · exact Or.inl h
          · by_cases hjn : j = n
            · subst hjn; exact absurd h2 hd
            · exact Or.inr ⟨by omega, h2⟩
      · rw [hjw]
        constructor
        · rintro ⟨h1, h2⟩
          refine ⟨h1, ?_⟩
          rintro ⟨h3, h4⟩
          by_cases hjn : j = n
          · subst hjn; exact hd h4
          · exact h2 ⟨by omega, h4⟩
        · rintro ⟨h1, h2⟩
          exact ⟨h1, fun h => h2 ⟨by omega, h.2⟩⟩


/-! ### Save, requeue and switch -/

theorem requeue_pools (s : Kernel) (n : Nat) :
    (requeue s n).runnable_pool =
      (if n ≠ (cur s).priority ∧ is_waiting s (cur s).priority = 0 then
        s.runnable_pool ||| bit (cur s).priority else s.runnable_pool) ∧
    (requeue s n).waiting_pool =
      (if n ≠ (cur s).priority ∧ is_waiting s (cur s).priority = 0 then
        s.waiting_pool &&& nbit (cur s).priority else s.waiting_pool) ∧
    (requeue s n).time = s.time := by
  unfold requeue
  by_cases hc : n ≠ (cur s).priority ∧ is_waiting s (cur s).priority = 0
  · rw [if_pos hc, if_pos hc, if_pos hc]
    simp [set_run_pool, clear_wait_pool, set_cur, cur, upd_same]
  · rw [if_neg hc, if_neg hc, if_neg hc]
    exact ⟨rfl, rfl, rfl⟩

theorem switch_to_pools (s : Kernel) (n : Nat) :
    (switch_to s n).runnable_pool = s.runnable_pool &&& nbit (s.tcb_list n).priority ∧
    (switch_to s n).waiting_pool = s.waiting_pool &&& nbit (s.tcb_list n).priority ∧
    (switch_to s n).time = s.time := by
  unfold switch_to
  simp [clear_run_pool, clear_wait_pool, set_cur, cur, upd_same]

/-- Effect on index `j` of the part of `call_scheduler` that follows
`find_next_task`, run in the state `w` with the elected index `n`, when the
outgoing and the elected TCB hold their own index as priority. -/
theorem tail_view (w : Kernel) (sp : Nat → Nat) (n j : Nat) (hj : j < 32)
    (hc : (w.tcb_list w.current_task).priority = w.current_task)
    (hn : (w.tcb_list n).priority = n) :
    (switch_to (requeue (save_frame w sp) n) n).current_task = n ∧
    (switch_to (requeue (save_frame w sp) n) n).time = w.time ∧
    ((switch_to (requeue (save_frame w sp) n) n).tcb_list j).status =
      (if j = n then RUNNING
       else if (n ≠ w.current_task ∧ is_waiting w w.current_task = 0) ∧ j = w.current_task
         then RUNNABLE
       else (w.tcb_list j).status) ∧
    ((switch_to (requeue (save_frame w sp) n) n).tcb_list j).priority = (w.tcb_list j).priority ∧
    ((switch_to (requeue (save_frame w sp) n) n).tcb_list j).wakeup = (w.tcb_list j).wakeup ∧
    ((switch_to (requeue (save_frame w sp) n) n).tcb_list j).execution
      = (w.tcb_list j).execution ∧
    ((switch_to (requeue (save_frame w sp) n) n).runnable_pool.testBit j = true ↔
      (w.runnable_pool.testBit j = true ∨
        ((n ≠ w.current_task ∧ is_waiting w w.current_task = 0) ∧ j = w.current_task)) ∧ j ≠ n) ∧
    ((switch_to (requeue (save_frame w sp) n) n).waiting_pool.testBit j = true ↔
      w.waiting_pool.testBit j = true ∧
        ¬ ((n ≠ w.current_task ∧ is_waiting w w.current_task = 0) ∧ j = w.current_task) ∧ j ≠ n) := by
  have hcf : (cur (save_frame w sp)).priority = w.current_task := by
    unfold cur
    rw [save_frame_current, save_frame_tcb, if_pos rfl]
    exact hc
  have hwf : ∀ p, is_waiting (save_frame w sp) p = is_waiting w p := fun _ => rfl
  have hqn : ((requeue (save_frame w sp) n).tcb_list n).priority = n := by
    rw [requeue_tcb, save_frame_tcb]
    split_ifs <;> exact hn
  obtain ⟨q1, q2, q3⟩ := requeue_pools (save_frame w sp) n
  obtain ⟨s1, s2, s3⟩ := switch_to_pools (requeue (save_frame w sp) n) n
  rw [hcf, hwf] at q1 q2
  rw [hqn] at s1 s2
  have hstat : ((switch_to (requeue (save_frame w sp) n) n).tcb_list j).status =
      (if j = n then RUNNING
       else if (n ≠ w.current_task ∧ is_waiting w w.current_task = 0) ∧ j = w.current_task
         then RUNNABLE
       else (w.tcb_list j).status) := by
    rw [switch_to_tcb, requeue_tcb, save_frame_tcb, hcf, hwf, save_frame_current]
    split_ifs <;> rfl
  have hfld : ((switch_to (requeue (save_frame w sp) n) n).tcb_list j).priority
        = (w.tcb_list j).priority ∧
      ((switch_to (requeue (save_frame w sp) n) n).tcb_list j).wakeup = (w.tcb_list j).wakeup ∧
      ((switch_to (requeue (save_frame w sp) n) n).tcb_list j).execution
        = (w.tcb_list j).execution := by
    rw [switch_to_tcb, requeue_tcb, save_frame_tcb]
    split_ifs <;> exact ⟨rfl, rfl, rfl⟩
  refine ⟨rfl, ?_, hstat, hfld.1, hfld.2.1, hfld.2.2, ?_, ?_⟩
  · rw [s3, q3]
    rfl
  · rw [s1, q1, clear_bit_testBit]
    by_cases hcond : n ≠ w.current_task ∧ is_waiting w w.current_task = 0
    · rw [if_pos hcond, set_bit_testBit]
      simp only [Bool.and_eq_true, Bool.or_eq_true, decide_eq_true_eq, Bool.not_eq_true',
        decide_eq_false_iff_not]
      constructor
      · rintro ⟨h1 | h1, -, h3⟩
        · exact ⟨Or.inl h1, fun h => h3 h.symm⟩
        · exact ⟨Or.inr ⟨hcond, h1.1.symm⟩, fun h => h3 h.symm⟩
      · rintro ⟨h1 | h1, h3⟩
        · exact ⟨Or.inl h1, hj, fun h => h3 h.symm⟩
        · exact ⟨Or.inr ⟨h1.2.symm, by rw [← h1.2]; exact hj⟩, hj, fun h => h3 h.symm⟩
    · rw [if_neg hcond]
      simp only [Bool.and_eq_true, decide_eq_true_eq, Bool.not_eq_true', decide_eq_false_iff_not]
      constructor
      · rintro ⟨h1, -, h3⟩
        exact ⟨Or.inl h1, fun h => h3 h.symm⟩
      · rintro ⟨h1 | h1, h3⟩
        · exact ⟨h1, hj, fun h => h3 h.symm⟩
        · exact absurd h1.1 hcond
  · rw [s2, q2, clear_bit_testBit]
    by_cases hcond : n ≠ w.current_task ∧ is_waiting w w.current_task = 0
    · rw [if_pos hcond, clear_bit_testBit]
      simp only [Bool.and_eq_true, decide_eq_true_eq, Bool.not_eq_true', decide_eq_false_iff_not]
      constructor
      · rintro ⟨⟨h1, -, h2⟩, -, h3⟩
        exact ⟨h1, fun h => h2 h.2.symm, fun h => h3 h.symm⟩
      · rintro ⟨h1, h2, h3⟩
        exact ⟨⟨h1, hj, fun h => h2 ⟨hcond, h.symm⟩⟩, hj, fun h => h3 h.symm⟩
    · rw [if_neg hcond]
      simp only [Bool.and_eq_true, decide_eq_true_eq, Bool.not_eq_true', decide_eq_false_iff_not]
      constructor
      · rintro ⟨h1, -, h3⟩
        exact ⟨h1, fun h => hcond h.1, fun h => h3 h.symm⟩
      · rintro ⟨h1, -, h3⟩
        exact ⟨h1, hj, fun h => h3 h.symm⟩


/-! ### The invariant of the started kernel -/

/-- Accounting seen from index `j`, when the outgoing TCB holds its own index
as priority and is RUNNING or WAITING. -/
theorem account_view (s : Kernel) (hc : (cur s).priority = s.current_task)
    (hst : (cur s).status = RUNNING ∨ (cur s).status = WAITING) (hlt : s.current_task < 32) :
    (∀ j, ((account s).tcb_list j).priority = (s.tcb_list j).priority) ∧
    (∀ j, j < 32 → j ≠ s.current_task →
      ((account s).runnable_pool.testBit j = true ↔ s.runnable_pool.testBit j = true) ∧
      ((account s).waiting_pool.testBit j = true ↔ s.waiting_pool.testBit j = true)) ∧
    ((((account s).tcb_list s.current_task).status = RUNNING ∧
        (account s).runnable_pool.testBit s.current_task = true ∧
        ¬ (account s).waiting_pool.testBit s.current_task = true) ∨
      (((account s).tcb_list s.current_task).status = WAITING ∧
        ¬ (account s).runnable_pool.testBit s.current_task = true ∧
        (account s).waiting_pool.testBit s.current_task = true)) := by
  have hset : ∀ x j, j < 32 → j ≠ s.current_task →
      ((x ||| bit s.current_task).testBit j = true ↔ x.testBit j = true) := by
    intro x j _ hj
    rw [set_bit_testBit]
    simp [Ne.symm hj]
  have hclr : ∀ x j, j < 32 → j ≠ s.current_task →
      ((x &&& nbit s.current_task).testBit j = true ↔ x.testBit j = true) := by
    intro x j hj32 hj
    rw [clear_bit_testBit]
    simp [Ne.symm hj, hj32]
  have hset1 : ∀ x, (x ||| bit s.current_task).testBit s.current_task = true := by
    intro x
    rw [set_bit_testBit]
    simp [hlt]
  have hclr1 : ∀ x, ¬ (x &&& nbit s.current_task).testBit s.current_task = true := by
    intro x
    rw [clear_bit_testBit]
    simp
  have hprio : ∀ j, ((account s).tcb_list j).priority = (s.tcb_list j).priority := by
    intro j
    by_cases hj : j = s.current_task
    · subst hj
      rcases hst with h | h
      · by_cases h2 : (cur s).computation ≤ (cur s).execution
        · rw [(account_exhausted s h h2).1]; rfl
        · rw [(account_budget s h (Nat.not_le.mp h2)).1]; rfl
      · rw [(account_waiting s h).1]; rfl
    · rw [account_other s hj]
  refine ⟨hprio, ?_, ?_⟩
  · intro j hj32 hj
    rcases hst with h | h
    · by_cases h2 : (cur s).computation ≤ (cur s).execution
      · obtain ⟨-, e2, e3⟩ := account_exhausted s h h2
        rw [e2, e3, hc]
        exact ⟨hclr _ j hj32 hj, hset _ j hj32 hj⟩
      · obtain ⟨-, e2, e3⟩ := account_budget s h (Nat.not_le.mp h2)
        rw [e2, e3, hc]
        exact ⟨hset _ j hj32 hj, hclr _ j hj32 hj⟩
    · obtain ⟨-, e2, e3⟩ := account_waiting s h
      rw [e2, e3, hc]
      exact ⟨hclr _ j hj32 hj, hset _ j hj32 hj⟩
  · rcases hst with h | h
    · by_cases h2 : (cur s).computation ≤ (cur s).execution
      · obtain ⟨e1, e2, e3⟩ := account_exhausted s h h2
        rw [e1, e2, e3, hc]
        exact Or.inr ⟨rfl, hclr1 _, hset1 _⟩
      · obtain ⟨e1, e2, e3⟩ := account_budget s h (Nat.not_le.mp h2)
        rw [e1, e2, e3, hc]
        exact Or.inl ⟨h, hset1 _, hclr1 _⟩
    · obtain ⟨e1, e2, e3⟩ := account_waiting s h
      rw [e1, e2, e3, hc]
      exact Or.inr ⟨h, hclr1 _, hset1 _⟩

theorem after_wake_view (s : Kernel) (j : Nat) (hj : j < 32) :
    (after_wake s).time = s.time ∧
    ((after_wake s).tcb_list j =
      if j < 31 ∧ due (account s) j then
        { ((account s).tcb_list j) with status := RUNNABLE, execution := 0 }
      else (account s).tcb_list j) ∧
    ((after_wake s).runnable_pool.testBit j = true ↔
      (account s).runnable_pool.testBit j = true ∨ (j < 31 ∧ due (account s) j)) ∧
    ((after_wake s).waiting_pool.testBit j = true ↔
      (account s).waiting_pool.testBit j = true ∧ ¬ (j < 31 ∧ due (account s) j)) := by
  obtain ⟨h1, h2, h3, h4⟩ := wake_loop_view (account s) 31 (by omega) j hj
  exact ⟨h1.trans (account_time s), h2, h3, h4⟩

/-- What a tick does to index `i` of the started kernel. -/
theorem tick_index {T : Nat → Bool} {s : Kernel} (sp : Nat → Nat) (h : Ticking T s)
    (i : Nat) (hi : i < 32) :
    (call_scheduler s sp).1.current_task < 32 ∧
    T (call_scheduler s sp).1.current_task = true ∧
    ((call_scheduler s sp).1.tcb_list i).priority = (s.tcb_list i).priority ∧
    (i = (call_scheduler s sp).1.current_task →
      ((call_scheduler s sp).1.tcb_list i).status = RUNNING ∧
      ¬ (call_scheduler s sp).1.runnable_pool.testBit i = true ∧
      ¬ (call_scheduler s sp).1.waiting_pool.testBit i = true) ∧
    (i ≠ (call_scheduler s sp).1.current_task → i ≠ s.current_task →
      (i < 31 ∧ due (account (time_inc s)) i) →
      ((call_scheduler s sp).1.tcb_list i).status = RUNNABLE ∧
      (call_scheduler s sp).1.runnable_pool.testBit i = true ∧
      ¬ (call_scheduler s sp).1.waiting_pool.testBit i = true) ∧
    (i ≠ (call_scheduler s sp).1.current_task → i ≠ s.current_task →
      ¬ (i < 31 ∧ due (account (time_inc s)) i) →
      ((call_scheduler s sp).1.tcb_list i).status = (s.tcb_list i).status ∧
      ((call_scheduler s sp).1.runnable_pool.testBit i = true ↔
        s.runnable_pool.testBit i = true) ∧
      ((call_scheduler s sp).1.waiting_pool.testBit i = true ↔
        s.waiting_pool.testBit i = true)) ∧
    (i ≠ (call_scheduler s sp).1.current_task → i = s.current_task →
      parked (call_scheduler s sp).1 i) := by
  have hlt : (time_inc s).current_task < 32 := h.cur_lt
  have hc0 : (cur (time_inc s)).priority = (time_inc s).current_task :=
    h.prio _ h.cur_lt h.cur_task
  obtain ⟨aprio, abits, acur⟩ := account_view (time_inc s) hc0 h.cur_status hlt
  have hcs : (time_inc s).current_task = s.current_task := rfl
  rw [hcs] at abits acur
  -- the state after the wake-up loop
  have hwprio : ∀ j, j < 32 →
      ((after_wake (time_inc s)).tcb_list j).priority = (s.tcb_list j).priority := by
    intro j hj
    rw [(after_wake_view (time_inc s) j hj).2.1]
    split_ifs
    · exact aprio j
    · exact aprio j
  have hwc : (after_wake (time_inc s)).current_task = s.current_task := after_wake_current _
  -- the elected index
  have hnext : (find_next_task (time_inc s)).2 =
      select_from (after_wake (time_inc s)) (cur s).priority 31 0 := rfl
  have hT : ∀ j, j < 32 → j ≠ s.current_task →
      (s.runnable_pool.testBit j = true ∨ s.waiting_pool.testBit j = true) → T j = true := by
    intro j hj _ hb
    by_contra hTj
    have hf : T j = false := by simpa using hTj
    obtain ⟨r1, r2, -⟩ := h.rest j hj hf
    rw [is_runnable_eq_zero] at r1
    rw [is_waiting_eq_zero] at r2
    rcases hb with hb | hb
    · rw [r1] at hb; cases hb
    · rw [r2] at hb; cases hb
  have hn32 : (find_next_task (time_inc s)).2 < 32 ∧ T (find_next_task (time_inc s)).2 = true := by
    rw [hnext]
    rcases select_from_spec (after_wake (time_inc s)) (cur s).priority 31 0 with
      ⟨h31, -⟩ | ⟨-, h2, h3, -, -⟩
    · rw [h31]
      exact ⟨by decide, h.idle_task⟩
    · refine ⟨by omega, ?_⟩
      by_cases hnc : select_from (after_wake (time_inc s)) (cur s).priority 31 0 = s.current_task
      · rw [hnc]; exact h.cur_task
      · apply hT _ (by omega) hnc
        rw [is_runnable_ne_zero, (after_wake_view (time_inc s) _ (by omega)).2.2.1] at h3
        rcases h3 with h3 | h3
        · exact Or.inl ((abits _ (by omega) hnc).1.mp h3)
        · have := h3.2.1
          rw [is_waiting_ne_zero] at this
          exact Or.inr ((abits _ (by omega) hnc).2.mp this)
  obtain ⟨n, hn⟩ : ∃ n, n = (find_next_task (time_inc s)).2 := ⟨_, rfl⟩
  obtain ⟨w, hw⟩ : ∃ w, w = after_wake (time_inc s) := ⟨_, rfl⟩
  rw [← hn] at hn32
  rw [← hw] at hwprio hwc
  have hcw : (w.tcb_list w.current_task).priority = w.current_task := by
    rw [hwc, hwprio _ h.cur_lt]
    exact h.prio _ h.cur_lt h.cur_task
  have hnw : (w.tcb_list n).priority = n := by
    rw [hwprio _ hn32.1]
    exact h.prio _ hn32.1 hn32.2
  obtain ⟨t1, -, t3, t4, -, -, t7, t8⟩ := tail_view w sp n i hi hcw hnw
  obtain ⟨-, w2, w3, w4⟩ := after_wake_view (time_inc s) i hi
  rw [← hw] at w2 w3 w4
  rw [hwc] at t3 t7 t8
  have hfst : (call_scheduler s sp).1 = switch_to (requeue (save_frame w sp) n) n := by
    rw [call_scheduler_fst, ← hn, ← hw]
  rw [hfst, t1]
  have hdw : due (account (time_inc s)) i →
      (account (time_inc s)).waiting_pool.testBit i = true := by
    intro hd
    exact (is_waiting_ne_zero _ _).mp hd.1
  refine ⟨hn32.1, hn32.2, ?_, ?_, ?_, ?_, ?_⟩
  · rw [t4, hwprio i hi]
  · intro hin
    refine ⟨?_, ?_, ?_⟩
    · rw [t3, if_pos hin]
    · rw [t7]
      exact fun h' => h'.2 hin
    · rw [t8]
      exact fun h' => h'.2.2 hin
  · intro hin hic hd
    rw [if_pos hd] at w2
    refine ⟨?_, ?_, ?_⟩
    · rw [t3, if_neg hin, if_neg (fun h' => hic h'.2), w2]
    · rw [t7, w3]
      exact ⟨Or.inl (Or.inr hd), hin⟩
    · rw [t8, w4]
      exact fun h' => h'.1.2 hd
  · intro hin hic hd
    rw [if_neg hd] at w2
    refine ⟨?_, ?_, ?_⟩
    · rw [t3, if_neg hin, if_neg (fun h' => hic h'.2), w2]
      exact congrArg TCB.status (account_other (time_inc s) hic)
    · rw [t7, w3, (abits i hi hic).1]
      constructor
      · rintro ⟨(h1 | h1) | h1, -⟩
        · exact h1
        · exact absurd h1 hd
        · exact absurd h1.2 hic
      · exact fun h1 => ⟨Or.inl (Or.inl h1), hin⟩
    · rw [t8, w4, (abits i hi hic).2]
      constructor
      · exact fun h1 => h1.1.1
      · exact fun h1 => ⟨⟨h1, hd⟩, fun h' => hic h'.2, hin⟩
  · intro hin hic
    have hnc : n ≠ s.current_task := fun h' => hin (hic.trans h'.symm)
    have hwait : is_waiting w s.current_task = 0 ↔ ¬ w.waiting_pool.testBit i = true := by
      rw [is_waiting_eq_zero, ← hic, Bool.not_eq_true]
    simp only [hwait] at t3 t7 t8
    unfold parked
    rw [is_runnable_ne_zero, is_waiting_eq_zero, is_runnable_eq_zero, is_waiting_ne_zero,
      ← Bool.not_eq_true, ← Bool.not_eq_true, t3, t7, t8, if_neg hin]
    rw [← hic] at acur
    rcases acur with ⟨a1, a2, a3⟩ | ⟨a1, a2, a3⟩
    · have hd : ¬ (i < 31 ∧ due (account (time_inc s)) i) := fun hd => a3 (hdw hd.2)
      rw [if_neg hd] at w2
      have hWw : ¬ w.waiting_pool.testBit i = true := by
        rw [w4]
        exact fun h' => a3 h'.1
      left
      refine ⟨⟨Or.inr ⟨⟨hnc, hWw⟩, hic⟩, hin⟩, ?_, ?_⟩
      · exact fun h' => h'.2.1 ⟨⟨hnc, hWw⟩, hic⟩
      · rw [if_pos ⟨⟨hnc, hWw⟩, hic⟩]
    · by_cases hd : i < 31 ∧ due (account (time_inc s)) i
      · rw [if_pos hd] at w2
        have hWw : ¬ w.waiting_pool.testBit i = true := by
          rw [w4]
          exact fun h' => h'.2 hd
        left
        refine ⟨⟨Or.inr ⟨⟨hnc, hWw⟩, hic⟩, hin⟩, ?_, ?_⟩
        · exact fun h' => h'.2.1 ⟨⟨hnc, hWw⟩, hic⟩
        · rw [if_pos ⟨⟨hnc, hWw⟩, hic⟩]
      · rw [if_neg hd] at w2
        have hWw : w.waiting_pool.testBit i = true := by
          rw [w4]
          exact ⟨a3, hd⟩
        right
        refine ⟨?_, ⟨hWw, fun h' => h'.1.2 hWw, hin⟩, ?_⟩
        · rw [w3]
          rintro ⟨(h1 | h1) | h1, -⟩
          · exact a2 h1
          · exact hd h1
          · exact h1.1.2 hWw
        · rw [if_neg (fun h' => h'.1.2 hWw), w2, a1]

/-- For a TCB other than the outgoing one, the wake-up condition of a tick
reads the waiting bit and the wake-up time it had before the tick, and the
incremented time. -/
theorem due_other {T : Nat → Bool} {s : Kernel} (h : Ticking T s) (i : Nat) (hi : i < 32)
    (hic : i ≠ s.current_task) :
    due (account (time_inc s)) i ↔
      (s.waiting_pool.testBit i = true ∧ (s.time + 1) % WORD ≥ (s.tcb_list i).wakeup) := by
  have hc0 : (cur (time_inc s)).priority = (time_inc s).current_task :=
    h.prio _ h.cur_lt h.cur_task
  obtain ⟨-, abits, -⟩ := account_view (time_inc s) hc0 h.cur_status h.cur_lt
  unfold due
  rw [is_waiting_ne_zero, (abits i hi hic).2, account_time, account_other (time_inc s) hic]
  rfl

theorem call_scheduler_words (s : Kernel) (sp : Nat → Nat) :
    (call_scheduler s sp).1.runnable_pool < WORD ∧ (call_scheduler s sp).1.waiting_pool < WORD := by
  rw [call_scheduler_fst]
  obtain ⟨e1, e2, -⟩ := switch_to_pools
    (requeue (save_frame (after_wake (time_inc s)) sp) (find_next_task (time_inc s)).2)
    (find_next_task (time_inc s)).2
  rw [e1, e2]
  exact ⟨Nat.and_lt_two_pow _ (nbit_lt _), Nat.and_lt_two_pow _ (nbit_lt _)⟩

theorem parked_of_bits {s s' : Kernel} {i : Nat}
    (hst : (s'.tcb_list i).status = (s.tcb_list i).status)
    (hr : s'.runnable_pool.testBit i = true ↔ s.runnable_pool.testBit i = true)
    (hw : s'.waiting_pool.testBit i = true ↔ s.waiting_pool.testBit i = true)
    (hp : parked s i) : parked s' i := by
  unfold parked at hp ⊢
  rw [is_runnable_ne_zero, is_waiting_eq_zero, is_runnable_eq_zero, is_waiting_ne_zero,
    ← Bool.not_eq_true, ← Bool.not_eq_true] at hp ⊢
  rw [hst, hr, hw]
  exact hp

/-- A tick keeps the invariant of the started kernel and leaves the elected
task RUNNING with both its bits clear. -/
theorem ticking_tick {T : Nat → Bool} {s : Kernel} (sp : Nat → Nat) (h : Ticking T s) :
    Ticking T (call_scheduler s sp).1 ∧
    (cur (call_scheduler s sp).1).status = RUNNING ∧
    is_runnable (call_scheduler s sp).1 (call_scheduler s sp).1.current_task = 0 ∧
    is_waiting (call_scheduler s sp).1 (call_scheduler s sp).1.current_task = 0 := by
  obtain ⟨n32, nT, -, ncur, -, -, -⟩ :=
    tick_index sp h (call_scheduler s sp).1.current_task (tick_index sp h 0 (by decide)).1
  obtain ⟨nst, nr, nw⟩ := ncur rfl
  refine ⟨⟨n32, nT, h.idle_task, ?_, (call_scheduler_words s sp).1, (call_scheduler_words s sp).2,
    ?_, ?_, Or.inl nst⟩, nst, ?_, ?_⟩
  · intro i hi hTi
    rw [(tick_index sp h i hi).2.2.1]
    exact h.prio i hi hTi
  · intro i hi hTi
    obtain ⟨-, -, -, -, -, i6, -⟩ := tick_index sp h i hi
    have hin : i ≠ (call_scheduler s sp).1.current_task := by
      intro e
      rw [← e, hTi] at nT
      cases nT
    have hic : i ≠ s.current_task := by
      intro e
      have := h.cur_task
      rw [← e, hTi] at this
      cases this
    obtain ⟨r1, r2, r3⟩ := h.rest i hi hTi
    have hd : ¬ (i < 31 ∧ due (account (time_inc s)) i) := by
      rintro ⟨-, hd⟩
      have := ((due_other h i hi hic).mp hd).1
      rw [(is_waiting_eq_zero s i).mp r2] at this
      cases this
    obtain ⟨e1, e2, e3⟩ := i6 hin hic hd
    rw [is_runnable_eq_zero, ← Bool.not_eq_true] at r1
    rw [is_waiting_eq_zero, ← Bool.not_eq_true] at r2
    rw [is_runnable_eq_zero, is_waiting_eq_zero, ← Bool.not_eq_true, ← Bool.not_eq_true,
      e1, e2, e3]
    exact ⟨r1, r2, r3⟩
  · intro i hi hTi hin
    obtain ⟨-, -, -, -, i5, i6, i7⟩ := tick_index sp h i hi
    by_cases hic : i = s.current_task
    · exact i7 hin hic
    · by_cases hd : i < 31 ∧ due (account (time_inc s)) i
      · obtain ⟨e1, e2, e3⟩ := i5 hin hic hd
        left
        rw [is_runnable_ne_zero, is_waiting_eq_zero, ← Bool.not_eq_true]
        exact ⟨e2, e3, e1⟩
      · obtain ⟨e1, e2, e3⟩ := i6 hin hic hd
        exact parked_of_bits e1 e2 e3 (h.others i hi hTi hic)
  · rw [is_runnable_eq_zero, ← Bool.not_eq_true]
    exact nr
  · rw [is_waiting_eq_zero, ← Bool.not_eq_true]
    exact nw

/-- A step that writes neither the pools, nor `current_task`, nor a priority,
nor the status of a TCB other than the running one, keeps the invariant. -/
theorem ticking_frame {T : Nat → Bool} {s s' : Kernel} (h : Ticking T s)
    (hc : s'.current_task = s.current_task)
    (hr : s'.runnable_pool = s.runnable_pool) (hw : s'.waiting_pool = s.waiting_pool)
    (hp : ∀ i, (s'.tcb_list i).priority = (s.tcb_list i).priority)
    (hs : ∀ i, i ≠ s.current_task → (s'.tcb_list i).status = (s.tcb_list i).status)
    (hcs : (cur s').status = RUNNING ∨ (cur s').status = WAITING) : Ticking T s' := by
  have hir : ∀ i, is_runnable s' i = is_runnable s i := by
    intro i
    unfold is_runnable
    rw [hr]
  have hiw : ∀ i, is_waiting s' i = is_waiting s i := by
    intro i
    unfold is_waiting
    rw [hw]
  refine ⟨hc ▸ h.cur_lt, hc ▸ h.cur_task, h.idle_task, ?_, hr ▸ h.run_word, hw ▸ h.wait_word,
    ?_, ?_, hcs⟩
  · intro i hi hTi
    rw [hp]
    exact h.prio i hi hTi
  · intro i hi hTi
    have hic : i ≠ s.current_task := by
      intro e
      have := h.cur_task
      rw [← e, hTi] at this
      cases this
    rw [hir, hiw, hs i hic]
    exact h.rest i hi hTi
  · intro i hi hTi hic
    rw [hc] at hic
    unfold parked
    rw [hir, hiw, hs i hic]
    exact h.others i hi hTi hic

theorem set_cur_other (s : Kernel) (t : TCB) {i : Nat} (hi : i ≠ s.current_task) :
    (set_cur s t).tcb_list i = s.tcb_list i := upd_other _ _ hi

theorem set_cur_same (s : Kernel) (t : TCB) : cur (set_cur s t) = t := upd_same _ _ _

theorem set_cur_apply (s : Kernel) (t : TCB) (i : Nat) :
    (set_cur s t).tcb_list i = if i = s.current_task then t else s.tcb_list i := rfl

/-- Every step of the started kernel keeps the invariant. -/
theorem ticking_step {T : Nat → Bool} {s : Kernel} (e : KStep) (h : Ticking T s) :
    Ticking T (e.exec s) := by
  cases e with
  | tick sp => exact (ticking_tick sp h).1
  | wait =>
    refine ticking_frame h rfl rfl rfl (fun i => ?_) (fun i hi => ?_) (Or.inr ?_)
    · show ((set_cur s _).tcb_list i).priority = _
      rw [set_cur_apply]
      split_ifs with hi
      · rw [hi]; rfl
      · rfl
    · exact congrArg TCB.status (set_cur_other s _ hi)
    · show (cur (set_cur s _)).status = WAITING
      rw [set_cur_same]
  | spin =>
    refine ticking_frame h rfl rfl rfl (fun i => ?_) (fun i hi => ?_) ?_
    · show ((set_cur s _).tcb_list i).priority = _
      rw [set_cur_apply]
      split_ifs with hi
      · rw [hi]; rfl
      · rfl
    · exact congrArg TCB.status (set_cur_other s _ hi)
    · show (cur (set_cur s _)).status = RUNNING ∨ (cur (set_cur s _)).status = WAITING
      rw [set_cur_same]
      exact h.cur_status
  | init m c =>
    show Ticking T (mutex_init s m c).1
    unfold mutex_init
    split_ifs
    · exact h
    · exact ticking_frame h rfl rfl rfl (fun _ => rfl) (fun _ _ => rfl) h.cur_status
  | lock m =>
    show Ticking T ((mutex_lock s m).getD s)
    unfold mutex_lock
    split_ifs
    · exact h
    · exact ticking_frame h rfl rfl rfl (fun _ => rfl) (fun _ _ => rfl) h.cur_status
    · exact h
  | unlock m =>
    refine ticking_frame h rfl rfl rfl (fun i => ?_) (fun i hi => ?_) ?_
    · show ((set_cur _ _).tcb_list i).priority = _
      rw [set_cur_apply]
      split_ifs with hi
      · rw [hi]; rfl
      · rfl
    · exact congrArg TCB.status (set_cur_other _ _ hi)
    · show (cur (set_cur _ _)).status = RUNNING ∨ (cur (set_cur _ _)).status = WAITING
      rw [set_cur_same]
      exact h.cur_status

theorem ticking_krun {T : Nat → Bool} (steps : List KStep) :
    ∀ s, Ticking T s → Ticking T (krun s steps) := by
  induction steps with
  | nil => exact fun s h => h
  | cons e es ih => exact fun s h => ih _ (ticking_step e h)

theorem parked_not_running {s : Kernel} {i : Nat} (h : parked s i) :
    (s.tcb_list i).status ≠ RUNNING := by
  rcases h with ⟨-, -, h⟩ | ⟨-, -, h⟩ <;> rw [h] <;> decide

/-- The state `scheduler_start` leaves satisfies the invariant, with the idle
TCB as the one RUNNING TCB. -/
theorem ticking_start {T : Nat → Bool} {s0 : Kernel} (h0 : Prestart T s0) :
    Ticking T (scheduler_start_state s0) ∧ one_running (scheduler_start_state s0) := by
  have htcb : ∀ i, i ≠ 31 → (scheduler_start_state s0).tcb_list i = s0.tcb_list i :=
    fun i hi => upd_other _ _ hi
  have h31 : (scheduler_start_state s0).tcb_list 31 =
      { (s0.tcb_list 31) with execution := 0, status := RUNNING } := by
    simp [scheduler_start_state, set_cur, cur, upd_same]
  have hlt31 : (scheduler_start_state s0).current_task < THREAD_NUM := by
    show (31 : Nat) < THREAD_NUM
    decide
  have hT : ∀ i, T i = false → i ≠ 31 := by
    intro i hi e
    rw [e, h0.idle_task] at hi
    cases hi
  constructor
  · refine ⟨hlt31, h0.idle_task, h0.idle_task, ?_, h0.run_word, h0.wait_word, ?_, ?_,
      Or.inl ?_⟩
    · intro i hi hTi
      by_cases e : i = 31
      · rw [e, h31]
        exact h0.prio 31 (by decide) h0.idle_task
      · rw [htcb i e]
        exact h0.prio i hi hTi
    · intro i hi hTi
      rw [htcb i (hT i hTi)]
      exact h0.rest i hi hTi
    · intro i hi hTi hic
      have hp := h0.tasks i hi hTi hic
      unfold parked at hp ⊢
      rw [htcb i hic]
      exact hp
    · show ((scheduler_start_state s0).tcb_list 31).status = RUNNING
      rw [h31]
  · refine ⟨hlt31, fun i hi => ?_⟩
    show _ ↔ i = 31
    by_cases e : i = 31
    · rw [e, h31]
      exact iff_of_true rfl rfl
    · rw [htcb i e]
      refine iff_of_false ?_ e
      cases hTi : T i
      · exact (h0.rest i hi hTi).2.2
      · have := h0.tasks i hi hTi e
        exact parked_not_running (h0.tasks i hi hTi e)

/-- In a state satisfying the invariant whose running task is RUNNING,
exactly one TCB is RUNNING. -/
theorem one_running_of {T : Nat → Bool} {s : Kernel} (h : Ticking T s)
    (hr : (cur s).status = RUNNING) : one_running s := by
  refine ⟨h.cur_lt, fun i hi => ?_⟩
  by_cases e : i = s.current_task
  · rw [e]
    exact iff_of_true hr rfl
  · refine iff_of_false ?_ e
    cases hTi : T i
    · exact (h.rest i hi hTi).2.2
    · exact parked_not_running (h.others i hi hTi e)

theorem consistent_of_parked {s : Kernel} {i : Nat} (h : parked s i) : consistent s i := by
  rcases h with ⟨h1, h2, h3⟩ | ⟨h1, h2, h3⟩
  · refine ⟨iff_of_true h1 h3, iff_of_false (fun h => h h2) ?_, iff_of_false (fun h => h1 h.1) ?_⟩
    · rw [h3]; decide
    · rw [h3]; decide
  · refine ⟨iff_of_false (fun h => h h1) ?_, iff_of_true h2 h3, iff_of_false (fun h => h2 h.2) ?_⟩
    · rw [h3]; decide
    · rw [h3]; decide

/-- C11. From the state in which `main` calls `scheduler_start`, exactly one
TCB is RUNNING after `scheduler_start`, and, whatever ticks and system calls
follow, exactly one TCB is RUNNING after every `call_scheduler`: the TCB
`current_task` points to, whose register file `call_scheduler` returns. -/
theorem exactly_one_running (T : Nat → Bool) (s0 : Kernel) (h0 : Prestart T s0)
    (steps : List KStep) (sp : Nat → Nat) :
    one_running (scheduler_start_state s0) ∧
    one_running (call_scheduler (krun (scheduler_start_state s0) steps) sp).1 ∧
    (call_scheduler (krun (scheduler_start_state s0) steps) sp).2 =
      ((call_scheduler (krun (scheduler_start_state s0) steps) sp).1.tcb_list
        (call_scheduler (krun (scheduler_start_state s0) steps) sp).1.current_task).tcb_regs := by
  obtain ⟨hs, hone⟩ := ticking_start h0
  obtain ⟨ht, hr, -, -⟩ := ticking_tick sp (ticking_krun steps _ hs)
  exact ⟨hone, one_running_of ht hr, rfl⟩

/-- C12. From the state in which `main` calls `scheduler_start`, whatever
ticks and system calls follow, after every `call_scheduler` each initialised
TCB has its runnable bit set iff it is RUNNABLE, its waiting bit set iff it is
WAITING, and neither bit set iff it is RUNNING. -/
theorem status_bits_consistent (T : Nat → Bool) (s0 : Kernel) (h0 : Prestart T s0)
    (steps : List KStep) (sp : Nat → Nat) :
    ∀ i, i < THREAD_NUM → T i = true →
      consistent (call_scheduler (krun (scheduler_start_state s0) steps) sp).1 i := by
  obtain ⟨hs, -⟩ := ticking_start h0
  obtain ⟨ht, hr, hb1, hb2⟩ := ticking_tick sp (ticking_krun steps _ hs)
  intro i hi hTi
  by_cases e : i = (call_scheduler (krun (scheduler_start_state s0) steps) sp).1.current_task
  · rw [e]
    have hr' : ((call_scheduler (krun (scheduler_start_state s0) steps) sp).1.tcb_list
        (call_scheduler (krun (scheduler_start_state s0) steps) sp).1.current_task).status
        = RUNNING := hr
    refine ⟨iff_of_false (fun h => h hb1) ?_, iff_of_false (fun h => h hb2) ?_,
      iff_of_true ⟨hb1, hb2⟩ hr'⟩
    · rw [hr']; decide
    · rw [hr']; decide
  · exact consistent_of_parked (ht.others i hi hTi e)

/-- Test 8 reaches `scheduler_start` in a state of the form `Prestart`. -/
theorem prestart_test8 : Prestart test8_tasks test8 :=
  ⟨by decide, by decide, by decide, by decide, by decide, by decide⟩

/-- Witness of `exactly_one_running`: Test 8, where the first tick elects
task 1, which locks `mutex0` and calls `wait_until_next_period`; after the
tick that follows, the elected TCB is the one RUNNING TCB. -/
theorem exactly_one_running_witness :
    Prestart test8_tasks test8 ∧
    one_running (call_scheduler (krun (scheduler_start_state test8)
      [.tick (fun _ => 0), .lock 0x40, .wait]) (fun _ => 0)).1 :=
  ⟨prestart_test8,
    (exactly_one_running test8_tasks test8 prestart_test8
      [.tick (fun _ => 0), .lock 0x40, .wait] (fun _ => 0)).2.1⟩

/-- Witness of `status_bits_consistent`: Test 8 after two ticks, for the TCB
of task 2. -/
theorem status_bits_consistent_witness :
    Prestart test8_tasks test8 ∧ (2 : Nat) < THREAD_NUM ∧ test8_tasks 2 = true ∧
    consistent (call_scheduler (krun (scheduler_start_state test8)
      [.tick (fun _ => 0)]) (fun _ => 0)).1 2 :=
  ⟨prestart_test8, by decide, by decide,
    status_bits_consistent test8_tasks test8 prestart_test8 [.tick (fun _ => 0)] (fun _ => 0)
      2 (by decide) (by decide)⟩

/-- Facts on the elected index and on the priorities, common to the proofs
about one tick of the started kernel. -/
theorem tick_setup {T : Nat → Bool} {s : Kernel} (h : Ticking T s) :
    (find_next_task (time_inc s)).2 < 32 ∧
    T (find_next_task (time_inc s)).2 = true ∧
    (after_wake (time_inc s)).current_task = s.current_task ∧
    ((after_wake (time_inc s)).tcb_list (after_wake (time_inc s)).current_task).priority =
      (after_wake (time_inc s)).current_task ∧
    ((after_wake (time_inc s)).tcb_list (find_next_task (time_inc s)).2).priority =
      (find_next_task (time_inc s)).2 := by
  obtain ⟨n32, nT, -⟩ := tick_index (fun _ => 0) h 0 (by decide)
  have hn : (call_scheduler s (fun _ => 0)).1.current_task = (find_next_task (time_inc s)).2 := rfl
  rw [hn] at n32 nT
  have hc0 : (cur (time_inc s)).priority = (time_inc s).current_task :=
    h.prio _ h.cur_lt h.cur_task
  obtain ⟨aprio, -, -⟩ := account_view (time_inc s) hc0 h.cur_status h.cur_lt
  have hwprio : ∀ j, j < 32 →
      ((after_wake (time_inc s)).tcb_list j).priority = (s.tcb_list j).priority := by
    intro j hj
    rw [(after_wake_view (time_inc s) j hj).2.1]
    split_ifs
    · exact aprio j
    · exact aprio j
  have hwc : (after_wake (time_inc s)).current_task = s.current_task := after_wake_current _
  refine ⟨n32, nT, hwc, ?_, ?_⟩
  · rw [hwc, hwprio _ h.cur_lt]
    exact h.prio _ h.cur_lt h.cur_task
  · rw [hwprio _ n32]
    exact h.prio _ n32 nT

/-- C14. In the started kernel, at a tick whose outgoing task is WAITING,
the scheduler leaves its execution at 0 and its wakeup advanced by its period
(modulo 2^32); if the outgoing task is not the idle one and the new time is
below the new wakeup, it ends the tick WAITING, with its waiting bit set and
its runnable bit clear, and it is not the elected task. -/
theorem voluntary_sleep (T : Nat → Bool) (s : Kernel) (sp : Nat → Nat) (h : Ticking T s)
    (hwait : (cur s).status = WAITING) :
    ((call_scheduler s sp).1.tcb_list s.current_task).execution = 0 ∧
    ((call_scheduler s sp).1.tcb_list s.current_task).wakeup =
      ((cur s).wakeup + (cur s).period) % WORD ∧
    (s.current_task < 31 →
      (s.time + 1) % WORD < ((cur s).wakeup + (cur s).period) % WORD →
      ((call_scheduler s sp).1.tcb_list s.current_task).status = WAITING ∧
      is_waiting (call_scheduler s sp).1 s.current_task ≠ 0 ∧
      is_runnable (call_scheduler s sp).1 s.current_task = 0 ∧
      (call_scheduler s sp).1.current_task ≠ s.current_task) := by
  obtain ⟨n32, -, hwc, hcw, hnw⟩ := tick_setup h
  obtain ⟨-, -, t3, -, t5, t6, t7, t8⟩ :=
    tail_view (after_wake (time_inc s)) sp (find_next_task (time_inc s)).2 s.current_task
      h.cur_lt hcw hnw
  obtain ⟨-, w2, w3, w4⟩ := after_wake_view (time_inc s) s.current_task h.cur_lt
  obtain ⟨a1, a2, a3⟩ := account_waiting (time_inc s) hwait
  have hc0 : (cur (time_inc s)).priority = s.current_task := h.prio _ h.cur_lt h.cur_task
  have hcs : (time_inc s).current_task = s.current_task := rfl
  rw [hcs] at a1
  rw [hc0] at a2 a3
  rw [hwc] at t3 t7 t8
  rw [← call_scheduler_fst] at t3 t5 t6 t7 t8
  have hRa : ¬ (account (time_inc s)).runnable_pool.testBit s.current_task = true := by
    rw [a2, clear_bit_testBit]
    simp
  have hWa : (account (time_inc s)).waiting_pool.testBit s.current_task = true := by
    rw [a3, set_bit_testBit]
    simp
    exact Or.inr h.cur_lt
  refine ⟨?_, ?_, fun hlt hnew => ?_⟩
  · rw [t6, w2]
    split_ifs
    · rfl
    · rw [a1]
  · rw [t5, w2]
    split_ifs
    · rw [a1]; rfl
    · rw [a1]; rfl
  · have hd : ¬ (s.current_task < 31 ∧ due (account (time_inc s)) s.current_task) := by
      rintro ⟨-, -, hge⟩
      rw [account_time, a1] at hge
      have hge' : ((cur s).wakeup + (cur s).period) % WORD ≤ (s.time + 1) % WORD := hge
      omega
    rw [if_neg hd] at w2
    have hRw : ¬ (after_wake (time_inc s)).runnable_pool.testBit s.current_task = true := by
      rw [w3]
      rintro (h1 | h1)
      · exact hRa h1
      · exact hd h1
    have hWw : (after_wake (time_inc s)).waiting_pool.testBit s.current_task = true := by
      rw [w4]
      exact ⟨hWa, hd⟩
    have hcond : ¬ ((find_next_task (time_inc s)).2 ≠ s.current_task ∧
        is_waiting (after_wake (time_inc s)) s.current_task = 0) := by
      rintro ⟨-, h0⟩
      rw [is_waiting_eq_zero, hWw] at h0
      cases h0
    have hnc : s.current_task ≠ (find_next_task (time_inc s)).2 := by
      intro e
      have hnext : (find_next_task (time_inc s)).2 =
          select_from (after_wake (time_inc s)) (cur s).priority 31 0 := rfl
      rcases select_from_spec (after_wake (time_inc s)) (cur s).priority 31 0 with
        ⟨h31, -⟩ | ⟨-, -, h3, -, -⟩
      · rw [hnext, h31] at e
        omega
      · rw [← hnext, ← e, is_runnable_ne_zero] at h3
        exact hRw h3
    refine ⟨?_, ?_, ?_, fun e => hnc e.symm⟩
    · rw [t3, if_neg hnc, if_neg (fun h' => hcond h'.1), w2, a1]
      exact hwait
    · rw [is_waiting_ne_zero, t8]
      exact ⟨hWw, fun h' => hcond h'.1, hnc⟩
    · rw [is_runnable_eq_zero, ← Bool.not_eq_true, t7]
      rintro ⟨h1 | h1, -⟩
      · exact hRw h1
      · exact hcond h1.1

/-- What a tick of the started kernel does to a priority `p` in 0..30,
according to its waiting bit and its wakeup time after the accounting. -/
theorem wake_up_view (T : Nat → Bool) (s : Kernel) (sp : Nat → Nat) (h : Ticking T s)
    (p : Nat) (hp : p < 31) :
    (due (account (time_inc s)) p →
      is_waiting (call_scheduler s sp).1 p = 0 ∧
      ((call_scheduler s sp).1.tcb_list p).execution = 0 ∧
      (((call_scheduler s sp).1.tcb_list p).status = RUNNABLE ∨
        (((call_scheduler s sp).1.tcb_list p).status = RUNNING ∧
          (call_scheduler s sp).1.current_task = p))) ∧
    (is_waiting (account (time_inc s)) p ≠ 0 →
      (account (time_inc s)).time < ((account (time_inc s)).tcb_list p).wakeup →
      ((call_scheduler s sp).1.tcb_list p).status = WAITING ∧
      is_waiting (call_scheduler s sp).1 p ≠ 0) ∧
    (T p = true → ((call_scheduler s sp).1.tcb_list p).status = WAITING →
      (call_scheduler s sp).1.time < ((call_scheduler s sp).1.tcb_list p).wakeup) := by
  have hp32 : p < 32 := by omega
  obtain ⟨n32, -, hwc, hcw, hnw⟩ := tick_setup h
  obtain ⟨t1, t2, t3, -, t5, t6, -, t8⟩ :=
    tail_view (after_wake (time_inc s)) sp (find_next_task (time_inc s)).2 p hp32 hcw hnw
  obtain ⟨w1, w2, -, w4⟩ := after_wake_view (time_inc s) p hp32
  rw [hwc] at t3 t8
  rw [← call_scheduler_fst] at t1 t2 t3 t5 t6 t8
  refine ⟨fun hd => ?_, fun hw hlt => ?_, fun hTp hst => ?_⟩
  · rw [if_pos ⟨hp, hd⟩] at w2
    refine ⟨?_, ?_, ?_⟩
    · rw [is_waiting_eq_zero, ← Bool.not_eq_true, t8, w4]
      exact fun h' => h'.1.2 ⟨hp, hd⟩
    · rw [t6, w2]
    · rw [t3, w2]
      by_cases hpn : p = (find_next_task (time_inc s)).2
      · right
        rw [if_pos hpn]
        exact ⟨rfl, t1.trans hpn.symm⟩
      · left
        rw [if_neg hpn]
        split_ifs <;> rfl
  · have hd : ¬ (p < 31 ∧ due (account (time_inc s)) p) := by
      rintro ⟨-, -, hge⟩
      have hge' : ((account (time_inc s)).tcb_list p).wakeup ≤ (account (time_inc s)).time := hge
      omega
    rw [if_neg hd] at w2
    have hWa : (account (time_inc s)).waiting_pool.testBit p = true :=
      (is_waiting_ne_zero _ _).mp hw
    have hWw : (after_wake (time_inc s)).waiting_pool.testBit p = true := by
      rw [w4]
      exact ⟨hWa, hd⟩
    -- the TCB is WAITING after the accounting, and its runnable bit is clear
    have hc0 : (cur (time_inc s)).priority = (time_inc s).current_task :=
      h.prio _ h.cur_lt h.cur_task
    obtain ⟨-, abits, acur⟩ := account_view (time_inc s) hc0 h.cur_status h.cur_lt
    have hsa : ((account (time_inc s)).tcb_list p).status = WAITING ∧
        ¬ (account (time_inc s)).runnable_pool.testBit p = true := by
      by_cases hpc : p = s.current_task
      · rw [hpc] at hWa ⊢
        rcases acur with ⟨-, -, a3⟩ | ⟨a1, a2, -⟩
        · exact absurd hWa a3
        · exact ⟨a1, a2⟩
      · rw [account_other (time_inc s) hpc, (abits p hp32 hpc).1]
        have hWs : s.waiting_pool.testBit p = true := (abits p hp32 hpc).2.mp hWa
        cases hTp : T p
        · have := (h.rest p hp32 hTp).2.1
          rw [is_waiting_eq_zero] at this
          rw [this] at hWs
          cases hWs
        · rcases h.others p hp32 hTp hpc with ⟨-, o2, -⟩ | ⟨o1, -, o3⟩
          · rw [is_waiting_eq_zero] at o2
            rw [o2] at hWs
            cases hWs
          · rw [is_runnable_eq_zero, ← Bool.not_eq_true] at o1
            exact ⟨o3, o1⟩
    obtain ⟨-, -, w3, -⟩ := after_wake_view (time_inc s) p hp32
    have hRw : ¬ (after_wake (time_inc s)).runnable_pool.testBit p = true := by
      rw [w3]
      rintro (h1 | h1)
      · exact hsa.2 h1
      · exact hd h1
    have hpn : p ≠ (find_next_task (time_inc s)).2 := by
      intro e
      have hnext : (find_next_task (time_inc s)).2 =
          select_from (after_wake (time_inc s)) (cur s).priority 31 0 := rfl
      rcases select_from_spec (after_wake (time_inc s)) (cur s).priority 31 0 with
        ⟨h31, -⟩ | ⟨-, -, h3, -, -⟩
      · rw [hnext, h31] at e
        omega
      · rw [← hnext, ← e, is_runnable_ne_zero] at h3
        exact hRw h3
    have hcond : ¬ (((find_next_task (time_inc s)).2 ≠ s.current_task ∧
        is_waiting (after_wake (time_inc s)) s.current_task = 0) ∧ p = s.current_task) := by
      rintro ⟨⟨-, h0⟩, e⟩
      rw [← e, is_waiting_eq_zero, hWw] at h0
      cases h0
    refine ⟨?_, ?_⟩
    · rw [t3, if_neg hpn, if_neg hcond, w2]
      exact hsa.1
    · rw [is_waiting_ne_zero, t8]
      exact ⟨hWw, hcond, hpn⟩
  · obtain ⟨ht, hr, -, -⟩ := ticking_tick sp h
    have hpn : p ≠ (call_scheduler s sp).1.current_task := by
      intro e
      have hr' : ((call_scheduler s sp).1.tcb_list (call_scheduler s sp).1.current_task).status
          = RUNNING := hr
      rw [← e, hst] at hr'
      exact absurd hr' (by decide)
    rcases ht.others p hp32 hTp hpn with ⟨-, -, o3⟩ | ⟨-, o2, -⟩
    · rw [hst] at o3
      exact absurd o3 (by decide)
    · rw [is_waiting_ne_zero, t8, w4] at o2
      have hd : ¬ (p < 31 ∧ due (account (time_inc s)) p) := o2.1.2
      rw [if_neg hd] at w2
      rw [t2, t5, w1, w2]
      have hWa : is_waiting (account (time_inc s)) p ≠ 0 := (is_waiting_ne_zero _ _).mpr o2.1.1
      by_contra hge
      exact hd ⟨hp, hWa, by rw [account_time]; exact Nat.not_lt.mp hge⟩

/-- C15 (amended). In the started kernel, at every tick and for every
priority `p` in 0..30: if `p` is in the waiting bitset after the accounting
with `time ≥ TCB[p].wakeup`, the tick leaves its waiting bit clear, its
execution 0 and its status RUNNABLE, or RUNNING if it is the elected task; if
`p` is in the waiting bitset with `time < TCB[p].wakeup`, it stays WAITING
with its waiting bit set; and after the tick every initialised TCB in 0..30
that is WAITING has a wakeup strictly greater than the current time. -/
theorem wake_up_release (T : Nat → Bool) (s : Kernel) (sp : Nat → Nat) (h : Ticking T s)
    (p : Nat) (hp : p < 31) :
    (due (account (time_inc s)) p →
      is_waiting (call_scheduler s sp).1 p = 0 ∧
      ((call_scheduler s sp).1.tcb_list p).execution = 0 ∧
      (((call_scheduler s sp).1.tcb_list p).status = RUNNABLE ∨
        (((call_scheduler s sp).1.tcb_list p).status = RUNNING ∧
          (call_scheduler s sp).1.current_task = p))) ∧
    (is_waiting (account (time_inc s)) p ≠ 0 →
      (account (time_inc s)).time < ((account (time_inc s)).tcb_list p).wakeup →
      ((call_scheduler s sp).1.tcb_list p).status = WAITING ∧
      is_waiting (call_scheduler s sp).1 p ≠ 0) ∧
    (T p = true → ((call_scheduler s sp).1.tcb_list p).status = WAITING →
      (call_scheduler s sp).1.time < ((call_scheduler s sp).1.tcb_list p).wakeup) :=
  wake_up_view T s sp h p hp

/-- Witness of `voluntary_sleep`: Test 8 at the tick that follows the first
`wait_until_next_period` of task 1 (time 1, wakeup 0, period 104). -/
theorem voluntary_sleep_witness :
    Ticking test8_tasks (krun (scheduler_start_state test8) [.tick (fun _ => 0), .wait]) ∧
    (cur (krun (scheduler_start_state test8) [.tick (fun _ => 0), .wait])).status = WAITING ∧
    ((call_scheduler (krun (scheduler_start_state test8) [.tick (fun _ => 0), .wait])
        (fun _ => 0)).1.tcb_list 1).wakeup = 104 ∧
    ((call_scheduler (krun (scheduler_start_state test8) [.tick (fun _ => 0), .wait])
        (fun _ => 0)).1.tcb_list 1).status = WAITING ∧
    (call_scheduler (krun (scheduler_start_state test8) [.tick (fun _ => 0), .wait])
        (fun _ => 0)).1.current_task ≠ 1 :=
  have hT := ticking_krun [.tick (fun _ => 0), .wait] _ (ticking_start prestart_test8).1
  have h := voluntary_sleep test8_tasks
    (krun (scheduler_start_state test8) [.tick (fun _ => 0), .wait]) (fun _ => 0) hT (by decide)
  ⟨hT, by decide, h.2.1.trans (by decide), (h.2.2 (by decide) (by decide)).1,
    (h.2.2 (by decide) (by decide)).2.2.2⟩

/-- C15 as stated fails for priority 31: in Test 8, at the tick at which
the idle task has used up its budget of 100000, idle is made WAITING and put
in the waiting bitset while task 1 is elected; at the next tick idle is in the
waiting bitset with `time ≥ wakeup`, and after it idle is still WAITING with
its waiting bit set. -/
theorem idle_not_released :
    due (account (time_inc (call_scheduler test8_idle_spent (fun _ => 0)).1)) 31 ∧
    is_waiting (call_scheduler (call_scheduler test8_idle_spent (fun _ => 0)).1 (fun _ => 0)).1 31
      ≠ 0 ∧
    ((call_scheduler (call_scheduler test8_idle_spent (fun _ => 0)).1 (fun _ => 0)).1.tcb_list
      31).status = WAITING ∧
    (call_scheduler (call_scheduler test8_idle_spent (fun _ => 0)).1 (fun _ => 0)).1.current_task
      = 1 := by
  decide

theorem prestart_quick_task : Prestart one_task quick_task :=
  ⟨by decide, by decide, by decide, by decide, by decide, by decide⟩

/-- Witness of `wake_up_release`: a task of period 2 that calls
`wait_until_next_period` at time 1 is due at the tick of time 2, released
and elected by it. -/
theorem wake_up_release_witness :
    Ticking one_task (krun (scheduler_start_state quick_task) [.tick (fun _ => 0), .wait]) ∧
    (1 : Nat) < 31 ∧
    due (account (time_inc (krun (scheduler_start_state quick_task)
      [.tick (fun _ => 0), .wait]))) 1 ∧
    is_waiting (call_scheduler (krun (scheduler_start_state quick_task)
      [.tick (fun _ => 0), .wait]) (fun _ => 0)).1 1 = 0 ∧
    ((call_scheduler (krun (scheduler_start_state quick_task)
      [.tick (fun _ => 0), .wait]) (fun _ => 0)).1.tcb_list 1).execution = 0 :=
  have hT := ticking_krun [.tick (fun _ => 0), .wait] _ (ticking_start prestart_quick_task).1
  have h := (wake_up_release one_task
    (krun (scheduler_start_state quick_task) [.tick (fun _ => 0), .wait]) (fun _ => 0) hT 1
    (by decide)).1 (by decide)
  ⟨hT, by decide, by decide, h.1, h.2.1⟩

/-! ### Fields a tick never writes -/

theorem account_static (s : Kernel) (j : Nat) :
    ((account s).tcb_list j).computation = (s.tcb_list j).computation ∧
    ((account s).tcb_list j).period = (s.tcb_list j).period := by
  unfold account
  simp only [set_cur, cur, clear_wait_pool, set_run_pool, set_wait_pool, clear_run_pool]
  by_cases hj : j = s.current_task
  · subst hj
    split_ifs <;> simp [upd_same]
  · split_ifs <;> simp [upd_other _ _ hj]

theorem wake_one_static (s : Kernel) (i j : Nat) :
    ((wake_one s i).tcb_list j).computation = (s.tcb_list j).computation ∧
    ((wake_one s i).tcb_list j).period = (s.tcb_list j).period := by
  unfold wake_one
  simp only [clear_wait_pool, set_run_pool]
  by_cases hj : j = i
  · subst hj
    split_ifs <;> simp [upd_same]
  · split_ifs <;> simp [upd_other _ _ hj]

theorem wake_loop_static (s : Kernel) (n j : Nat) :
    ((wake_loop s n).tcb_list j).computation = (s.tcb_list j).computation ∧
    ((wake_loop s n).tcb_list j).period = (s.tcb_list j).period := by
  induction n with
  | zero => exact ⟨rfl, rfl⟩
  | succ n ih =>
    rw [wake_loop]
    exact ⟨(wake_one_static _ n j).1.trans ih.1, (wake_one_static _ n j).2.trans ih.2⟩

/-- A tick writes neither the computation budget nor the period of a TCB. -/
theorem call_scheduler_static (s : Kernel) (sp : Nat → Nat) (j : Nat) :
    ((call_scheduler s sp).1.tcb_list j).computation = (s.tcb_list j).computation ∧
    ((call_scheduler s sp).1.tcb_list j).period = (s.tcb_list j).period := by
  have h1 := wake_loop_static (account (time_inc s)) 31 j
  have h2 := account_static (time_inc s) j
  have h3 : ((call_scheduler s sp).1.tcb_list j).computation
        = ((after_wake (time_inc s)).tcb_list j).computation ∧
      ((call_scheduler s sp).1.tcb_list j).period
        = ((after_wake (time_inc s)).tcb_list j).period := by
    rw [call_scheduler_fst, switch_to_tcb, requeue_tcb, save_frame_tcb]
    split_ifs <;> exact ⟨rfl, rfl⟩
  exact ⟨h3.1.trans (h1.1.trans h2.1), h3.2.trans (h1.2.trans h2.2)⟩

/-- A tick of the started kernel at which the running task, not the idle
one, is RUNNING with budget left and no TCB of higher priority is
initialised: the task is elected again, with its execution count incremented. -/
theorem running_tick {T : Nat → Bool} {s : Kernel} (sp : Nat → Nat) (h : Ticking T s)
    (hc : s.current_task < 31) (hr : (cur s).status = RUNNING)
    (hb : (cur s).execution < (cur s).computation)
    (hnone : ∀ j, j < s.current_task → T j = false) :
    (call_scheduler s sp).1.current_task = s.current_task ∧
    (call_scheduler s sp).1.time = (s.time + 1) % WORD ∧
    ((call_scheduler s sp).1.tcb_list s.current_task).status = RUNNING ∧
    ((call_scheduler s sp).1.tcb_list s.current_task).execution = ((cur s).execution + 1) % WORD ∧
    ((call_scheduler s sp).1.tcb_list s.current_task).wakeup = (cur s).wakeup := by
  obtain ⟨n32, -, hwc, hcw, hnw⟩ := tick_setup h
  obtain ⟨t1, t2, t3, -, t5, t6, -, -⟩ :=
    tail_view (after_wake (time_inc s)) sp (find_next_task (time_inc s)).2 s.current_task
      h.cur_lt hcw hnw
  obtain ⟨w1, w2, w3, -⟩ := after_wake_view (time_inc s) s.current_task h.cur_lt
  obtain ⟨a1, a2, a3⟩ := account_budget (time_inc s) hr hb
  have hc0 : (cur (time_inc s)).priority = s.current_task := h.prio _ h.cur_lt h.cur_task
  have hcs : (time_inc s).current_task = s.current_task := rfl
  rw [hcs] at a1
  rw [hc0] at a2 a3
  rw [hwc] at t3
  rw [← call_scheduler_fst] at t1 t2 t3 t5 t6
  have hRa : (account (time_inc s)).runnable_pool.testBit s.current_task = true := by
    rw [a2, set_bit_testBit]
    simp
    exact Or.inr h.cur_lt
  have hWa : ¬ (account (time_inc s)).waiting_pool.testBit s.current_task = true := by
    rw [a3, clear_bit_testBit]
    simp
  have hd : ¬ (s.current_task < 31 ∧ due (account (time_inc s)) s.current_task) := by
    rintro ⟨-, hd, -⟩
    exact hWa ((is_waiting_ne_zero _ _).mp hd)
  rw [if_neg hd] at w2
  have hRw : is_runnable (after_wake (time_inc s)) s.current_task ≠ 0 := by
    rw [is_runnable_ne_zero, w3]
    exact Or.inl hRa
  -- no index below the running one is runnable
  have hlow : ∀ j, j < s.current_task → is_runnable (after_wake (time_inc s)) j = 0 := by
    intro j hj
    have hj32 : j < 32 := by omega
    have hjc : j ≠ s.current_task := by omega
    obtain ⟨r1, r2, -⟩ := h.rest j hj32 (hnone j hj)
    obtain ⟨-, abits, -⟩ := account_view (time_inc s) (h.prio _ h.cur_lt h.cur_task)
      h.cur_status h.cur_lt
    rw [is_runnable_eq_zero, ← Bool.not_eq_true, (after_wake_view (time_inc s) j hj32).2.2.1]
    rintro (h1 | ⟨-, h1, -⟩)
    · have h2 : s.runnable_pool.testBit j = true := (abits j hj32 hjc).1.mp h1
      rw [(is_runnable_eq_zero s j).mp r1] at h2
      cases h2
    · have h2 : s.waiting_pool.testBit j = true :=
        (abits j hj32 hjc).2.mp ((is_waiting_ne_zero _ _).mp h1)
      rw [(is_waiting_eq_zero s j).mp r2] at h2
      cases h2
  have hn : (find_next_task (time_inc s)).2 = s.current_task := by
    have hnext : (find_next_task (time_inc s)).2 =
        select_from (after_wake (time_inc s)) s.current_task 31 0 := by
      show select_from (after_wake (time_inc s)) (cur s).priority 31 0 = _
      rw [show (cur s).priority = s.current_task from h.prio _ h.cur_lt h.cur_task]
    rw [hnext]
    rcases select_from_spec (after_wake (time_inc s)) s.current_task 31 0 with
      ⟨-, hno⟩ | ⟨-, -, h3, h4, h5⟩
    · exact absurd ⟨hRw, le_refl _⟩ (hno _ (Nat.zero_le _) (by omega))
    · rcases Nat.lt_or_ge (select_from (after_wake (time_inc s)) s.current_task 31 0)
          s.current_task with hlt | hge
      · exact absurd (hlow _ hlt) h3
      · exact le_antisymm h4 hge
  refine ⟨t1.trans hn, ?_, ?_, ?_, ?_⟩
  · rw [t2, w1]
    rfl
  · rw [t3, if_pos hn.symm]
  · rw [t6, w2, a1]
    rfl
  · rw [t5, w2, a1]
    rfl

/-- A tick of the started kernel leaves in every TCB the wakeup time the
accounting left. -/
theorem tick_wakeup {T : Nat → Bool} {s : Kernel} (sp : Nat → Nat) (h : Ticking T s)
    (p : Nat) (hp : p < 32) :
    ((call_scheduler s sp).1.tcb_list p).wakeup = ((account (time_inc s)).tcb_list p).wakeup := by
  obtain ⟨-, -, -, hcw, hnw⟩ := tick_setup h
  obtain ⟨-, -, -, -, t5, -, -, -⟩ :=
    tail_view (after_wake (time_inc s)) sp (find_next_task (time_inc s)).2 p hp hcw hnw
  rw [← call_scheduler_fst] at t5
  rw [t5, (after_wake_view (time_inc s) p hp).2.1]
  split_ifs <;> rfl

theorem prestart_budget_task : Prestart one_task budget_task :=
  ⟨by decide, by decide, by decide, by decide, by decide, by decide⟩

/-- The task of `budget_task` during its first period: elected by the first
tick, it is still the running task after `k ≤ 10` further ticks, with
`execution = k`. -/
theorem budget_run (k : Nat) (hk : k ≤ 10) :
    Ticking one_task (ticks (scheduler_start_state budget_task) (k + 1)) ∧
    (ticks (scheduler_start_state budget_task) (k + 1)).current_task = 1 ∧
    ((ticks (scheduler_start_state budget_task) (k + 1)).tcb_list 1).status = RUNNING ∧
    ((ticks (scheduler_start_state budget_task) (k + 1)).tcb_list 1).execution = k ∧
    ((ticks (scheduler_start_state budget_task) (k + 1)).tcb_list 1).computation = 10 ∧
    ((ticks (scheduler_start_state budget_task) (k + 1)).tcb_list 1).period = 100 ∧
    ((ticks (scheduler_start_state budget_task) (k + 1)).tcb_list 1).wakeup = 0 ∧
    (ticks (scheduler_start_state budget_task) (k + 1)).time = k + 1 := by
  induction k with
  | zero =>
    refine ⟨?_, by decide, by decide, by decide, by decide, by decide, by decide, by decide⟩
    exact (ticking_tick (fun _ => 0) (ticking_start prestart_budget_task).1).1
  | succ k ih =>
    obtain ⟨hT, hcur, hst, hex, hco, hpe, hwa, hti⟩ := ih (by omega)
    have hstep : ticks (scheduler_start_state budget_task) (k + 1 + 1) =
        (call_scheduler (ticks (scheduler_start_state budget_task) (k + 1)) (fun _ => 0)).1 := rfl
    have hcurs : cur (ticks (scheduler_start_state budget_task) (k + 1)) =
        (ticks (scheduler_start_state budget_task) (k + 1)).tcb_list 1 := by
      unfold cur
      rw [hcur]
    obtain ⟨r1, r2, r3, r4, r5⟩ := running_tick (fun _ => 0) hT (by rw [hcur]; decide)
      (by rw [hcurs]; exact hst) (by rw [hcurs, hex, hco]; omega)
      (by
        intro j hj
        rw [hcur] at hj
        have : j = 0 := by omega
        rw [this]
        decide)
    obtain ⟨c1, c2⟩ := call_scheduler_static (ticks (scheduler_start_state budget_task) (k + 1))
      (fun _ => 0) 1
    rw [hcur] at r1 r3 r4 r5
    rw [hcurs] at r4 r5
    rw [hstep]
    refine ⟨(ticking_tick (fun _ => 0) hT).1, r1, r3, ?_, c1.trans hco, c2.trans hpe,
      r5.trans hwa, ?_⟩
    · rw [r4, hex]
      unfold WORD
      omega
    · rw [r2, hti]
      unfold WORD
      omega


theorem cur_eq (s : Kernel) : cur s = s.tcb_list s.current_task := rfl

theorem cur_time_inc (s : Kernel) : cur (time_inc s) = s.tcb_list s.current_task := rfl

theorem time_inc_current (s : Kernel) : (time_inc s).current_task = s.current_task := rfl

theorem time_inc_time (s : Kernel) : (time_inc s).time = (s.time + 1) % WORD := rfl

theorem time_inc_waiting_pool (s : Kernel) : (time_inc s).waiting_pool = s.waiting_pool := rfl

theorem tcb_wakeup_mk (t : TCB) (st e sl w : Nat) :
    ({ t with status := st, execution := e, sleep := sl, wakeup := w } : TCB).wakeup = w := rfl

theorem tcb_status_keep (t : TCB) (e sl : Nat) :
    ({ t with execution := e, sleep := sl } : TCB).status = t.status := rfl

theorem tcb_status_mk (t : TCB) (st e sl w : Nat) :
    ({ t with status := st, execution := e, sleep := sl, wakeup := w } : TCB).status = st := rfl

theorem tcb_execution_mk (t : TCB) (e sl : Nat) :
    ({ t with execution := e, sleep := sl } : TCB).execution = e := rfl

/-- C13 (evaluation of the code). A task with `C = 10`, `T = 100` that the
first tick elects with `execution = 0` and that never sleeps: after each of
its first 10 consecutive ticks in RUNNING it is still the running task, with
`execution` equal to the number of these ticks; the accounting of the 10th
tick raises `execution` from 9 to 10 and leaves it RUNNING; the accounting of
the 11th tick is the one that makes it WAITING, and after that tick it is
WAITING with `wakeup = 100`, in the waiting bitset, and idle is running. -/
theorem budget_demotion_at_eleventh_tick :
    (∀ k, k ≤ 10 →
      (ticks (scheduler_start_state budget_task) (k + 1)).current_task = 1 ∧
      ((ticks (scheduler_start_state budget_task) (k + 1)).tcb_list 1).status = RUNNING ∧
      ((ticks (scheduler_start_state budget_task) (k + 1)).tcb_list 1).execution = k) ∧
    ((account (time_inc (ticks (scheduler_start_state budget_task) 10))).tcb_list 1).status
      = RUNNING ∧
    ((account (time_inc (ticks (scheduler_start_state budget_task) 10))).tcb_list 1).execution
      = 10 ∧
    ((account (time_inc (ticks (scheduler_start_state budget_task) 11))).tcb_list 1).status
      = WAITING ∧
    ((ticks (scheduler_start_state budget_task) 12).tcb_list 1).status = WAITING ∧
    ((ticks (scheduler_start_state budget_task) 12).tcb_list 1).wakeup = 100 ∧
    is_waiting (ticks (scheduler_start_state budget_task) 12) 1 ≠ 0 ∧
    (ticks (scheduler_start_state budget_task) 12).current_task = 31 := by
  have hrun : ∀ k, k ≤ 10 →
      (ticks (scheduler_start_state budget_task) (k + 1)).current_task = 1 ∧
      ((ticks (scheduler_start_state budget_task) (k + 1)).tcb_list 1).status = RUNNING ∧
      ((ticks (scheduler_start_state budget_task) (k + 1)).tcb_list 1).execution = k := by
    intro k hk
    obtain ⟨-, h1, h2, h3, -⟩ := budget_run k hk
    exact ⟨h1, h2, h3⟩
  have h9 := budget_run 9 (by decide)
  have h10 := budget_run 10 (by decide)
  rw [show (9 + 1 : Nat) = 10 from rfl] at h9
  rw [show (10 + 1 : Nat) = 11 from rfl] at h10
  -- the 10th tick
  obtain ⟨-, c9, s9, e9, m9, -, -, -⟩ := h9
  have hcur9 : cur (time_inc (ticks (scheduler_start_state budget_task) 10)) =
      (ticks (scheduler_start_state budget_task) 10).tcb_list 1 := by
    rw [cur_time_inc, c9]
  have a9 := (account_budget (time_inc (ticks (scheduler_start_state budget_task) 10))
    (by rw [hcur9]; exact s9) (by rw [hcur9, e9, m9]; decide)).1
  rw [time_inc_current, c9, hcur9] at a9
  -- the 11th tick
  obtain ⟨hT, c10, s10, e10, m10, p10, w10, t10⟩ := h10
  have hcur10 : cur (time_inc (ticks (scheduler_start_state budget_task) 11)) =
      (ticks (scheduler_start_state budget_task) 11).tcb_list 1 := by
    rw [cur_time_inc, c10]
  obtain ⟨a10, -, a10w⟩ := account_exhausted
    (time_inc (ticks (scheduler_start_state budget_task) 11))
    (by rw [hcur10]; exact s10) (by rw [hcur10, e10, m10])
  have hp10 : ((ticks (scheduler_start_state budget_task) 11).tcb_list 1).priority = 1 :=
    hT.prio 1 (by decide) (by decide)
  rw [time_inc_current, c10, hcur10] at a10
  rw [hcur10, hp10, time_inc_waiting_pool] at a10w
  have hstep : ticks (scheduler_start_state budget_task) 12 =
      (call_scheduler (ticks (scheduler_start_state budget_task) 11) (fun _ => 0)).1 := rfl
  have hwa : ((account (time_inc (ticks (scheduler_start_state budget_task) 11))).tcb_list
      1).wakeup = 100 := by
    rw [a10, tcb_wakeup_mk, w10, p10]
    decide
  have hB := (wake_up_view one_task (ticks (scheduler_start_state budget_task) 11) (fun _ => 0)
    hT 1 (by decide)).2.1
    (by
      rw [is_waiting_ne_zero, a10w, set_bit_testBit]
      simp)
    (by
      rw [hwa, account_time, time_inc_time, t10]
      decide)
  obtain ⟨hT', hr', -, -⟩ := ticking_tick (fun _ => 0) hT
  rw [cur_eq] at hr'
  rw [← hstep] at hB hT' hr'
  have hcur12 : (ticks (scheduler_start_state budget_task) 12).current_task = 31 := by
    have hall : ∀ n, n < THREAD_NUM → one_task n = true → n = 1 ∨ n = 31 := by decide
    rcases hall _ hT'.cur_lt hT'.cur_task with e | e
    · rw [e, hB.1] at hr'
      exact absurd hr' (by decide)
    · exact e
  refine ⟨hrun, ?_, ?_, ?_, hB.1, ?_, hB.2, hcur12⟩
  · rw [a9, tcb_status_keep]
    exact s9
  · rw [a9, tcb_execution_mk, e9]
    decide
  · rw [a10, tcb_status_mk]
  · rw [hstep, tick_wakeup (fun _ => 0) hT 1 (by decide), hwa]

/-! ### The state `main` leaves at `scheduler_start` -/

theorem thread_create_view (base : Nat) (s : Kernel) (fn stack_start prio C T : Nat)
    (hprio : prio < 31) (hnull : ¬ (fn = 0 ∨ stack_start = 0)) :
    ((thread_create base s fn stack_start prio C T).1.tcb_list prio).priority = prio ∧
    ((thread_create base s fn stack_start prio C T).1.tcb_list prio).status = RUNNABLE ∧
    is_runnable (thread_create base s fn stack_start prio C T).1 prio = 1 ∧
    (∀ j, j ≠ prio →
      (thread_create base s fn stack_start prio C T).1.tcb_list j = s.tcb_list j) ∧
    (∀ j, j ≠ prio →
      is_runnable (thread_create base s fn stack_start prio C T).1 j = is_runnable s j) ∧
    (thread_create base s fn stack_start prio C T).1.waiting_pool = s.waiting_pool := by
  unfold thread_create
  rw [if_neg hnull]
  refine ⟨?_, ?_, ?_, fun j hj => upd_other _ _ hj, fun j hj => ?_, rfl⟩
  · simp [set_run_pool, upd_same]
  · simp [set_run_pool, upd_same]
  · unfold is_runnable set_run_pool
    rw [pool_bit, set_bit_testBit]
    simp [show prio < 32 by omega]
  · unfold is_runnable set_run_pool
    rw [pool_bit, pool_bit, set_bit_testBit]
    simp [Ne.symm hj]

theorem setup_inv_exec {T : Nat → Bool} {s : Kernel} (base : Nat) (c : SetupCall)
    (h : SetupInv T s) (hok : c.ok) :
    SetupInv (fun i => c.inits i || T i) (c.exec base s) := by
  cases c with
  | idle fn stack_start =>
    by_cases hnull : fn = 0 ∨ stack_start = 0
    · have hex : SetupCall.exec base s (.idle fn stack_start) = s := by
        show (thread_init base s fn stack_start).1 = s
        unfold thread_init
        rw [if_pos hnull]
      have hT : (fun i => (SetupCall.idle fn stack_start).inits i || T i) = T := by
        funext i
        rcases hnull with e | e <;> simp [SetupCall.inits, e]
      rw [hex, hT]
      exact h
    · have hfn : fn ≠ 0 := fun e => hnull (Or.inl e)
      have hst : stack_start ≠ 0 := fun e => hnull (Or.inr e)
      have hT : ∀ i, ((SetupCall.idle fn stack_start).inits i || T i) = (i == 31 || T i) := by
        intro i
        have a : (fn != 0) = true := by simpa using hfn
        have b : (stack_start != 0) = true := by simpa using hst
        show ((i == 31 && fn != 0 && stack_start != 0) || T i) = _
        rw [a, b, Bool.and_true, Bool.and_true]
      have hother : ∀ i, i ≠ 31 →
          (SetupCall.exec base s (.idle fn stack_start)).tcb_list i = s.tcb_list i := by
        intro i hi
        show (thread_init base s fn stack_start).1.tcb_list i = _
        unfold thread_init
        rw [if_neg hnull]
        exact upd_other _ _ hi
      have h31 : ((SetupCall.exec base s (.idle fn stack_start)).tcb_list 31).priority = 31 := by
        show ((thread_init base s fn stack_start).1.tcb_list 31).priority = 31
        unfold thread_init
        rw [if_neg hnull]
        simp [upd_same]
      have hrun : ∀ i, is_runnable (SetupCall.exec base s (.idle fn stack_start)) i
          = is_runnable s i := by
        intro i
        show is_runnable (thread_init base s fn stack_start).1 i = _
        unfold thread_init
        rw [if_neg hnull]
        rfl
      have hpools : (SetupCall.exec base s (.idle fn stack_start)).runnable_pool = s.runnable_pool ∧
          (SetupCall.exec base s (.idle fn stack_start)).waiting_pool = s.waiting_pool := by
        show (thread_init base s fn stack_start).1.runnable_pool = _ ∧
          (thread_init base s fn stack_start).1.waiting_pool = _
        unfold thread_init
        rw [if_neg hnull]
        exact ⟨rfl, rfl⟩
      refine ⟨?_, hpools.1 ▸ h.run_word, hpools.2.trans h.no_wait, ?_, ?_⟩
      · intro i hi hTi
        rw [hT] at hTi
        by_cases e : i = 31
        · rw [e]; exact h31
        · rw [hother i e]
          exact h.prio i hi (by simpa [e] using hTi)
      · intro i hi hTi
        rw [hT] at hTi
        have e : i ≠ 31 := by
          intro e
          simp [e] at hTi
        rw [hrun, hother i e]
        exact h.rest i hi (by simpa [e] using hTi)
      · intro i hi hTi e
        rw [hT] at hTi
        rw [hrun, hother i e]
        exact h.tasks i hi (by simpa [e] using hTi) e
  | create fn stack_start prio C T' =>
    have hprio : prio < 31 := hok
    by_cases hnull : fn = 0 ∨ stack_start = 0
    · have hex : SetupCall.exec base s (.create fn stack_start prio C T') = s := by
        show (thread_create base s fn stack_start prio C T').1 = s
        unfold thread_create
        rw [if_pos hnull]
      have hT : (fun i => (SetupCall.create fn stack_start prio C T').inits i || T i) = T := by
        funext i
        rcases hnull with e | e <;> simp [SetupCall.inits, e]
      rw [hex, hT]
      exact h
    · have hfn : fn ≠ 0 := fun e => hnull (Or.inl e)
      have hst : stack_start ≠ 0 := fun e => hnull (Or.inr e)
      have hT : ∀ i, ((SetupCall.create fn stack_start prio C T').inits i || T i)
          = (i == prio || T i) := by
        intro i
        have a : (fn != 0) = true := by simpa using hfn
        have b : (stack_start != 0) = true := by simpa using hst
        show ((i == prio && fn != 0 && stack_start != 0) || T i) = _
        rw [a, b, Bool.and_true, Bool.and_true]
      obtain ⟨hp, hs, hr, hother, hrun, hwait⟩ :=
        thread_create_view base s fn stack_start prio C T' hprio hnull
      have hword : (SetupCall.exec base s (.create fn stack_start prio C T')).runnable_pool
          < WORD := by
        show (thread_create base s fn stack_start prio C T').1.runnable_pool < WORD
        unfold thread_create
        rw [if_neg hnull]
        exact Nat.or_lt_two_pow h.run_word (bit_lt prio)
      refine ⟨?_, hword, hwait.trans h.no_wait, ?_, ?_⟩
      · intro i hi hTi
        rw [hT] at hTi
        by_cases e : i = prio
        · rw [e]; exact hp
        · show ((thread_create base s fn stack_start prio C T').1.tcb_list i).priority = i
          rw [hother i e]
          exact h.prio i hi (by simpa [e] using hTi)
      · intro i hi hTi
        rw [hT] at hTi
        have e : i ≠ prio := by
          intro e
          simp [e] at hTi
        show is_runnable (thread_create base s fn stack_start prio C T').1 i = 0 ∧
          ((thread_create base s fn stack_start prio C T').1.tcb_list i).status ≠ RUNNING
        rw [hrun i e, hother i e]
        exact h.rest i hi (by simpa [e] using hTi)
      · intro i hi hTi e31
        rw [hT] at hTi
        show is_runnable (thread_create base s fn stack_start prio C T').1 i ≠ 0 ∧
          ((thread_create base s fn stack_start prio C T').1.tcb_list i).status = RUNNABLE
        by_cases e : i = prio
        · rw [e, hr, hs]
          exact ⟨by decide, rfl⟩
        · rw [hrun i e, hother i e]
          exact h.tasks i hi (by simpa [e] using hTi) e31
  | mutex m c =>
    have hT : (fun i => (SetupCall.mutex m c).inits i || T i) = T := by
      funext i
      simp [SetupCall.inits]
    rw [hT]
    show SetupInv T (mutex_init s m c).1
    unfold mutex_init
    split_ifs
    · exact h
    · exact ⟨h.prio, h.run_word, h.no_wait, h.rest, h.tasks⟩

theorem setup_inv_run (base : Nat) (cs : List SetupCall) :
    ∀ (T : Nat → Bool) (s : Kernel), SetupInv T s → (∀ c ∈ cs, c.ok) →
      SetupInv (fun i => setup_tasks cs i || T i) (setup base s cs) := by
  induction cs with
  | nil =>
    intro T s h _
    have hT : (fun i => setup_tasks [] i || T i) = T := by
      funext i
      simp [setup_tasks]
    rw [hT]
    exact h
  | cons c cs ih =>
    intro T s h hok
    have h1 := setup_inv_exec base c h (hok c (List.mem_cons_self _ _))
    have h2 := ih _ _ h1 (fun x hx => hok x (List.mem_cons_of_mem _ hx))
    have hT : (fun i => setup_tasks (c :: cs) i || T i) =
        (fun i => setup_tasks cs i || (c.inits i || T i)) := by
      funext i
      simp only [setup_tasks, List.any_cons]
      cases c.inits i <;> cases cs.any (SetupCall.inits i) <;> cases T i <;> rfl
    rw [hT]
    exact h2

/-- Every sequence of `thread_init`, `thread_create` (priority in 0..30) and
`mutex_init` calls from the boot state, one `thread_init` of which succeeds,
leaves a state of the form `Prestart`. -/
theorem prestart_of_setup (base : Nat) (cs : List SetupCall) (hok : ∀ c ∈ cs, c.ok)
    (hidle : setup_tasks cs 31 = true) : Prestart (setup_tasks cs) (setup base boot cs) := by
  have h0 : SetupInv (fun _ => false) boot := by
    refine ⟨?_, ?_, rfl, ?_, ?_⟩
    · intro i _ hTi
      cases hTi
    · decide
    · intro i hi _
      have hb : ∀ j, j < THREAD_NUM →
          is_runnable boot j = 0 ∧ (boot.tcb_list j).status ≠ RUNNING := by decide
      exact hb i hi
    · intro i _ hTi
      cases hTi
  have h := setup_inv_run base cs _ _ h0 hok
  have hT : (fun i => setup_tasks cs i || false) = setup_tasks cs := by
    funext i
    simp
  rw [hT] at h
  have hw : ∀ i, is_waiting (setup base boot cs) i = 0 := by
    intro i
    unfold is_waiting
    rw [h.no_wait]
    simp
  refine ⟨hidle, h.prio, h.run_word, ?_, ?_, ?_⟩
  · rw [h.no_wait]
    decide
  · intro i hi hTi
    exact ⟨(h.rest i hi hTi).1, hw i, (h.rest i hi hTi).2⟩
  · intro i hi hTi e
    exact Or.inl ⟨(h.tasks i hi hTi e).1, hw i, (h.tasks i hi hTi e).2⟩

/-! ### C29: `oled_buf_clr` -/

theorem oled_clr_loop_apply (buf : Nat → Nat) (n i : Nat) :
    oled_clr_loop buf n i = if i < n then 0 else buf i := by
  induction n with
  | zero => simp [oled_clr_loop]
  | succ n ih =>
    unfold oled_clr_loop
    rw [upd_apply, ih]
    by_cases h : i = n
    · simp [h]
    · by_cases h2 : i < n
      · simp [h, h2, Nat.lt_succ_of_lt h2]
      · have h3 : ¬ i < n + 1 := by omega
        simp [h, h2, h3]

/-- C29 (evaluation of the code). `oled_buf_clr` zeroes the first
`OLED_COLS = 128` bytes of the frame buffer and leaves the bytes
128 .. 511 as they were: after `oled_buf_pixel_set(0, 0)` on the blank
buffer, which sets bit 7 of byte 511, `oled_buf_clr` leaves byte 511 at
`0x80`. -/
theorem oled_buf_clr_first_page_only :
    OLED_BUF_SIZE = 512 ∧
    (∀ buf i, oled_buf_clr buf i = if i < 128 then 0 else buf i) ∧
    (∃ buf, oled_buf_pixel_set blank_buffer 0 0 = some buf ∧ buf 511 = 0x80 ∧
      oled_buf_clr buf 511 = 0x80) := by
  refine ⟨by decide, fun buf i => ?_, ?_⟩
  · unfold oled_buf_clr
    rw [oled_clr_loop_apply]
    rfl
  · refine ⟨_, rfl, by decide, ?_⟩
    unfold oled_buf_clr
    rw [oled_clr_loop_apply]
    decide

/-! ### C26: `syscall_write` -/

theorem write_loop_tx (mem : Nat → Nat) (u : Uart) (ptr n : Nat) :
    (write_loop mem u ptr n).tx = u.tx ++ (List.range n).map (fun c => mem (ptr + c) % 256) ∧
    (write_loop mem u ptr n).rx = u.rx := by
  induction n with
  | zero => simp [write_loop]
  | succ n ih =>
    unfold write_loop uart_put_byte
    simp [ih.1, ih.2, List.range_succ]

/-- C26 (evaluation of the code). `syscall_write` returns -1 and emits nothing
when `file` is not 1; otherwise it emits the bytes `ptr[0 .. len)` in order
and returns 0, whatever `len` is: for the three bytes of `"abc"` it emits
them and returns 0, not 3. -/
theorem syscall_write_returns_zero :
    (∀ mem u file ptr len, file ≠ 1 → syscall_write mem u file ptr len = (u, -1)) ∧
    (∀ mem u ptr len,
      (syscall_write mem u 1 ptr len).2 = 0 ∧
      (syscall_write mem u 1 ptr len).1.tx =
        u.tx ++ (List.range len.toNat).map (fun c => mem (ptr + c) % 256)) ∧
    (syscall_write abc_mem { rx := [], tx := [] } 1 0x9000 3).2 = 0 ∧
    (syscall_write abc_mem { rx := [], tx := [] } 1 0x9000 3).1.tx = [97, 98, 99] := by
  refine ⟨fun mem u file ptr len h => ?_, fun mem u ptr len => ?_, by decide, by decide⟩
  · unfold syscall_write
    rw [if_pos h]
  · unfold syscall_write
    simp [(write_loop_tx mem u ptr len.toNat).1]

/-! ### C28: `syscall_sbrk` -/

theorem heap_end_of_idem (low h : Nat) : heap_end_of low (heap_end_of low h) = heap_end_of low h := by
  unfold heap_end_of
  by_cases h0 : h = 0
  · by_cases hl : low = 0
    · simp [h0, hl]
    · simp [h0, hl]
  · simp [h0]

theorem syscall_sbrk_view (low top h : Nat) (incr : Int)
    (hnew : 0 < (heap_end_of low h : Int) + incr)
    (hword : (heap_end_of low h : Int) + incr < (WORD : Int)) :
    ((heap_end_of low h : Int) + incr ≤ (top : Int) →
      (syscall_sbrk low top h incr).2 = (heap_end_of low h : Int) ∧
      (heap_end_of low (syscall_sbrk low top h incr).1 : Int) = (heap_end_of low h : Int) + incr) ∧
    ((top : Int) < (heap_end_of low h : Int) + incr →
      (syscall_sbrk low top h incr).2 = -1 ∧
      heap_end_of low (syscall_sbrk low top h incr).1 = heap_end_of low h) := by
  have hmod : ((heap_end_of low h : Int) + incr) % (WORD : Int) = (heap_end_of low h : Int) + incr :=
    Int.emod_eq_of_lt (le_of_lt hnew) hword
  have hnat : ((((heap_end_of low h : Int) + incr).toNat : Nat) : Int) = (heap_end_of low h : Int) + incr :=
    Int.toNat_of_nonneg (le_of_lt hnew)
  have hfold : syscall_sbrk low top h incr =
      if (((heap_end_of low h : Int) + incr) % (WORD : Int)).toNat > top then (heap_end_of low h, -1)
      else ((((heap_end_of low h : Int) + incr) % (WORD : Int)).toNat, (heap_end_of low h : Int)) := rfl
  rw [hfold, hmod]
  constructor
  · intro hle
    have hc : ¬ ((heap_end_of low h : Int) + incr).toNat > top := by
      intro hgt
      have : (top : Int) < ((((heap_end_of low h : Int) + incr).toNat : Nat) : Int) := by exact_mod_cast hgt
      omega
    rw [if_neg hc]
    refine ⟨rfl, ?_⟩
    have hne : ((heap_end_of low h : Int) + incr).toNat ≠ 0 := by
      intro h0
      rw [h0] at hnat
      omega
    show ((heap_end_of low ((heap_end_of low h : Int) + incr).toNat : Nat) : Int) = _
    unfold heap_end_of at hne ⊢
    rw [if_neg hne]
    exact hnat
  · intro hgt
    have hc : ((heap_end_of low h : Int) + incr).toNat > top := by
      have : (top : Int) < ((((heap_end_of low h : Int) + incr).toNat : Nat) : Int) := by omega
      exact_mod_cast this
    rw [if_pos hc]
    exact ⟨rfl, heap_end_of_idem low h⟩

/-- C28. `syscall_sbrk(incr)`, for a new end of the heap that is an address
(above 0, below `2 ^ 32`): when the new end does not exceed `__heap_top`, the
call returns the previous end of the heap and the end of the heap advances by
exactly `incr`, and a following successful call returns the first result plus
the first `incr`; when the new end exceeds `__heap_top`, the call returns -1
and the end of the heap is unchanged. -/
theorem syscall_sbrk_spec (low top h : Nat) (incr : Int)
    (hnew : 0 < (heap_end_of low h : Int) + incr)
    (hword : (heap_end_of low h : Int) + incr < (WORD : Int)) :
    ((heap_end_of low h : Int) + incr ≤ (top : Int) →
      (syscall_sbrk low top h incr).2 = (heap_end_of low h : Int) ∧
      (heap_end_of low (syscall_sbrk low top h incr).1 : Int) = (heap_end_of low h : Int) + incr ∧
      ∀ incr2 : Int, (syscall_sbrk low top (syscall_sbrk low top h incr).1 incr2).2 ≠ -1 →
        (syscall_sbrk low top (syscall_sbrk low top h incr).1 incr2).2 =
          (syscall_sbrk low top h incr).2 + incr) ∧
    ((top : Int) < (heap_end_of low h : Int) + incr →
      (syscall_sbrk low top h incr).2 = -1 ∧
      heap_end_of low (syscall_sbrk low top h incr).1 = heap_end_of low h) := by
  have hv := syscall_sbrk_view low top h incr hnew hword
  refine ⟨fun hle => ⟨(hv.1 hle).1, (hv.1 hle).2, fun incr2 hok => ?_⟩, hv.2⟩
  rw [(hv.1 hle).1, ← (hv.1 hle).2]
  have hfold : syscall_sbrk low top (syscall_sbrk low top h incr).1 incr2 =
      if (((heap_end_of low (syscall_sbrk low top h incr).1 : Int) + incr2) % (WORD : Int)).toNat > top
      then (heap_end_of low (syscall_sbrk low top h incr).1, -1)
      else ((((heap_end_of low (syscall_sbrk low top h incr).1 : Int) + incr2) % (WORD : Int)).toNat,
        (heap_end_of low (syscall_sbrk low top h incr).1 : Int)) := rfl
  rw [hfold] at hok ⊢
  split_ifs at hok ⊢ with hc
  · exact absurd rfl hok
  · rfl

/-- Witness of `syscall_sbrk_spec`: the first call, `syscall_sbrk(0x1000)`,
with the heap between `0x100000` and `0x200000`. -/
theorem syscall_sbrk_spec_witness :
    (syscall_sbrk 0x100000 0x200000 0 0x1000).2 = 0x100000 ∧
    (heap_end_of 0x100000 (syscall_sbrk 0x100000 0x200000 0 0x1000).1 : Int) = 0x101000 :=
  have h := (syscall_sbrk_spec 0x100000 0x200000 0 0x1000 (by decide) (by decide)).1 (by decide)
  ⟨h.1, h.2.1⟩

/-! ### C27: `syscall_read` -/

theorem stored_succ (mem : Nat → Nat) (ptr n v : Nat) :
    stored (upd mem (ptr + n) v) ptr (n + 1) = stored mem ptr n ++ [v] := by
  unfold stored
  rw [List.range_succ, List.map_append]
  congr 1
  · apply List.map_congr_left
    intro i hi
    have : i < n := List.mem_range.mp hi
    rw [upd_other]
    omega
  · simp [upd_same]

theorem stored_pred (mem : Nat → Nat) (ptr n : Nat) :
    stored mem ptr (n - 1) = (stored mem ptr n).dropLast := by
  cases n with
  | zero => simp [stored]
  | succ n =>
    unfold stored
    rw [List.range_succ, List.map_append]
    simp

theorem stored_length (mem : Nat → Nat) (ptr n : Nat) : (stored mem ptr n).length = n := by
  simp [stored]

theorem read_loop_view (newline : List Nat) (ptr : Nat) (len : Int) :
    ∀ (rx tx : List Nat) (mem : Nat → Nat) (ct : Nat) (u : Uart) (mem2 : Nat → Nat) (n : Int),
      read_loop newline ptr len rx tx mem ct = some (u, mem2, n) →
      0 ≤ n ∧ n ≤ max len (ct : Int) ∧
      (∀ a, ¬ (ptr ≤ a ∧ (a : Int) < (ptr : Int) + len) → mem2 a = mem a) ∧
      spec_line len.toNat rx (stored mem ptr ct) = some (stored mem2 ptr n.toNat) := by
  intro rx
  induction rx with
  | nil =>
    intro tx mem ct u mem2 n h
    unfold read_loop at h
    split_ifs at h with hlt
    simp only [Option.some.injEq, Prod.mk.injEq] at h
    obtain ⟨-, hm, hn⟩ := h
    subst hm hn
    have hl : ¬ (stored mem ptr ct).length < len.toNat := by
      rw [stored_length]; omega
    refine ⟨by omega, by omega, fun _ _ => rfl, ?_⟩
    unfold spec_line
    rw [if_neg hl]
    simp
  | cons b rest ih =>
    intro tx mem ct u mem2 n h
    unfold read_loop at h
    by_cases hlt : (ct : Int) < len
    · have hl : (stored mem ptr ct).length < len.toNat := by
        rw [stored_length]; omega
      rw [if_pos hlt] at h
      unfold spec_line
      rw [if_pos hl]
      by_cases h4 : b % 256 = 4
      · rw [if_pos h4] at h
        simp only [Option.some.injEq, Prod.mk.injEq] at h
        obtain ⟨-, hm, hn⟩ := h
        subst hm hn
        rw [if_pos h4]
        exact ⟨by omega, by omega, fun _ _ => rfl, by simp⟩
      · rw [if_neg h4] at h
        rw [if_neg h4]
        by_cases h8 : b % 256 = 8 ∨ b % 256 = 127
        · rw [if_pos h8] at h
          rw [if_pos h8]
          by_cases hpos : ct > 0
          · rw [if_pos hpos] at h
            obtain ⟨r1, r2, r3, r4⟩ := ih _ _ _ _ _ _ h
            refine ⟨r1, ?_, r3, ?_⟩
            · have : ((ct - 1 : Nat) : Int) ≤ (ct : Int) := by omega
              omega
            · rw [← stored_pred]; exact r4
          · rw [if_neg hpos] at h
            obtain ⟨r1, r2, r3, r4⟩ := ih _ _ _ _ _ _ h
            refine ⟨r1, r2, r3, ?_⟩
            have h0 : ct = 0 := by omega
            subst h0
            exact r4
        · rw [if_neg h8] at h
          rw [if_neg h8]
          have hframe : ∀ v a, ¬ (ptr ≤ a ∧ (a : Int) < (ptr : Int) + len) →
              upd mem (ptr + ct) v a = mem a := by
            intro v a ha
            apply upd_other
            intro e
            apply ha
            subst e
            constructor
            · omega
            · push_cast; omega
          by_cases h13 : b % 256 = 13
          · rw [if_pos h13] at h
            rw [if_pos h13]
            cases rest with
            | nil => simp at h
            | cons c rest2 =>
              simp only [Option.some.injEq, Prod.mk.injEq] at h
              obtain ⟨-, hm, hn⟩ := h
              subst hm hn
              refine ⟨by omega, by omega, hframe 10, ?_⟩
              simp [stored_succ]
          · rw [if_neg h13] at h
            rw [if_neg h13]
            by_cases h10 : b % 256 = 10
            · rw [if_pos h10] at h
              simp only [Option.some.injEq, Prod.mk.injEq] at h
              obtain ⟨-, hm, hn⟩ := h
              subst hm hn
              rw [if_pos h10]
              refine ⟨by omega, by omega, hframe 10, ?_⟩
              simp [stored_succ]
            · rw [if_neg h10] at h
              rw [if_neg h10]
              obtain ⟨r1, r2, r3, r4⟩ := ih _ _ _ _ _ _ h
              refine ⟨r1, ?_, fun a ha => ?_, ?_⟩
              · push_cast at r2; omega
              · rw [r3 a ha, hframe _ a ha]
              · rw [← stored_succ]; exact r4
    · rw [if_neg hlt] at h
      simp only [Option.some.injEq, Prod.mk.injEq] at h
      obtain ⟨-, hm, hn⟩ := h
      subst hm hn
      have hl : ¬ (stored mem ptr ct).length < len.toNat := by
        rw [stored_length]; omega
      refine ⟨by omega, by omega, fun _ _ => rfl, ?_⟩
      unfold spec_line
      rw [if_neg hl]
      simp

theorem read_loop_returns (newline : List Nat) (ptr : Nat) (len : Int) :
    ∀ (rx tx : List Nat) (mem : Nat → Nat) (ct : Nat),
      (∃ b, b ∈ rx ∧ (b % 256 = 4 ∨ b % 256 = 10)) →
      ∃ r, read_loop newline ptr len rx tx mem ct = some r := by
  intro rx
  induction rx with
  | nil =>
    intro tx mem ct h
    obtain ⟨b, hb, -⟩ := h
    cases hb
  | cons b rest ih =>
    intro tx mem ct h
    unfold read_loop
    by_cases hlt : (ct : Int) < len
    · rw [if_pos hlt]
      by_cases h4 : b % 256 = 4
      · rw [if_pos h4]; exact ⟨_, rfl⟩
      · rw [if_neg h4]
        by_cases h10 : b % 256 = 10
        · have h8 : ¬ (b % 256 = 8 ∨ b % 256 = 127) := by omega
          have h13 : ¬ b % 256 = 13 := by omega
          rw [if_neg h8, if_neg h13, if_pos h10]; exact ⟨_, rfl⟩
        · have hrest : ∃ c, c ∈ rest ∧ (c % 256 = 4 ∨ c % 256 = 10) := by
            obtain ⟨c, hc, hc2⟩ := h
            rcases List.mem_cons.mp hc with e | e
            · subst e
              rcases hc2 with e | e
              · exact absurd e h4
              · exact absurd e h10
            · exact ⟨c, e, hc2⟩
          by_cases h8 : b % 256 = 8 ∨ b % 256 = 127
          · rw [if_pos h8]
            by_cases hpos : ct > 0
            · rw [if_pos hpos]; exact ih _ _ _ hrest
            · rw [if_neg hpos]; exact ih _ _ _ hrest
          · rw [if_neg h8]
            by_cases h13 : b % 256 = 13
            · rw [if_pos h13]
              cases rest with
              | nil =>
                obtain ⟨c, hc, -⟩ := hrest
                cases hc
              | cons c rest2 => exact ⟨_, rfl⟩
            · rw [if_neg h13, if_neg h10]; exact ih _ _ _ hrest
    · rw [if_neg hlt]; exact ⟨_, rfl⟩

/-- C27. `syscall_read(file, ptr, len)` returns -1, with the UART and the
memory untouched, when `file` is not 0. For `file = 0` and every input:
whenever the call returns, the value returned `n` satisfies
`0 ≤ n ≤ max len 0`, the memory outside `ptr[0 .. len)` is unchanged, and the
bytes `ptr[0 .. n)` are the line of the specification (backspace and delete
remove the last stored byte and are ignored on an empty buffer, 4 stops
without being stored, 10 and 13 store one byte 10 and stop); and the call
does return when `len ≤ 0` or when the input holds an end-of-transmission or
a line feed. -/
theorem syscall_read_spec (newline : List Nat) (mem : Nat → Nat) (u : Uart) (ptr : Nat)
    (len : Int) :
    (∀ file : Int, file ≠ 0 → syscall_read newline mem u file ptr len = some (u, mem, -1)) ∧
    (∀ v mem2 n, syscall_read newline mem u 0 ptr len = some (v, mem2, n) →
      0 ≤ n ∧ n ≤ max len 0 ∧
      (∀ a, ¬ (ptr ≤ a ∧ (a : Int) < (ptr : Int) + len) → mem2 a = mem a) ∧
      spec_line len.toNat u.rx [] = some (stored mem2 ptr n.toNat)) ∧
    ((len ≤ 0 ∨ ∃ b, b ∈ u.rx ∧ (b % 256 = 4 ∨ b % 256 = 10)) →
      ∃ r, syscall_read newline mem u 0 ptr len = some r) := by
  refine ⟨fun file hf => ?_, fun v mem2 n h => ?_, fun h => ?_⟩
  · unfold syscall_read
    rw [if_pos hf]
  · have h2 : read_loop newline ptr len u.rx u.tx mem 0 = some (v, mem2, n) := h
    exact read_loop_view newline ptr len _ _ _ _ _ _ _ h2
  · show ∃ r, read_loop newline ptr len u.rx u.tx mem 0 = some r
    rcases h with h | h
    · cases hrx : u.rx with
      | nil =>
        unfold read_loop
        rw [if_neg (by push_cast; omega)]
        exact ⟨_, rfl⟩
      | cons b rest =>
        unfold read_loop
        rw [if_neg (by push_cast; omega)]
        exact ⟨_, rfl⟩
    · exact read_loop_returns newline ptr len _ _ _ _ h

/-! ### C25: trap dispatch -/

/-- C25 (evaluation of the code). For a syscall number that is none of the
twenty case labels, `swi_c_handler` returns -1 and leaves the machine as it
was. The labels `SWI_ADC_START` and `SWI_ADC_STOP`, which are not reserved
numbers of the trap ABI, have no statement of their own and fall through to
the case `SWI_THR_INIT`: for such a number the handler calls `thread_init`
on the first two arguments; with two non-null arguments it returns 0 and
initialises TCB 31. -/
theorem adc_numbers_fall_through (b : Board) (n : swi_num_h) (m : Machine) (args : Nat → Int)
    (more : Int) :
    (∀ swi_num, swi_num ∉ reserved n → swi_num ≠ n.SWI_ADC_START → swi_num ≠ n.SWI_ADC_STOP →
      swi_c_handler b n m swi_num args more = (m, some (-1))) ∧
    (n.SWI_ADC_START ∉ reserved n →
      swi_c_handler b n m n.SWI_ADC_START args more =
        ({ m with k := (thread_init b.tcb_base m.k (word (args 0)) (word (args 1))).1 },
         some (thread_init b.tcb_base m.k (word (args 0)) (word (args 1))).2)) ∧
    (n.SWI_ADC_STOP ∉ reserved n →
      swi_c_handler b n m n.SWI_ADC_STOP args more =
        ({ m with k := (thread_init b.tcb_base m.k (word (args 0)) (word (args 1))).1 },
         some (thread_init b.tcb_base m.k (word (args 0)) (word (args 1))).2)) := by
  refine ⟨fun swi_num h h1 h2 => ?_, fun h => ?_, fun h => ?_⟩
  · simp only [reserved, List.mem_cons, List.mem_singleton, not_or, List.mem_nil_iff,
      not_false_eq_true, and_true] at h
    obtain ⟨a1, a2, a3, a4, a5, a6, a7, a8, a9, a10, a11, a12, a13, a14, a15, a16, a17, a18⟩ := h
    unfold swi_c_handler
    simp [a1, a2, a3, a4, a5, a6, a7, a8, a9, a10, a11, a12, a13, a14, a15, a16, a17, a18, h1, h2]
  · simp only [reserved, List.mem_cons, List.mem_singleton, not_or, List.mem_nil_iff,
      not_false_eq_true, and_true] at h
    obtain ⟨a1, a2, a3, a4, a5, a6, a7, a8, a9, a10, a11, a12, a13, a14, a15, a16, a17, a18⟩ := h
    unfold swi_c_handler
    simp [a1, a2, a3, a4, a5, a6, a7, a8]
  · simp only [reserved, List.mem_cons, List.mem_singleton, not_or, List.mem_nil_iff,
      not_false_eq_true, and_true] at h
    obtain ⟨a1, a2, a3, a4, a5, a6, a7, a8, a9, a10, a11, a12, a13, a14, a15, a16, a17, a18⟩ := h
    unfold swi_c_handler
    simp [a1, a2, a3, a4, a5, a6, a7, a8]

/-- Witness of `adc_numbers_fall_through`: the number `SWI_ADC_START` of the
numbering `numbering` is not reserved, and `swi_c_handler` answers it, on the
machine after boot, with the result 0 of `thread_init`, after writing TCB 31,
which goes from the all-zero TCB to the idle task: priority 31, RUNNABLE. -/
theorem adc_numbers_fall_through_witness :
    numbering.SWI_ADC_START ∉ reserved numbering ∧
    swi_c_handler board numbering boot_machine numbering.SWI_ADC_START two_pointers 0 =
      ({ boot_machine with
          k := (thread_init board.tcb_base boot_machine.k (word (two_pointers 0))
            (word (two_pointers 1))).1 },
       some (thread_init board.tcb_base boot_machine.k (word (two_pointers 0))
         (word (two_pointers 1))).2) ∧
    (swi_c_handler board numbering boot_machine numbering.SWI_ADC_START two_pointers 0).2
      = some 0 ∧
    ((swi_c_handler board numbering boot_machine numbering.SWI_ADC_START two_pointers 0).1.k.tcb_list
      31).priority = 31 ∧
    ((swi_c_handler board numbering boot_machine numbering.SWI_ADC_START two_pointers 0).1.k.tcb_list
      31).status = RUNNABLE ∧
    (boot_machine.k.tcb_list 31).priority = 0 :=
  ⟨by decide,
    (adc_numbers_fall_through board numbering boot_machine two_pointers 0).2.1 (by decide),
    by decide, by decide, by decide, rfl⟩

/-! ### C21: `scheduler_start` on a rejected task set -/

theorem scheduler_start_eq (exceeds : Kernel → Bool) (s : Kernel) :
    scheduler_start exceeds s =
      if exceeds (set_cur { s with current_task := 31 }
          { cur { s with current_task := 31 } with execution := 0, status := RUNNING }) = true
      then (set_cur { s with current_task := 31 }
          { cur { s with current_task := 31 } with execution := 0, status := RUNNING }, some (-1))
      else (scheduler_start_state s, none) := rfl

theorem scheduler_start_accept (exceeds : Kernel → Bool) (s : Kernel)
    (h : (scheduler_start exceeds s).2 = none) :
    (scheduler_start exceeds s).1 = scheduler_start_state s := by
  rw [scheduler_start_eq] at h ⊢
  split_ifs at h ⊢
  rfl

/-- C21 (evaluation of the code). `scheduler_start` writes `current_task` and
the idle TCB before it tests the task set: on the task set of three tasks
with C/T = 50/100 it returns -1, and the state it leaves is not the state
before the call: the idle TCB was RUNNABLE and is now RUNNING, and
`current_task` points to it. -/
theorem rejection_marks_idle_running :
    (scheduler_start (fun _ => true) overloaded).2 = some (-1) ∧
    (overloaded.tcb_list 31).status = RUNNABLE ∧
    ((scheduler_start (fun _ => true) overloaded).1.tcb_list 31).status = RUNNING ∧
    (scheduler_start (fun _ => true) overloaded).1.current_task = 31 ∧
    (scheduler_start (fun _ => true) overloaded).1 ≠ overloaded := by
  refine ⟨rfl, by decide, by decide, rfl, fun h => ?_⟩
  have h2 : ((scheduler_start (fun _ => true) overloaded).1.tcb_list 31).status
      = (overloaded.tcb_list 31).status := by rw [h]
  revert h2
  decide

/-- What a rejected `scheduler_start` leaves: `time`, the two bitsets, the
mutex bookkeeping and every TCB other than the idle one are as before the
call; the call has made `current_task` point to the idle TCB, and has written
`execution = 0` and `status = RUNNING` into it, leaving its other fields. -/
theorem scheduler_start_rejection (exceeds : Kernel → Bool) (s : Kernel)
    (h : (scheduler_start exceeds s).2 = some (-1)) :
    (scheduler_start exceeds s).1.time = s.time ∧
    (scheduler_start exceeds s).1.runnable_pool = s.runnable_pool ∧
    (scheduler_start exceeds s).1.waiting_pool = s.waiting_pool ∧
    (scheduler_start exceeds s).1.mutex_ceiling = s.mutex_ceiling ∧
    (scheduler_start exceeds s).1.mutex_index = s.mutex_index ∧
    (scheduler_start exceeds s).1.mutex_list = s.mutex_list ∧
    (scheduler_start exceeds s).1.heap = s.heap ∧
    (∀ i, i ≠ 31 → (scheduler_start exceeds s).1.tcb_list i = s.tcb_list i) ∧
    (scheduler_start exceeds s).1.tcb_list 31 =
      { (s.tcb_list 31) with execution := 0, status := RUNNING } ∧
    (scheduler_start exceeds s).1.current_task = 31 := by
  rw [scheduler_start_eq] at h ⊢
  split_ifs at h ⊢
  refine ⟨rfl, rfl, rfl, rfl, rfl, rfl, rfl, fun i hi => upd_other _ _ hi, ?_, rfl⟩
  simp [set_cur, cur, upd_same]

/-- The statement `scheduler_start_rejection` on the rejected task set of
three tasks with C/T = 50/100. -/
theorem scheduler_start_rejection_witness :
    (scheduler_start (fun _ => true) overloaded).1.runnable_pool = overloaded.runnable_pool ∧
    (scheduler_start (fun _ => true) overloaded).1.time = overloaded.time :=
  have h := scheduler_start_rejection (fun _ => true) overloaded rfl
  ⟨h.2.1, h.1⟩

/-! ### C22: the tick clock -/

theorem call_scheduler_time (s : Kernel) (sp : Nat → Nat) :
    (call_scheduler s sp).1.time = (s.time + 1) % WORD := by
  rw [call_scheduler_fst, (switch_to_pools _ _).2.2, (requeue_pools _ _).2.2]
  show (after_wake (time_inc s)).time = _
  rw [(after_wake_view (time_inc s) 0 (by decide)).1]
  rfl

theorem step_time (s : Kernel) (e : KStep) (h : ∀ sp, e ≠ KStep.tick sp) :
    (e.exec s).time = s.time := by
  cases e with
  | tick sp => exact absurd rfl (h sp)
  | wait => rfl
  | spin => rfl
  | init m c =>
    show (mutex_init s m c).1.time = s.time
    unfold mutex_init
    split_ifs <;> rfl
  | lock m =>
    show ((mutex_lock s m).getD s).time = s.time
    unfold mutex_lock
    split_ifs <;> rfl
  | unlock m => rfl

theorem krun_time (steps : List KStep) :
    ∀ s, (krun s steps).time = if tick_count steps = 0 then s.time
      else (s.time + tick_count steps) % WORD := by
  induction steps with
  | nil => intro s; rfl
  | cons e es ih =>
    intro s
    show (krun (e.exec s) es).time = _
    rw [ih]
    cases e with
    | tick sp =>
      have ht : (KStep.exec s (.tick sp)).time = (s.time + 1) % WORD := call_scheduler_time s sp
      have hc : tick_count (KStep.tick sp :: es) = tick_count es + 1 := rfl
      rw [ht, hc, if_neg (Nat.succ_ne_zero _)]
      split_ifs with h0
      · rw [h0]
      · rw [Nat.add_mod, Nat.mod_mod, ← Nat.add_mod]
        congr 1
        omega
    | wait => rfl
    | spin => rfl
    | init m c =>
      have ht := step_time s (.init m c) (fun sp h => by cases h)
      rw [ht]; rfl
    | lock m =>
      have ht := step_time s (.lock m) (fun sp h => by cases h)
      rw [ht]; rfl
    | unlock m => rfl

theorem setup_call_time (base : Nat) (s : Kernel) (c : SetupCall) :
    (c.exec base s).time = s.time := by
  cases c with
  | idle fn stack_start =>
    show (thread_init base s fn stack_start).1.time = s.time
    unfold thread_init
    split_ifs <;> rfl
  | create fn stack_start prio C T =>
    show (thread_create base s fn stack_start prio C T).1.time = s.time
    unfold thread_create
    split_ifs <;> rfl
  | mutex m c =>
    show (mutex_init s m c).1.time = s.time
    unfold mutex_init
    split_ifs <;> rfl

/-- C22. An accepted `scheduler_start` sets `time` to 0; every
`call_scheduler` increases `time` by 1 modulo `2 ^ 32`; the system calls of a
task, the calls of `main` before the start and a rejected `scheduler_start`
leave `time` as it is; `get_time` returns `time`; so after steps that hold
`n` ticks from the start, `get_time` returns `n` modulo `2 ^ 32`, which is
`n` below `2 ^ 32`. -/
theorem tick_clock :
    (∀ exceeds s, (scheduler_start exceeds s).2 = none → (scheduler_start exceeds s).1.time = 0) ∧
    (∀ exceeds s, (scheduler_start exceeds s).2 ≠ none →
      (scheduler_start exceeds s).1.time = s.time) ∧
    (∀ s sp, (call_scheduler s sp).1.time = (s.time + 1) % WORD) ∧
    (∀ s e, (∀ sp, e ≠ KStep.tick sp) → (KStep.exec s e).time = s.time) ∧
    (∀ base s c, (SetupCall.exec base s c).time = s.time) ∧
    (∀ s, get_time s = s.time) ∧
    (∀ exceeds s steps, (scheduler_start exceeds s).2 = none →
      get_time (krun (scheduler_start exceeds s).1 steps) = tick_count steps % WORD ∧
      (tick_count steps < WORD →
        get_time (krun (scheduler_start exceeds s).1 steps) = tick_count steps)) := by
  refine ⟨fun exceeds s h => ?_, fun exceeds s h => ?_, call_scheduler_time, step_time,
    setup_call_time, fun _ => rfl, fun exceeds s steps h => ?_⟩
  · rw [scheduler_start_accept exceeds s h]; rfl
  · rw [scheduler_start_eq] at h ⊢
    split_ifs at h ⊢
    · rfl
    · exact absurd rfl h
  · have h0 : (scheduler_start exceeds s).1.time = 0 := by
      rw [scheduler_start_accept exceeds s h]; rfl
    have ht : get_time (krun (scheduler_start exceeds s).1 steps) = tick_count steps % WORD := by
      show (krun (scheduler_start exceeds s).1 steps).time = _
      rw [krun_time, h0]
      split_ifs with hz
      · rw [hz]; rfl
      · rw [Nat.zero_add]
    exact ⟨ht, fun hlt => by rw [ht, Nat.mod_eq_of_lt hlt]⟩

/-! ### C30: the idle TCB and the runnable bitset -/

theorem step_words (s : Kernel) (e : KStep) (h : ∀ sp, e ≠ KStep.tick sp) :
    (e.exec s).runnable_pool = s.runnable_pool ∧ (e.exec s).waiting_pool = s.waiting_pool ∧
    (e.exec s).current_task = s.current_task := by
  cases e with
  | tick sp => exact absurd rfl (h sp)
  | wait => exact ⟨rfl, rfl, rfl⟩
  | spin => exact ⟨rfl, rfl, rfl⟩
  | init m c =>
    show (mutex_init s m c).1.runnable_pool = _ ∧ (mutex_init s m c).1.waiting_pool = _ ∧
      (mutex_init s m c).1.current_task = _
    unfold mutex_init
    split_ifs <;> exact ⟨rfl, rfl, rfl⟩
  | lock m =>
    show ((mutex_lock s m).getD s).runnable_pool = _ ∧ ((mutex_lock s m).getD s).waiting_pool = _ ∧
      ((mutex_lock s m).getD s).current_task = _
    unfold mutex_lock
    split_ifs <;> exact ⟨rfl, rfl, rfl⟩
  | unlock m => exact ⟨rfl, rfl, rfl⟩

theorem account_sleep (s : Kernel) (j : Nat) :
    ((account s).tcb_list j).sleep =
      if j = s.current_task ∧ (cur s).status = RUNNING then ((s.tcb_list j).sleep + 1) % WORD
      else (s.tcb_list j).sleep := by
  unfold account
  simp only [set_cur, cur, clear_wait_pool, set_run_pool, set_wait_pool, clear_run_pool]
  by_cases hj : j = s.current_task
  · subst hj
    split_ifs <;> simp_all [upd_same]
  · split_ifs <;> simp_all [upd_other _ _ hj]

theorem wake_one_sleep (s : Kernel) (i j : Nat) :
    ((wake_one s i).tcb_list j).sleep = (s.tcb_list j).sleep := by
  unfold wake_one
  simp only [clear_wait_pool, set_run_pool]
  by_cases hj : j = i
  · subst hj
    split_ifs <;> simp [upd_same]
  · split_ifs <;> simp [upd_other _ _ hj]

theorem wake_loop_sleep (s : Kernel) (n j : Nat) :
    ((wake_loop s n).tcb_list j).sleep = (s.tcb_list j).sleep := by
  induction n with
  | zero => rfl
  | succ n ih =>
    rw [wake_loop]
    exact (wake_one_sleep _ n j).trans ih

/-- A tick adds 1 to the sleep counter of the outgoing task when it is
RUNNING, and writes no other sleep counter. -/
theorem call_scheduler_sleep (s : Kernel) (sp : Nat → Nat) (j : Nat) :
    ((call_scheduler s sp).1.tcb_list j).sleep =
      if j = s.current_task ∧ (cur s).status = RUNNING then ((s.tcb_list j).sleep + 1) % WORD
      else (s.tcb_list j).sleep := by
  have h3 : ((call_scheduler s sp).1.tcb_list j).sleep
      = ((after_wake (time_inc s)).tcb_list j).sleep := by
    rw [call_scheduler_fst, switch_to_tcb, requeue_tcb, save_frame_tcb]
    split_ifs <;> rfl
  rw [h3]
  exact (wake_loop_sleep (account (time_inc s)) 31 j).trans (account_sleep (time_inc s) j)

theorem step_sleep (s : Kernel) (e : KStep) (p : Nat) (ht : ∀ sp, e ≠ KStep.tick sp)
    (hp : s.current_task ≠ p) : ((e.exec s).tcb_list p).sleep = (s.tcb_list p).sleep := by
  have hp' : p ≠ s.current_task := fun h => hp h.symm
  cases e with
  | tick sp => exact absurd rfl (ht sp)
  | wait => exact congrArg TCB.sleep (set_cur_other s _ hp')
  | spin => exact congrArg TCB.sleep (set_cur_other s _ hp')
  | init m c =>
    show ((mutex_init s m c).1.tcb_list p).sleep = _
    unfold mutex_init
    split_ifs <;> rfl
  | lock m =>
    show (((mutex_lock s m).getD s).tcb_list p).sleep = _
    unfold mutex_lock
    split_ifs <;> rfl
  | unlock m => exact congrArg TCB.sleep (set_cur_other _ _ hp')

theorem krun_sleep (p : Nat) (steps : List KStep) :
    ∀ s, calls_by_others p s steps →
      ((krun s steps).tcb_list p).sleep =
        if own_ticks p s steps = 0 then (s.tcb_list p).sleep
        else ((s.tcb_list p).sleep + own_ticks p s steps) % WORD := by
  induction steps with
  | nil => intro s _; rfl
  | cons e es ih =>
    intro s hc
    by_cases ht : ∀ sp, e ≠ KStep.tick sp
    · have hc' : s.current_task ≠ p ∧ calls_by_others p (e.exec s) es := by
        cases e with
        | tick sp => exact absurd rfl (ht sp)
        | wait => exact hc
        | spin => exact hc
        | init m c => exact hc
        | lock m => exact hc
        | unlock m => exact hc
      have ho : own_ticks p s (e :: es) = own_ticks p (e.exec s) es := by
        cases e with
        | tick sp => exact absurd rfl (ht sp)
        | wait => rfl
        | spin => rfl
        | init m c => rfl
        | lock m => rfl
        | unlock m => rfl
      show ((krun (e.exec s) es).tcb_list p).sleep = _
      rw [ih _ hc'.2, ho, step_sleep s e p ht hc'.1]
    · push_neg at ht
      obtain ⟨sp, rfl⟩ := ht
      have hc' : calls_by_others p (call_scheduler s sp).1 es := hc
      have ho : own_ticks p s (KStep.tick sp :: es) =
          (if s.current_task = p ∧ (cur s).status = RUNNING then 1 else 0)
            + own_ticks p (call_scheduler s sp).1 es := rfl
      show ((krun (call_scheduler s sp).1 es).tcb_list p).sleep = _
      rw [ih _ hc', ho, call_scheduler_sleep]
      by_cases hr : s.current_task = p ∧ (cur s).status = RUNNING
      · have hr' : p = s.current_task ∧ (cur s).status = RUNNING := ⟨hr.1.symm, hr.2⟩
        rw [if_pos hr, if_pos hr']
        have hne : ¬ (1 + own_ticks p (call_scheduler s sp).1 es = 0) := by omega
        rw [if_neg hne]
        split_ifs with h0
        · rw [h0]
        · rw [Nat.add_mod, Nat.mod_mod, ← Nat.add_mod]
          congr 1
          omega
      · have hr' : ¬ (p = s.current_task ∧ (cur s).status = RUNNING) :=
          fun h => hr ⟨h.1.symm, h.2⟩
        rw [if_neg hr, if_neg hr', Nat.zero_add]

/-- C24. `spin_wait` zeroes the sleep counter of the caller and writes no
other TCB, and `spin_wait(0)` ends without a tick. A tick adds 1 (modulo
`2 ^ 32`) to the sleep counter of the outgoing task exactly when it is
RUNNING and leaves every other sleep counter. So, while the caller is inside
`spin_wait`, its sleep counter is the number of ticks since the call at
which it was the RUNNING outgoing task (modulo `2 ^ 32`), and when the loop
test `sleep ≥ ms` lets the call return, there have been at least `ms` such
ticks. -/
theorem spin_wait_counts_own_ticks :
    (∀ s, (cur (spin_wait_entry s)).sleep = 0 ∧
      (∀ j, j ≠ s.current_task → (spin_wait_entry s).tcb_list j = s.tcb_list j) ∧
      spin_wait_done (spin_wait_entry s) s.current_task 0 = true) ∧
    (∀ s sp j, ((call_scheduler s sp).1.tcb_list j).sleep =
      if j = s.current_task ∧ (cur s).status = RUNNING then ((s.tcb_list j).sleep + 1) % WORD
      else (s.tcb_list j).sleep) ∧
    (∀ s steps ms, calls_by_others s.current_task (spin_wait_entry s) steps →
      ((krun (spin_wait_entry s) steps).tcb_list s.current_task).sleep =
        own_ticks s.current_task (spin_wait_entry s) steps % WORD ∧
      (spin_wait_done (krun (spin_wait_entry s) steps) s.current_task ms = true →
        ms ≤ own_ticks s.current_task (spin_wait_entry s) steps)) := by
  have h0 : ∀ s : Kernel, ((spin_wait_entry s).tcb_list s.current_task).sleep = 0 := by
    intro s
    have : (cur (set_cur s { cur s with sleep := 0 })).sleep = 0 := by rw [set_cur_same]
    exact this
  refine ⟨fun s => ⟨h0 s, fun j hj => set_cur_other s _ hj, ?_⟩, call_scheduler_sleep,
    fun s steps ms hc => ?_⟩
  · unfold spin_wait_done
    rw [h0]
    decide
  · have hs : ((krun (spin_wait_entry s) steps).tcb_list s.current_task).sleep =
        own_ticks s.current_task (spin_wait_entry s) steps % WORD := by
      rw [krun_sleep s.current_task steps _ hc, h0]
      split_ifs with hz
      · rw [hz]; rfl
      · rw [Nat.zero_add]
    refine ⟨hs, fun hd => ?_⟩
    unfold spin_wait_done at hd
    rw [hs] at hd
    have hd' := of_decide_eq_true hd
    have := Nat.mod_le (own_ticks s.current_task (spin_wait_entry s) steps) WORD
    omega

/-! ### C23: periodic releases -/

/-- A TCB whose waiting bit is clear after the accounting of a tick has its
waiting bit clear after the tick. -/
theorem awake_tick {T : Nat → Bool} {s : Kernel} (sp : Nat → Nat) (h : Ticking T s)
    (p : Nat) (hp : p < 32) (ha : ¬ (account (time_inc s)).waiting_pool.testBit p = true) :
    is_waiting (call_scheduler s sp).1 p = 0 := by
  obtain ⟨-, -, -, hcw, hnw⟩ := tick_setup h
  obtain ⟨-, -, -, -, -, -, -, t8⟩ :=
    tail_view (after_wake (time_inc s)) sp (find_next_task (time_inc s)).2 p hp hcw hnw
  obtain ⟨-, -, -, w4⟩ := after_wake_view (time_inc s) p hp
  rw [← call_scheduler_fst] at t8
  rw [is_waiting_eq_zero, ← Bool.not_eq_true, t8, w4]
  exact fun h' => ha h'.1.1

theorem step_schedule (s : Kernel) (e : KStep) (p : Nat) (ht : ∀ sp, e ≠ KStep.tick sp) :
    ((e.exec s).tcb_list p).wakeup = (s.tcb_list p).wakeup ∧
    ((e.exec s).tcb_list p).period = (s.tcb_list p).period := by
  cases e with
  | tick sp => exact absurd rfl (ht sp)
  | wait =>
    show ((set_cur s _).tcb_list p).wakeup = _ ∧ ((set_cur s _).tcb_list p).period = _
    rw [set_cur_apply]
    split_ifs with hp
    · rw [hp]; exact ⟨rfl, rfl⟩
    · exact ⟨rfl, rfl⟩
  | spin =>
    show ((set_cur s _).tcb_list p).wakeup = _ ∧ ((set_cur s _).tcb_list p).period = _
    rw [set_cur_apply]
    split_ifs with hp
    · rw [hp]; exact ⟨rfl, rfl⟩
    · exact ⟨rfl, rfl⟩
  | init m c =>
    show ((mutex_init s m c).1.tcb_list p).wakeup = _ ∧ ((mutex_init s m c).1.tcb_list p).period = _
    unfold mutex_init
    split_ifs <;> exact ⟨rfl, rfl⟩
  | lock m =>
    show (((mutex_lock s m).getD s).tcb_list p).wakeup = _ ∧
      (((mutex_lock s m).getD s).tcb_list p).period = _
    unfold mutex_lock
    split_ifs <;> exact ⟨rfl, rfl⟩
  | unlock m =>
    show ((set_cur _ _).tcb_list p).wakeup = _ ∧ ((set_cur _ _).tcb_list p).period = _
    rw [set_cur_apply]
    split_ifs with hp
    · rw [hp]; exact ⟨rfl, rfl⟩
    · exact ⟨rfl, rfl⟩

theorem on_schedule_step {P p r : Nat} {s : Kernel} (e : KStep) (ht : ∀ sp, e ≠ KStep.tick sp)
    (h : on_schedule P p r s) : on_schedule P p r (e.exec s) := by
  obtain ⟨h1, h2, -⟩ := step_words s e ht
  obtain ⟨h4, h5⟩ := step_schedule s e p ht
  have h6 := step_time s e ht
  unfold on_schedule is_waiting at h ⊢
  rw [h2, h4, h5, h6]
  exact h

/-- One tick of a task that keeps to its period: a release happens at time
`(r + 1) * P` exactly, and the task is on schedule afterwards. -/
theorem release_tick {T : Nat → Bool} {s : Kernel} (sp : Nat → Nat) {P p r : Nat}
    (h : Ticking T s) (hcw : is_waiting s s.current_task = 0) (hp : p < 31)
    (hs : on_schedule P p r s) (htime : s.time + 1 < WORD)
    (hrun : s.current_task = p → (cur s).status = RUNNING →
      (cur s).execution < (cur s).computation)
    (hwait : s.current_task = p → (cur s).status = WAITING →
      s.time < (cur s).wakeup + (cur s).period ∧ (cur s).wakeup + (cur s).period < WORD) :
    (releases s p → (time_inc s).time = (r + 1) * P ∧ on_schedule P p (r + 1) (call_scheduler s sp).1) ∧
    (¬ releases s p → on_schedule P p r (call_scheduler s sp).1) := by
  have hp32 : p < 32 := by omega
  obtain ⟨hper, hsch⟩ := hs
  have ht1 : (time_inc s).time = s.time + 1 := by
    rw [time_inc_time, Nat.mod_eq_of_lt htime]
  have hat : (account (time_inc s)).time = s.time + 1 := by rw [account_time, ht1]
  have hst : (call_scheduler s sp).1.time = s.time + 1 := by
    rw [call_scheduler_time, Nat.mod_eq_of_lt htime]
  have hper' : ((call_scheduler s sp).1.tcb_list p).period = P :=
    (call_scheduler_static s sp p).2.trans hper
  have hwk := tick_wakeup sp h p hp32
  obtain ⟨v1, v2, -⟩ := wake_up_view T s sp h p hp
  -- the state the wake-up loop sees for `p`
  have hacc : (is_waiting (account (time_inc s)) p = 0 ∧
        ((account (time_inc s)).tcb_list p).wakeup = r * P) ∨
      (is_waiting (account (time_inc s)) p ≠ 0 ∧
        ((account (time_inc s)).tcb_list p).wakeup = (r + 1) * P ∧
        s.time < (r + 1) * P) := by
    have hc0 : (cur (time_inc s)).priority = (time_inc s).current_task :=
      h.prio _ h.cur_lt h.cur_task
    by_cases hpc : p = s.current_task
    · -- `p` is the outgoing task: it is out of the waiting pool
      have hA : is_waiting s p = 0 ∧ (s.tcb_list p).wakeup = r * P := by
        rcases hsch with hA | ⟨hB, -, -⟩
        · exact hA
        · rw [hpc] at hB
          exact absurd hcw hB
      have hcp : (cur (time_inc s)).priority = p := by rw [hc0, hpc]; rfl
      rcases h.cur_status with hrn | hwt
      · left
        have hb := hrun hpc.symm hrn
        obtain ⟨a1, -, a3⟩ := account_budget (time_inc s) hrn hb
        constructor
        · rw [is_waiting_eq_zero, a3, clear_bit_testBit, hcp]
          simp
        · have : (time_inc s).current_task = p := hpc.symm
          rw [this] at a1
          rw [a1]
          show (s.tcb_list s.current_task).wakeup = r * P
          rw [← hpc]
          exact hA.2
      · right
        obtain ⟨hlt, hw⟩ := hwait hpc.symm hwt
        obtain ⟨a1, -, a3⟩ := account_waiting (time_inc s) hwt
        have hcur : cur (time_inc s) = s.tcb_list p := by rw [cur_time_inc, hpc]
        have hcur2 : cur s = s.tcb_list p := by rw [cur_eq, hpc]
        rw [hcur2, hA.2, hper] at hlt hw
        have hrp : r * P + P = (r + 1) * P := by ring
        refine ⟨?_, ?_, ?_⟩
        · rw [is_waiting_ne_zero, a3, set_bit_testBit, hcp]
          simp [hp32]
        · have : (time_inc s).current_task = p := hpc.symm
          rw [this] at a1
          rw [a1, hcur]
          show ((s.tcb_list p).wakeup + (s.tcb_list p).period) % WORD = _
          rw [hA.2, hper, Nat.mod_eq_of_lt hw, hrp]
        · omega
    · -- `p` is not the outgoing task: the accounting leaves it
      obtain ⟨-, abits, -⟩ := account_view (time_inc s) hc0 h.cur_status h.cur_lt
      have hbit : (account (time_inc s)).waiting_pool.testBit p = s.waiting_pool.testBit p := by
        have := (abits p hp32 hpc).2
        cases hx : (account (time_inc s)).waiting_pool.testBit p
        · cases hy : s.waiting_pool.testBit p
          · rfl
          · rw [hx] at this
            exact absurd (this.mpr (by rw [time_inc_waiting_pool]; exact hy)) (by simp)
        · have := this.mp hx
          rw [time_inc_waiting_pool] at this
          exact this.symm
      have htcb : (account (time_inc s)).tcb_list p = s.tcb_list p :=
        account_other (time_inc s) hpc
      rcases hsch with ⟨hA1, hA2⟩ | ⟨hB1, hB2, hB3⟩
      · left
        refine ⟨?_, by rw [htcb]; exact hA2⟩
        rw [is_waiting_eq_zero] at hA1 ⊢
        rw [hbit]; exact hA1
      · right
        refine ⟨?_, by rw [htcb]; exact hB3, by omega⟩
        rw [is_waiting_ne_zero] at hB1 ⊢
        rw [hbit]; exact hB1
  rcases hacc with ⟨c1, c2⟩ | ⟨c1, c2, c3⟩
  · -- out of the waiting pool: no release
    have hnr : ¬ releases s p := fun hr => hr.2.1 c1
    refine ⟨fun hr => absurd hr hnr, fun _ => ⟨hper', Or.inl ⟨?_, by rw [hwk, c2]⟩⟩⟩
    apply awake_tick sp h p hp32
    rw [is_waiting_eq_zero] at c1
    rw [c1]
    simp
  · constructor
    · intro hr
      have hge : ((account (time_inc s)).tcb_list p).wakeup ≤ (account (time_inc s)).time :=
        hr.2.2
      rw [c2, hat] at hge
      refine ⟨by rw [ht1]; omega, hper', Or.inl ⟨(v1 hr.2).1, by rw [hwk, c2]⟩⟩
    · intro hnr
      have hlt : (account (time_inc s)).time < ((account (time_inc s)).tcb_list p).wakeup := by
        by_contra hge
        exact hnr ⟨hp, c1, by omega⟩
      refine ⟨hper', Or.inr ⟨(v2 c1 hlt).2, ?_, by rw [hwk, c2]⟩⟩
      rw [hst, hwk]
      rw [hat] at hlt
      exact hlt

theorem cur_wait_step {T : Nat → Bool} {s : Kernel} (e : KStep) (h : Ticking T s)
    (hb : is_waiting s s.current_task = 0) :
    is_waiting (e.exec s) (e.exec s).current_task = 0 := by
  by_cases ht : ∀ sp, e ≠ KStep.tick sp
  · obtain ⟨-, h2, h3⟩ := step_words s e ht
    unfold is_waiting at hb ⊢
    rw [h2, h3]
    exact hb
  · push_neg at ht
    obtain ⟨sp, rfl⟩ := ht
    exact (ticking_tick sp h).2.2.2

theorem release_run {T : Nat → Bool} {P p : Nat} (hp : p < 31) (steps : List KStep) :
    ∀ (s : Kernel) (r : Nat), Ticking T s → is_waiting s s.current_task = 0 →
      on_schedule P p r s → punctual p s steps →
      release_times p s steps =
        (List.range (release_times p s steps).length).map (fun k => (r + k + 1) * P) := by
  induction steps with
  | nil => intro s r _ _ _ _; rfl
  | cons e es ih =>
    intro s r h hcw hs hpu
    by_cases ht : ∀ sp, e ≠ KStep.tick sp
    · have hpu' : punctual p (e.exec s) es := by
        cases e with
        | tick sp => exact absurd rfl (ht sp)
        | wait => exact hpu
        | spin => exact hpu
        | init m c => exact hpu
        | lock m => exact hpu
        | unlock m => exact hpu
      have hrt : release_times p s (e :: es) = release_times p (e.exec s) es := by
        cases e with
        | tick sp => exact absurd rfl (ht sp)
        | wait => rfl
        | spin => rfl
        | init m c => rfl
        | lock m => rfl
        | unlock m => rfl
      rw [hrt]
      exact ih _ r (ticking_step e h) (cur_wait_step e h hcw) (on_schedule_step e ht hs) hpu'
    · push_neg at ht
      obtain ⟨sp, rfl⟩ := ht
      obtain ⟨p1, p2, p3, p4⟩ : s.time + 1 < WORD ∧
          (s.current_task = p → (cur s).status = RUNNING →
            (cur s).execution < (cur s).computation) ∧
          (s.current_task = p → (cur s).status = WAITING →
            s.time < (cur s).wakeup + (cur s).period ∧ (cur s).wakeup + (cur s).period < WORD) ∧
          punctual p (call_scheduler s sp).1 es := hpu
      have hrt : release_times p s (KStep.tick sp :: es) =
          (if releases s p then [(time_inc s).time] else [])
            ++ release_times p (call_scheduler s sp).1 es := rfl
      obtain ⟨q1, q2⟩ := release_tick sp h hcw hp hs p1 p2 p3
      have hT' := (ticking_tick sp h).1
      have hcw' := (ticking_tick sp h).2.2.2
      rw [hrt]
      by_cases hr : releases s p
      · obtain ⟨e1, e2⟩ := q1 hr
        have ih' := ih _ (r + 1) hT' hcw' e2 p4
        rw [if_pos hr, e1]
        rw [List.singleton_append, List.length_cons, List.range_succ_eq_map, List.map_cons,
          List.map_map]
        congr 1
        rw [ih']
        simp only [List.length_map, List.length_range]
        apply List.map_congr_left
        intro k _
        show (r + 1 + k + 1) * P = (r + (k + 1) + 1) * P
        ring
      · rw [if_neg hr, List.nil_append]
        exact ih _ r hT' hcw' (q2 hr) p4

/-- C23. A task created with priority `p` in 0..30 and period `P`, that from
`scheduler_start` on becomes WAITING through `wait_until_next_period` only,
each time strictly before its next wakeup time: the wake-up loop releases it
at the ticks of time `P`, `2 * P`, `3 * P`, ... (the `k`-th release is at
time `k * P`), whatever ticks and system calls the steps hold. -/
theorem releases_are_periodic (T : Nat → Bool) (s0 : Kernel) (h0 : Prestart T s0) (p : Nat)
    (hp : p < 31) (hw0 : s0.waiting_pool = 0) (hwk : (s0.tcb_list p).wakeup = 0)
    (steps : List KStep) (hpu : punctual p (scheduler_start_state s0) steps) :
    release_times p (scheduler_start_state s0) steps =
      (List.range (release_times p (scheduler_start_state s0) steps).length).map
        (fun k => (k + 1) * (s0.tcb_list p).period) := by
  have hst := (ticking_start h0).1
  have hne : p ≠ 31 := by omega
  have htcb : (scheduler_start_state s0).tcb_list p = s0.tcb_list p := upd_other _ _ hne
  have hwz : ∀ i, is_waiting (scheduler_start_state s0) i = 0 := by
    intro i
    show (s0.waiting_pool >>> i) &&& 1 = 0
    rw [hw0]
    simp
  have hs : on_schedule (s0.tcb_list p).period p 0 (scheduler_start_state s0) := by
    refine ⟨by rw [htcb], Or.inl ⟨hwz p, ?_⟩⟩
    rw [htcb, hwk, Nat.zero_mul]
  have := release_run hp steps (scheduler_start_state s0) 0 hst (hwz _) hs hpu
  rw [this]
  simp only [List.length_map, List.length_range]
  apply List.map_congr_left
  intro k _
  rw [Nat.zero_add]

/-- Witness of `releases_are_periodic`: the task of priority 1 and period 2
of `quick_task`, elected by the first tick, calls `wait_until_next_period` at
time 1 and is released by the tick of time 2. -/
theorem releases_are_periodic_witness :
    punctual 1 (scheduler_start_state quick_task)
      [.tick (fun _ => 0), .wait, .tick (fun _ => 0)] ∧
    release_times 1 (scheduler_start_state quick_task)
      [.tick (fun _ => 0), .wait, .tick (fun _ => 0)] = [2] ∧
    release_times 1 (scheduler_start_state quick_task)
        [.tick (fun _ => 0), .wait, .tick (fun _ => 0)] =
      (List.range (release_times 1 (scheduler_start_state quick_task)
        [.tick (fun _ => 0), .wait, .tick (fun _ => 0)]).length).map
          (fun k => (k + 1) * (quick_task.tcb_list 1).period) :=
  have hpu : punctual 1 (scheduler_start_state quick_task)
      [.tick (fun _ => 0), .wait, .tick (fun _ => 0)] := by
    refine ⟨by decide, by decide, by decide, ?_⟩
    show punctual 1 _ [.tick (fun _ => 0)]
    exact ⟨by decide, by decide, by decide, trivial⟩
  ⟨hpu, by decide,
    releases_are_periodic one_task quick_task prestart_quick_task 1 (by decide) (by decide)
      (by decide) _ hpu⟩

/-! ### C37: what `mutex_lock` writes -/

/-- C37. `mutex_lock` on a free mutex `m` returns; if the acquisition test
`curr_priority >= m.ceiling && curr_priority < mutex_ceiling` succeeds, the
new system ceiling is the minimum of the old one and `m.ceiling`, `m.lock`
is 1, `m.thread` is the caller's base priority, and `m.ceiling`, every other
mutex, every TCB, the mutex list, the pools, `current_task` and `time` are as
before; if the test fails, the state is as before. -/
theorem mutex_lock_frame (s : Kernel) (m : Nat) (hfree : (s.heap m).lock = 0) :
    ∃ s', mutex_lock s m = some s' ∧
      (((cur s).curr_priority ≥ (s.heap m).ceiling ∧ (cur s).curr_priority < s.mutex_ceiling) →
        s'.mutex_ceiling = min s.mutex_ceiling (s.heap m).ceiling ∧
        (s'.heap m).lock = 1 ∧
        (s'.heap m).thread = toInt32 (cur s).priority ∧
        (s'.heap m).ceiling = (s.heap m).ceiling ∧
        (∀ a, a ≠ m → s'.heap a = s.heap a) ∧
        s'.tcb_list = s.tcb_list ∧ s'.mutex_list = s.mutex_list ∧
        s'.mutex_index = s.mutex_index ∧ s'.current_task = s.current_task ∧
        s'.runnable_pool = s.runnable_pool ∧ s'.waiting_pool = s.waiting_pool ∧
        s'.time = s.time) ∧
      (¬ ((cur s).curr_priority ≥ (s.heap m).ceiling ∧ (cur s).curr_priority < s.mutex_ceiling) →
        s' = s) := by
  unfold mutex_lock
  rw [if_neg (fun h => h hfree)]
  by_cases ht : (cur s).curr_priority ≥ (s.heap m).ceiling ∧ (cur s).curr_priority < s.mutex_ceiling
  · rw [if_pos ht]
    refine ⟨_, rfl, fun _ => ?_, fun hn => absurd ht hn⟩
    have hc : (upd s.heap m { (s.heap m) with lock := 1, thread := toInt32 (cur s).priority } m).ceiling
        = (s.heap m).ceiling := by rw [upd_same]
    refine ⟨?_, ?_, ?_, ?_, fun a ha => upd_other _ _ ha, rfl, rfl, rfl, rfl, rfl, rfl, rfl⟩
    · show (if (upd s.heap m _ m).ceiling < s.mutex_ceiling then (upd s.heap m _ m).ceiling
        else s.mutex_ceiling) = _
      rw [hc]
      have : (s.heap m).ceiling < s.mutex_ceiling := lt_of_le_of_lt ht.1 ht.2
      rw [if_pos this, Nat.min_eq_right (le_of_lt this)]
    · show (upd s.heap m _ m).lock = 1
      rw [upd_same]
    · show (upd s.heap m _ m).thread = _
      rw [upd_same]
    · exact hc
  · rw [if_neg ht]
    exact ⟨_, rfl, fun h => absurd h ht, fun _ => rfl⟩

/-- Witness of `mutex_lock_frame`: in Test 8, task 1 locks the free `mutex0`
(ceiling 1) under the initial system ceiling 31. -/
theorem mutex_lock_frame_witness :
    ((asTask test8 1).heap 0x40).lock = 0 ∧
    ∃ s', mutex_lock (asTask test8 1) 0x40 = some s' ∧ s'.mutex_ceiling = 1 ∧
      (s'.heap 0x40).lock = 1 :=
  have h := mutex_lock_frame (asTask test8 1) 0x40 (by decide)
  ⟨by decide, h.elim fun s' hs => ⟨s', hs.1, (hs.2.1 (by decide)).1.trans (by decide),
    (hs.2.1 (by decide)).2.1⟩⟩

/-! ### C38: the priority `find_next_task` elects -/

theorem wake_loop_keeps_bit (s : Kernel) (n j : Nat) (hn : n ≤ 32) (hj : j < 32)
    (h : is_runnable s j ≠ 0) : is_runnable (wake_loop s n) j ≠ 0 := by
  rw [is_runnable_ne_zero] at h ⊢
  rw [(wake_loop_view s n hn j hj).2.2.1]
  exact Or.inl h

/-- C38. In every state, the priority `find_next_task` elects is at most 31;
it is 31, or a priority in 0..30 that is at most the outgoing task's priority
and whose runnable bit is set when the selection loop runs; and when the
outgoing task is RUNNING with budget left, the elected priority is the
smallest priority in 0..30 whose runnable bit is set, 31 being elected only
when no bit in 0..30 is set. -/
theorem find_next_task_range (s : Kernel) :
    (find_next_task s).2 ≤ 31 ∧
    ((find_next_task s).2 = 31 ∨
      ((find_next_task s).2 < 31 ∧ (find_next_task s).2 ≤ (cur s).priority ∧
        is_runnable (after_wake s) (find_next_task s).2 ≠ 0)) ∧
    ((cur s).status = RUNNING → (cur s).execution < (cur s).computation →
      ((find_next_task s).2 < 31 → is_runnable (after_wake s) (find_next_task s).2 ≠ 0) ∧
      (∀ j, j < 31 → j < (find_next_task s).2 → is_runnable (after_wake s) j = 0)) := by
  have hnext : (find_next_task s).2 = select_from (after_wake s) (cur s).priority 31 0 := rfl
  rw [hnext]
  rcases select_from_spec (after_wake s) (cur s).priority 31 0 with
    ⟨h31, hnone⟩ | ⟨-, h2, h3, h4, h5⟩
  · refine ⟨by omega, Or.inl h31, fun hr hb => ⟨fun hlt => by omega, fun j hj _ => ?_⟩⟩
    by_contra hne
    have hjp : ¬ j ≤ (cur s).priority := fun hle => hnone j (Nat.zero_le _) (by omega) ⟨hne, hle⟩
    -- the outgoing priority is below `j`, and its own bit is set
    have hp : (cur s).priority < 31 := by omega
    have hbit : is_runnable (account s) (cur s).priority ≠ 0 := by
      rw [is_runnable_ne_zero, (account_budget s hr hb).2.1, set_bit_testBit]
      simp
      omega
    have := wake_loop_keeps_bit (account s) 31 (cur s).priority (by omega) (by omega) hbit
    exact hnone (cur s).priority (Nat.zero_le _) (by omega) ⟨this, le_refl _⟩
  · refine ⟨by omega, Or.inr ⟨by omega, h4, h3⟩, fun hr hb => ⟨fun _ => h3, fun j hj hlt => ?_⟩⟩
    by_contra hne
    exact h5 j (Nat.zero_le _) hlt ⟨hne, by omega⟩

/-! ### C32: the execution count and the budget -/

theorem account_exec_le (s : Kernel) (j : Nat)
    (h : (s.tcb_list j).execution ≤ (s.tcb_list j).computation) :
    ((account s).tcb_list j).execution ≤ (s.tcb_list j).computation := by
  by_cases hj : j = s.current_task
  · subst hj
    by_cases hr : (cur s).status = RUNNING
    · by_cases hb : (cur s).execution < (cur s).computation
      · rw [(account_budget s hr hb).1]
        show ((cur s).execution + 1) % WORD ≤ (cur s).computation
        exact le_trans (Nat.mod_le _ _) hb
      · rw [(account_exhausted s hr (by omega)).1]
        exact Nat.zero_le _
    · by_cases hw : (cur s).status = WAITING
      · rw [(account_waiting s hw).1]
        exact Nat.zero_le _
      · have : account s = s := by
          unfold account
          simp only [if_neg hr, if_neg hw]
        rw [this]
        exact h
  · rw [account_other s hj]
    exact h

theorem wake_one_exec_le (s : Kernel) (i j : Nat)
    (h : (s.tcb_list j).execution ≤ (s.tcb_list j).computation) :
    ((wake_one s i).tcb_list j).execution ≤ (s.tcb_list j).computation := by
  unfold wake_one
  simp only [clear_wait_pool, set_run_pool]
  by_cases hj : j = i
  · subst hj
    split_ifs
    · simp [upd_same]
    · exact h
  · split_ifs
    · simp only [upd_other _ _ hj]
      exact h
    · exact h

theorem wake_loop_exec_le (s : Kernel) (n j : Nat)
    (h : (s.tcb_list j).execution ≤ (s.tcb_list j).computation) :
    ((wake_loop s n).tcb_list j).execution ≤ (s.tcb_list j).computation := by
  induction n with
  | zero => exact h
  | succ n ih =>
    rw [wake_loop]
    have := wake_one_exec_le (wake_loop s n) n j (by rw [(wake_loop_static s n j).1]; exact ih)
    rw [(wake_loop_static s n j).1] at this
    exact this

/-- A tick keeps the execution count of every TCB within its budget. -/
theorem call_scheduler_exec_le (s : Kernel) (sp : Nat → Nat) (j : Nat)
    (h : (s.tcb_list j).execution ≤ (s.tcb_list j).computation) :
    ((call_scheduler s sp).1.tcb_list j).execution ≤
      ((call_scheduler s sp).1.tcb_list j).computation := by
  rw [(call_scheduler_static s sp j).1]
  have h3 : ((call_scheduler s sp).1.tcb_list j).execution
      = ((after_wake (time_inc s)).tcb_list j).execution := by
    rw [call_scheduler_fst, switch_to_tcb, requeue_tcb, save_frame_tcb]
    split_ifs <;> rfl
  rw [h3]
  have h1 := account_exec_le (time_inc s) j h
  have h2 := wake_loop_exec_le (account (time_inc s)) 31 j
    (by rw [(account_static (time_inc s) j).1]; exact h1)
  rw [(account_static (time_inc s) j).1] at h2
  exact h2

theorem step_budget (s : Kernel) (e : KStep) (p : Nat) (ht : ∀ sp, e ≠ KStep.tick sp) :
    ((e.exec s).tcb_list p).execution = (s.tcb_list p).execution ∧
    ((e.exec s).tcb_list p).computation = (s.tcb_list p).computation := by
  cases e with
  | tick sp => exact absurd rfl (ht sp)
  | wait =>
    show ((set_cur s _).tcb_list p).execution = _ ∧ ((set_cur s _).tcb_list p).computation = _
    rw [set_cur_apply]
    split_ifs with hp
    · rw [hp]; exact ⟨rfl, rfl⟩
    · exact ⟨rfl, rfl⟩
  | spin =>
    show ((set_cur s _).tcb_list p).execution = _ ∧ ((set_cur s _).tcb_list p).computation = _
    rw [set_cur_apply]
    split_ifs with hp
    · rw [hp]; exact ⟨rfl, rfl⟩
    · exact ⟨rfl, rfl⟩
  | init m c =>
    show ((mutex_init s m c).1.tcb_list p).execution = _ ∧
      ((mutex_init s m c).1.tcb_list p).computation = _
    unfold mutex_init
    split_ifs <;> exact ⟨rfl, rfl⟩
  | lock m =>
    show (((mutex_lock s m).getD s).tcb_list p).execution = _ ∧
      (((mutex_lock s m).getD s).tcb_list p).computation = _
    unfold mutex_lock
    split_ifs <;> exact ⟨rfl, rfl⟩
  | unlock m =>
    show ((set_cur _ _).tcb_list p).execution = _ ∧ ((set_cur _ _).tcb_list p).computation = _
    rw [set_cur_apply]
    split_ifs with hp
    · rw [hp]; exact ⟨rfl, rfl⟩
    · exact ⟨rfl, rfl⟩

theorem krun_exec_le (steps : List KStep) :
    ∀ s, (∀ j, (s.tcb_list j).execution ≤ (s.tcb_list j).computation) →
      ∀ j, ((krun s steps).tcb_list j).execution ≤ ((krun s steps).tcb_list j).computation := by
  induction steps with
  | nil => exact fun s h => h
  | cons e es ih =>
    intro s h
    refine ih _ (fun j => ?_)
    by_cases ht : ∀ sp, e ≠ KStep.tick sp
    · rw [(step_budget s e j ht).1, (step_budget s e j ht).2]
      exact h j
    · push_neg at ht
      obtain ⟨sp, rfl⟩ := ht
      exact call_scheduler_exec_le s sp j (h j)

theorem setup_execution (base : Nat) (cs : List SetupCall) :
    ∀ s, (∀ j, (s.tcb_list j).execution = 0) →
      ∀ j, ((setup base s cs).tcb_list j).execution = 0 := by
  induction cs with
  | nil => exact fun s h => h
  | cons c cs ih =>
    intro s h
    refine ih _ (fun j => ?_)
    cases c with
    | idle fn stack_start =>
      show ((thread_init base s fn stack_start).1.tcb_list j).execution = 0
      unfold thread_init
      split_ifs
      · exact h j
      · simp only [upd_apply]
        split_ifs
        · rfl
        · exact h j
    | create fn stack_start prio C T =>
      show ((thread_create base s fn stack_start prio C T).1.tcb_list j).execution = 0
      unfold thread_create
      split_ifs
      · exact h j
      · simp only [set_run_pool, upd_apply]
        split_ifs
        · rfl
        · exact h j
    | mutex m c =>
      show ((mutex_init s m c).1.tcb_list j).execution = 0
      unfold mutex_init
      split_ifs <;> exact h j

/-- C32. In every state reached from boot by the calls of `main`,
`scheduler_start` and any ticks and system calls, every TCB has
`execution ≤ computation`, hence `execution ≤ computation + 1`. -/
theorem budget_bound (base : Nat) (cs : List SetupCall) (steps : List KStep) (i : Nat) :
    ((krun (scheduler_start_state (setup base boot cs)) steps).tcb_list i).execution ≤
      ((krun (scheduler_start_state (setup base boot cs)) steps).tcb_list i).computation ∧
    ((krun (scheduler_start_state (setup base boot cs)) steps).tcb_list i).execution ≤
      ((krun (scheduler_start_state (setup base boot cs)) steps).tcb_list i).computation + 1 := by
  have h0 := setup_execution base cs boot (fun _ => rfl)
  have h1 : ∀ j, ((scheduler_start_state (setup base boot cs)).tcb_list j).execution ≤
      ((scheduler_start_state (setup base boot cs)).tcb_list j).computation := by
    intro j
    have : ((scheduler_start_state (setup base boot cs)).tcb_list j).execution = 0 := by
      show ((set_cur _ _).tcb_list j).execution = 0
      rw [set_cur_apply]
      split_ifs
      · rfl
      · exact h0 j
    rw [this]
    exact Nat.zero_le _
  have h2 := krun_exec_le steps _ h1 i
  exact ⟨h2, Nat.le_succ_of_le h2⟩

/-! ### C33: `curr_priority` -/

theorem account_prios (s : Kernel) (j : Nat) :
    ((account s).tcb_list j).priority = (s.tcb_list j).priority ∧
    ((account s).tcb_list j).curr_priority = (s.tcb_list j).curr_priority := by
  unfold account
  simp only [set_cur, cur, clear_wait_pool, set_run_pool, set_wait_pool, clear_run_pool]
  by_cases hj : j = s.current_task
  · subst hj
    split_ifs <;> simp [upd_same]
  · split_ifs <;> simp [upd_other _ _ hj]

theorem wake_one_prios (s : Kernel) (i j : Nat) :
    ((wake_one s i).tcb_list j).priority = (s.tcb_list j).priority ∧
    ((wake_one s i).tcb_list j).curr_priority = (s.tcb_list j).curr_priority := by
  unfold wake_one
  simp only [clear_wait_pool, set_run_pool]
  by_cases hj : j = i
  · subst hj
    split_ifs <;> simp [upd_same]
  · split_ifs <;> simp [upd_other _ _ hj]

theorem wake_loop_prios (s : Kernel) (n j : Nat) :
    ((wake_loop s n).tcb_list j).priority = (s.tcb_list j).priority ∧
    ((wake_loop s n).tcb_list j).curr_priority = (s.tcb_list j).curr_priority := by
  induction n with
  | zero => exact ⟨rfl, rfl⟩
  | succ n ih =>
    rw [wake_loop]
    exact ⟨(wake_one_prios _ n j).1.trans ih.1, (wake_one_prios _ n j).2.trans ih.2⟩

/-- A tick writes neither the base priority nor the current priority of a
TCB. -/
theorem call_scheduler_prios (s : Kernel) (sp : Nat → Nat) (j : Nat) :
    ((call_scheduler s sp).1.tcb_list j).priority = (s.tcb_list j).priority ∧
    ((call_scheduler s sp).1.tcb_list j).curr_priority = (s.tcb_list j).curr_priority := by
  have h1 := wake_loop_prios (account (time_inc s)) 31 j
  have h2 := account_prios (time_inc s) j
  have h3 : ((call_scheduler s sp).1.tcb_list j).priority
        = ((after_wake (time_inc s)).tcb_list j).priority ∧
      ((call_scheduler s sp).1.tcb_list j).curr_priority
        = ((after_wake (time_inc s)).tcb_list j).curr_priority := by
    rw [call_scheduler_fst, switch_to_tcb, requeue_tcb, save_frame_tcb]
    split_ifs <;> exact ⟨rfl, rfl⟩
  exact ⟨h3.1.trans (h1.1.trans h2.1), h3.2.trans (h1.2.trans h2.2)⟩

/-- Every step keeps `curr_priority = priority` in every TCB. -/
theorem step_prios (s : Kernel) (e : KStep)
    (h : ∀ j, (s.tcb_list j).curr_priority = (s.tcb_list j).priority) :
    ∀ j, ((e.exec s).tcb_list j).curr_priority = ((e.exec s).tcb_list j).priority := by
  intro j
  cases e with
  | tick sp =>
    show ((call_scheduler s sp).1.tcb_list j).curr_priority =
      ((call_scheduler s sp).1.tcb_list j).priority
    rw [(call_scheduler_prios s sp j).1, (call_scheduler_prios s sp j).2]
    exact h j
  | wait =>
    show ((set_cur s _).tcb_list j).curr_priority = ((set_cur s _).tcb_list j).priority
    rw [set_cur_apply]
    split_ifs with hj
    · exact h s.current_task
    · exact h j
  | spin =>
    show ((set_cur s _).tcb_list j).curr_priority = ((set_cur s _).tcb_list j).priority
    rw [set_cur_apply]
    split_ifs with hj
    · exact h s.current_task
    · exact h j
  | init m c =>
    show ((mutex_init s m c).1.tcb_list j).curr_priority = ((mutex_init s m c).1.tcb_list j).priority
    unfold mutex_init
    split_ifs <;> exact h j
  | lock m =>
    show (((mutex_lock s m).getD s).tcb_list j).curr_priority =
      (((mutex_lock s m).getD s).tcb_list j).priority
    unfold mutex_lock
    split_ifs <;> exact h j
  | unlock m =>
    show ((set_cur _ _).tcb_list j).curr_priority = ((set_cur _ _).tcb_list j).priority
    rw [set_cur_apply]
    split_ifs with hj
    · rfl
    · exact h j

theorem krun_prios (steps : List KStep) :
    ∀ s, (∀ j, (s.tcb_list j).curr_priority = (s.tcb_list j).priority) →
      ∀ j, ((krun s steps).tcb_list j).curr_priority = ((krun s steps).tcb_list j).priority := by
  induction steps with
  | nil => exact fun s h => h
  | cons e es ih => exact fun s h => ih _ (step_prios s e h)

theorem setup_prios (base : Nat) (cs : List SetupCall) :
    ∀ s, (∀ j, (s.tcb_list j).curr_priority = (s.tcb_list j).priority) →
      ∀ j, ((setup base s cs).tcb_list j).curr_priority =
        ((setup base s cs).tcb_list j).priority := by
  induction cs with
  | nil => exact fun s h => h
  | cons c cs ih =>
    intro s h
    refine ih _ (fun j => ?_)
    cases c with
    | idle fn stack_start =>
      show ((thread_init base s fn stack_start).1.tcb_list j).curr_priority =
        ((thread_init base s fn stack_start).1.tcb_list j).priority
      unfold thread_init
      split_ifs
      · exact h j
      · simp only [upd_apply]
        split_ifs
        · rfl
        · exact h j
    | create fn stack_start prio C T =>
      show ((thread_create base s fn stack_start prio C T).1.tcb_list j).curr_priority =
        ((thread_create base s fn stack_start prio C T).1.tcb_list j).priority
      unfold thread_create
      split_ifs
      · exact h j
      · simp only [set_run_pool, upd_apply]
        split_ifs
        · rfl
        · exact h j
    | mutex m c =>
      show ((mutex_init s m c).1.tcb_list j).curr_priority =
        ((mutex_init s m c).1.tcb_list j).priority
      unfold mutex_init
      split_ifs <;> exact h j

/-- With `curr_priority = priority` in the running TCB, the test of
`mutex_lock` decides as the same test on the base priority. -/
theorem mutex_lock_eq_base (s : Kernel) (m : Nat)
    (h : (cur s).curr_priority = (cur s).priority) : mutex_lock s m = mutex_lock_base s m := by
  unfold mutex_lock mutex_lock_base
  rw [h]

/-- C33. In every state reached from boot by `thread_init`, `thread_create`
with priorities in 0..30 and `mutex_init`, then `scheduler_start` and any
ticks and system calls, every TCB has `curr_priority = priority`, and every
created TCB has both equal to its index in the pool; so `mutex_lock` decides
as the same call with its test on the base priority, and the base priority
`get_priority` returns is also the current priority of the running task. -/
theorem curr_priority_is_base (base : Nat) (cs : List SetupCall) (hok : ∀ c ∈ cs, c.ok)
    (hidle : setup_tasks cs 31 = true) (steps : List KStep) :
    (∀ i, ((krun (scheduler_start_state (setup base boot cs)) steps).tcb_list i).curr_priority =
      ((krun (scheduler_start_state (setup base boot cs)) steps).tcb_list i).priority) ∧
    (∀ i, i < THREAD_NUM → setup_tasks cs i = true →
      ((krun (scheduler_start_state (setup base boot cs)) steps).tcb_list i).curr_priority = i ∧
      ((krun (scheduler_start_state (setup base boot cs)) steps).tcb_list i).priority = i) ∧
    (∀ m, mutex_lock (krun (scheduler_start_state (setup base boot cs)) steps) m =
      mutex_lock_base (krun (scheduler_start_state (setup base boot cs)) steps) m) ∧
    get_priority (krun (scheduler_start_state (setup base boot cs)) steps) =
      (cur (krun (scheduler_start_state (setup base boot cs)) steps)).curr_priority := by
  have h0 := setup_prios base cs boot (fun _ => rfl)
  have h1 : ∀ j, ((scheduler_start_state (setup base boot cs)).tcb_list j).curr_priority =
      ((scheduler_start_state (setup base boot cs)).tcb_list j).priority := by
    intro j
    show ((set_cur _ _).tcb_list j).curr_priority = ((set_cur _ _).tcb_list j).priority
    rw [set_cur_apply]
    split_ifs
    · exact h0 31
    · exact h0 j
  have h2 := krun_prios steps _ h1
  have ht := ticking_krun steps _ (ticking_start (prestart_of_setup base cs hok hidle)).1
  refine ⟨h2, fun i hi hT => ?_, fun m => mutex_lock_eq_base _ m (h2 _), (h2 _).symm⟩
  have hp := ht.prio i hi hT
  exact ⟨(h2 i).trans hp, hp⟩

/-- Witness of `curr_priority_is_base`: Test 8 after its first tick, which
elects task 1. -/
theorem curr_priority_is_base_witness :
    ((krun (scheduler_start_state (setup 0x10000 boot test8_calls))
      [KStep.tick (fun _ => 0)]).tcb_list 1).curr_priority = 1 ∧
    get_priority (krun (scheduler_start_state (setup 0x10000 boot test8_calls))
        [KStep.tick (fun _ => 0)]) =
      (cur (krun (scheduler_start_state (setup 0x10000 boot test8_calls))
        [KStep.tick (fun _ => 0)])).curr_priority :=
  have h := curr_priority_is_base 0x10000 test8_calls
    (by
      intro c hc
      simp only [test8_calls, List.mem_cons, List.mem_singleton, List.mem_nil_iff, or_false] at hc
      rcases hc with rfl | rfl | rfl | rfl | rfl <;> simp [SetupCall.ok])
    (by decide) [KStep.tick (fun _ => 0)]
  ⟨(h.2.1 1 (by decide) (by decide)).1, h.2.2.2⟩

/-! ### C31: preemption -/

/-- The outgoing task of a tick, RUNNING with budget left, when another task
is elected. -/
theorem preempted_view {T : Nat → Bool} {s : Kernel} (sp : Nat → Nat) (h : Ticking T s)
    (hr : (cur s).status = RUNNING) (hb : (cur s).execution < (cur s).computation)
    (hne : (call_scheduler s sp).1.current_task ≠ s.current_task) :
    ((call_scheduler s sp).1.tcb_list s.current_task).status = RUNNABLE ∧
    ((call_scheduler s sp).1.tcb_list s.current_task).execution = ((cur s).execution + 1) % WORD ∧
    ((call_scheduler s sp).1.tcb_list s.current_task).wakeup = (cur s).wakeup ∧
    is_runnable (call_scheduler s sp).1 s.current_task ≠ 0 ∧
    is_waiting (call_scheduler s sp).1 s.current_task = 0 ∧
    (call_scheduler s sp).1.current_task < s.current_task := by
  have hc32 : s.current_task < 32 := h.cur_lt
  have hcp : (cur (time_inc s)).priority = s.current_task := h.prio _ h.cur_lt h.cur_task
  obtain ⟨n32, -, hwc, hcw, hnw⟩ := tick_setup h
  obtain ⟨t1, -, t3, -, t5, t6, t7, t8⟩ :=
    tail_view (after_wake (time_inc s)) sp (find_next_task (time_inc s)).2 s.current_task hc32
      hcw hnw
  obtain ⟨-, w2, w3, w4⟩ := after_wake_view (time_inc s) s.current_task hc32
  rw [hwc] at t3 t7 t8
  rw [← call_scheduler_fst] at t1 t3 t5 t6 t7 t8
  obtain ⟨a1, a2, a3⟩ := account_budget (time_inc s) hr hb
  have ha1 : (account (time_inc s)).tcb_list s.current_task =
      { (cur s) with execution := ((cur s).execution + 1) % WORD,
                     sleep := ((cur s).sleep + 1) % WORD } := a1
  -- after the accounting the outgoing task is runnable and not waiting
  have hrun : (account (time_inc s)).runnable_pool.testBit s.current_task = true := by
    rw [a2, set_bit_testBit, hcp]
    simp [hc32]
  have hwt : ¬ (account (time_inc s)).waiting_pool.testBit s.current_task = true := by
    rw [a3, clear_bit_testBit, hcp]
    simp
  have hnd : ¬ (s.current_task < 31 ∧ due (account (time_inc s)) s.current_task) := by
    rintro ⟨-, hd, -⟩
    exact hwt ((is_waiting_ne_zero _ _).mp hd)
  rw [if_neg hnd] at w2
  have hwrun : (after_wake (time_inc s)).runnable_pool.testBit s.current_task = true :=
    w3.mpr (Or.inl hrun)
  have hwwt : ¬ (after_wake (time_inc s)).waiting_pool.testBit s.current_task = true :=
    fun hx => hwt (w4.mp hx).1
  have hw0 : is_waiting (after_wake (time_inc s)) s.current_task = 0 := by
    rw [is_waiting_eq_zero, ← Bool.not_eq_true]
    exact hwwt
  have hnc : (find_next_task (time_inc s)).2 ≠ s.current_task := by
    intro e
    exact hne (t1.trans e)
  have hcn : s.current_task ≠ (find_next_task (time_inc s)).2 := fun e => hnc e.symm
  have hcond : ((find_next_task (time_inc s)).2 ≠ s.current_task ∧
      is_waiting (after_wake (time_inc s)) s.current_task = 0) ∧ s.current_task = s.current_task :=
    ⟨⟨hnc, hw0⟩, rfl⟩
  refine ⟨?_, ?_, ?_, ?_, ?_, ?_⟩
  · rw [t3, if_neg hcn, if_pos hcond]
  · rw [t6, w2, ha1]
  · rw [t5, w2, ha1]
  · rw [is_runnable_ne_zero, t7]
    exact ⟨Or.inl hwrun, hcn⟩
  · rw [is_waiting_eq_zero, ← Bool.not_eq_true, t8]
    exact fun hx => hwwt hx.1
  · rw [t1]
    have hnext : (find_next_task (time_inc s)).2 =
        select_from (after_wake (time_inc s)) (cur (time_inc s)).priority 31 0 := rfl
    rw [hnext, hcp] at hnc ⊢
    rcases select_from_spec (after_wake (time_inc s)) s.current_task 31 0 with
      ⟨h31, hnone⟩ | ⟨-, h2, -, h4, -⟩
    · -- no priority selected: then the outgoing task is the idle one, which is elected
      exfalso
      by_cases hc31 : s.current_task < 31
      · exact hnone s.current_task (Nat.zero_le _) (by omega)
          ⟨(is_runnable_ne_zero _ _).mpr hwrun, le_refl _⟩
      · exact hnc (by omega)
    · omega

/-- C31. At a tick of the started kernel: when the outgoing task is RUNNING
with budget left and another task is elected, the elected task has a higher
priority and the outgoing task becomes RUNNABLE, in the runnable bitset,
with `execution` equal to the incremented count and `wakeup` unchanged; and
every TCB that is neither the outgoing one nor released by the wake-up loop
keeps `execution`, `wakeup` and `sleep`, and keeps its status and its bits
unless it is the elected one, which becomes RUNNING with both bits clear. -/
theorem preemption_keeps_accounting (T : Nat → Bool) (s : Kernel) (sp : Nat → Nat)
    (h : Ticking T s) :
    ((cur s).status = RUNNING → (cur s).execution < (cur s).computation →
      (call_scheduler s sp).1.current_task ≠ s.current_task →
      ((call_scheduler s sp).1.tcb_list s.current_task).status = RUNNABLE ∧
      ((call_scheduler s sp).1.tcb_list s.current_task).execution =
        ((cur s).execution + 1) % WORD ∧
      ((call_scheduler s sp).1.tcb_list s.current_task).wakeup = (cur s).wakeup ∧
      is_runnable (call_scheduler s sp).1 s.current_task ≠ 0 ∧
      is_waiting (call_scheduler s sp).1 s.current_task = 0 ∧
      (call_scheduler s sp).1.current_task < s.current_task) ∧
    (∀ j, j < THREAD_NUM → j ≠ s.current_task → ¬ releases s j →
      ((call_scheduler s sp).1.tcb_list j).execution = (s.tcb_list j).execution ∧
      ((call_scheduler s sp).1.tcb_list j).wakeup = (s.tcb_list j).wakeup ∧
      ((call_scheduler s sp).1.tcb_list j).sleep = (s.tcb_list j).sleep ∧
      (j ≠ (call_scheduler s sp).1.current_task →
        ((call_scheduler s sp).1.tcb_list j).status = (s.tcb_list j).status ∧
        ((call_scheduler s sp).1.runnable_pool.testBit j = true ↔
          s.runnable_pool.testBit j = true) ∧
        ((call_scheduler s sp).1.waiting_pool.testBit j = true ↔
          s.waiting_pool.testBit j = true)) ∧
      (j = (call_scheduler s sp).1.current_task →
        ((call_scheduler s sp).1.tcb_list j).status = RUNNING ∧
        ¬ (call_scheduler s sp).1.runnable_pool.testBit j = true ∧
        ¬ (call_scheduler s sp).1.waiting_pool.testBit j = true)) := by
  refine ⟨preempted_view sp h, fun j hj hjc hnr => ?_⟩
  have hj32 : j < 32 := hj
  obtain ⟨-, -, -, i4, -, i6, -⟩ := tick_index sp h j hj32
  obtain ⟨-, -, -, hcw, hnw⟩ := tick_setup h
  obtain ⟨-, -, -, -, -, t6, -, -⟩ :=
    tail_view (after_wake (time_inc s)) sp (find_next_task (time_inc s)).2 j hj32 hcw hnw
  rw [← call_scheduler_fst] at t6
  have hw2 := (after_wake_view (time_inc s) j hj32).2.1
  rw [if_neg hnr] at hw2
  have hacc : (account (time_inc s)).tcb_list j = s.tcb_list j := account_other (time_inc s) hjc
  refine ⟨?_, ?_, ?_, fun hjn => i6 hjn hjc hnr, i4⟩
  · rw [t6, hw2, hacc]
  · rw [tick_wakeup sp h j hj32, hacc]
  · rw [call_scheduler_sleep, if_neg (fun hx => hjc hx.1)]

/-- Witness of `preemption_keeps_accounting`: the first tick of Test 8
preempts the idle task, RUNNING with `execution = 0`, and elects task 1; the
idle TCB is RUNNABLE afterwards with `execution = 1`. -/
theorem preemption_keeps_accounting_witness :
    Ticking test8_tasks (scheduler_start_state test8) ∧
    ((call_scheduler (scheduler_start_state test8) (fun _ => 0)).1.tcb_list 31).status
      = RUNNABLE ∧
    ((call_scheduler (scheduler_start_state test8) (fun _ => 0)).1.tcb_list 31).execution
      = 1 :=
  have hT := (ticking_start prestart_test8).1
  have h := (preemption_keeps_accounting test8_tasks (scheduler_start_state test8) (fun _ => 0)
    hT).1 (by decide) (by decide) (by decide)
  ⟨hT, h.1, h.2.1.trans (by decide)⟩

/-! ### C34: ownership of the mutexes -/

theorem toInt32_ne_neg_one {a : Nat} (ha : a < THREAD_NUM) : toInt32 a ≠ -1 := by
  rw [toInt32_small ha]
  omega

theorem own_inv_step {s0 s s' : Kernel} {g : Nat → Option Nat} (c : Call)
    (hp : ∀ p, p < THREAD_NUM → (s0.tcb_list p).priority < THREAD_NUM)
    (h : OwnInv s0 s g) (hc : c.by_task) (hex : c.exec s = some s') :
    OwnInv s0 s' (c.acquirer s g) := by
  cases c with
  | init m c =>
    have hs : s' = (mutex_init s m c).1 := by
      have : some (mutex_init s m c).1 = some s' := hex
      exact (Option.some.inj this).symm
    subst hs
    by_cases hm : m = 0
    · have he : (mutex_init s m c).1 = s := by
        unfold mutex_init
        rw [if_pos hm]
      have hg : Call.acquirer s g (.init m c) = g := by
        show (if m = 0 then g else upd g m none) = g
        rw [if_pos hm]
      rw [he, hg]
      exact h
    · have hg : Call.acquirer s g (.init m c) = upd g m none := by
        show (if m = 0 then g else upd g m none) = _
        rw [if_neg hm]
      have hheap : (mutex_init s m c).1.heap =
          upd s.heap m { lock := 0, ceiling := c, thread := -1 } := by
        unfold mutex_init
        rw [if_neg hm]
      have hlist : (mutex_init s m c).1.mutex_list = upd s.mutex_list s.mutex_index m ∧
          (mutex_init s m c).1.mutex_index = (s.mutex_index + 1) % WORD ∧
          (mutex_init s m c).1.tcb_list = s.tcb_list := by
        unfold mutex_init
        rw [if_neg hm]
        exact ⟨rfl, rfl, rfl⟩
      rw [hg]
      refine ⟨fun p => by rw [hlist.2.2]; exact h.prio p, fun m2 hm2 => ?_⟩
      by_cases e : m2 = m
      · subst e
        have hl : ((mutex_init s m2 c).1.heap m2) = { lock := 0, ceiling := c, thread := -1 } := by
          rw [hheap, upd_same]
        unfold held
        rw [hl]
        exact ⟨iff_of_false (fun hx => hx rfl) (fun hx => hx rfl), fun hx => absurd rfl hx⟩
      · have hold : initialised s m2 := by
          obtain ⟨i, hi, hl⟩ := hm2
          rw [hlist.2.1] at hi
          rw [hlist.1, upd_apply] at hl
          have hle : (s.mutex_index + 1) % WORD ≤ s.mutex_index + 1 := Nat.mod_le _ _
          by_cases hi2 : i = s.mutex_index
          · rw [if_pos hi2] at hl
            exact absurd hl.symm e
          · rw [if_neg hi2] at hl
            exact ⟨i, by omega, hl⟩
        have hsame : (mutex_init s m c).1.heap m2 = s.heap m2 := by
          rw [hheap, upd_other _ _ e]
        unfold held
        rw [hsame, upd_other _ _ e]
        exact h.own m2 hold
  | lock p m =>
    have hp32 : p < THREAD_NUM := hc
    have hex' : mutex_lock (asTask s p) m = some s' := hex
    have hg : Call.acquirer s g (.lock p m) =
        if (s'.heap m).lock ≠ 0 then upd g m (some p) else g := by
      show (match mutex_lock (asTask s p) m with
        | some s' => if (s'.heap m).lock ≠ 0 then upd g m (some p) else g
        | none => g) = _
      rw [hex']
    rw [hg]
    unfold mutex_lock at hex'
    by_cases hl : ((asTask s p).heap m).lock ≠ 0
    · rw [if_pos hl] at hex'
      cases hex'
    · rw [if_neg hl] at hex'
      have hl0 : (s.heap m).lock = 0 := by
        by_contra hx
        exact hl hx
      by_cases ht : (cur (asTask s p)).curr_priority ≥ ((asTask s p).heap m).ceiling ∧
          (cur (asTask s p)).curr_priority < (asTask s p).mutex_ceiling
      · rw [if_pos ht] at hex'
        have hs := (Option.some.inj hex').symm
        have hheap : s'.heap = upd s.heap m
            { (s.heap m) with lock := 1, thread := toInt32 (s.tcb_list p).priority } := by
          rw [hs]; rfl
        have hrest : s'.tcb_list = s.tcb_list ∧ s'.mutex_list = s.mutex_list ∧
            s'.mutex_index = s.mutex_index := by
          rw [hs]; exact ⟨rfl, rfl, rfl⟩
        have hlk : (s'.heap m).lock ≠ 0 := by
          rw [hheap, upd_same]
          show (1 : Int) ≠ 0
          decide
        rw [if_pos hlk]
        refine ⟨fun q => by rw [hrest.1]; exact h.prio q, fun m2 hm2 => ?_⟩
        have hold : initialised s m2 := by
          obtain ⟨i, hi, hl2⟩ := hm2
          rw [hrest.2.2] at hi
          rw [hrest.2.1] at hl2
          exact ⟨i, hi, hl2⟩
        by_cases e : m2 = m
        · subst e
          have hth : (s'.heap m2).thread = toInt32 (s0.tcb_list p).priority := by
            rw [hheap, upd_same, ← h.prio p]
          refine ⟨iff_of_true hlk ?_, fun _ => ⟨p, upd_same _ _ _, hp32, hth⟩⟩
          rw [hth]
          exact toInt32_ne_neg_one (hp p hp32)
        · have hsame : s'.heap m2 = s.heap m2 := by rw [hheap, upd_other _ _ e]
          unfold held
          rw [hsame, upd_other _ _ e]
          exact h.own m2 hold
      · rw [if_neg ht] at hex'
        have hs := (Option.some.inj hex').symm
        have hl1 : ¬ (s'.heap m).lock ≠ 0 := by
          rw [hs]
          exact fun hx => hx hl0
        rw [if_neg hl1, hs]
        exact ⟨h.prio, h.own⟩
  | unlock p m =>
    have hs : s' = mutex_unlock (asTask s p) m := by
      have : some (mutex_unlock (asTask s p) m) = some s' := hex
      exact (Option.some.inj this).symm
    have hheap : s'.heap = upd s.heap m { (s.heap m) with lock := 0, thread := -1 } := by
      rw [hs]; rfl
    have hlist : s'.mutex_list = s.mutex_list ∧ s'.mutex_index = s.mutex_index := by
      rw [hs]; exact ⟨rfl, rfl⟩
    have hprio : ∀ q, (s'.tcb_list q).priority = (s.tcb_list q).priority := by
      intro q
      rw [hs]
      show ((set_cur _ _).tcb_list q).priority = _
      rw [set_cur_apply]
      split_ifs with hq
      · have hq' : q = p := hq
        rw [hq']
        rfl
      · rfl
    have hg : Call.acquirer s g (.unlock p m) = upd g m none := rfl
    rw [hg]
    refine ⟨fun q => (hprio q).trans (h.prio q), fun m2 hm2 => ?_⟩
    have hold : initialised s m2 := by
      obtain ⟨i, hi, hl2⟩ := hm2
      rw [hlist.2] at hi
      rw [hlist.1] at hl2
      exact ⟨i, hi, hl2⟩
    by_cases e : m2 = m
    · subst e
      have hl : s'.heap m2 = { (s.heap m2) with lock := 0, thread := -1 } := by
        rw [hheap, upd_same]
      unfold held
      rw [hl]
      exact ⟨iff_of_false (fun hx => hx rfl) (fun hx => hx rfl), fun hx => absurd rfl hx⟩
    · have hsame : s'.heap m2 = s.heap m2 := by rw [hheap, upd_other _ _ e]
      unfold held
      rw [hsame, upd_other _ _ e]
      exact h.own m2 hold

theorem own_inv_run {s0 : Kernel}
    (hp : ∀ p, p < THREAD_NUM → (s0.tcb_list p).priority < THREAD_NUM) (calls : List Call) :
    ∀ (s s' : Kernel) (g : Nat → Option Nat), OwnInv s0 s g → (∀ c ∈ calls, c.by_task) →
      run s calls = some s' → OwnInv s0 s' (acquirers s g calls) := by
  induction calls with
  | nil =>
    intro s s' g h _ hr
    have : s = s' := Option.some.inj hr
    rw [← this]
    exact h
  | cons c cs ih =>
    intro s s' g h hc hr
    cases hex : c.exec s with
    | none =>
      have : run s (c :: cs) = none := by
        show (c.exec s).bind _ = none
        rw [hex]
        rfl
      rw [this] at hr
      cases hr
    | some s1 =>
      have hr1 : run s1 cs = some s' := by
        have : run s (c :: cs) = run s1 cs := by
          show (c.exec s).bind _ = _
          rw [hex]
          rfl
        rw [← this]
        exact hr
      have ha : acquirers s g (c :: cs) = acquirers s1 (c.acquirer s g) cs := by
        show (match c.exec s with
          | some s' => acquirers s' (c.acquirer s g) cs
          | none => g) = _
        rw [hex]
      rw [ha]
      exact ih s1 s' _ (own_inv_step c hp h (hc c (List.mem_cons_self _ _)) hex)
        (fun x hx => hc x (List.mem_cons_of_mem _ hx)) hr1

/-- `mutex_lock` does not write the owner of a mutex that is held. -/
theorem mutex_lock_keeps_owner (s s' : Kernel) (m m' : Nat) (hh : held s m')
    (hl : mutex_lock s m = some s') : (s'.heap m').thread = (s.heap m').thread := by
  unfold mutex_lock at hl
  by_cases e : m' = m
  · subst e
    have hh' : (s.heap m').lock ≠ 0 := hh
    rw [if_pos hh'] at hl
    cases hl
  · split_ifs at hl
    · have hs := (Option.some.inj hl).symm
      rw [hs]
      show (upd s.heap m _ m').thread = _
      rw [upd_other _ _ e]
    · have hs := (Option.some.inj hl).symm
      rw [hs]

/-- Ownership along calls none of which is preempted between the loop of
`mutex_lock` and its interrupt-disabled section. From a state in which the
initialised mutexes are free with owner -1 (as `mutex_init` leaves them) and
the base priorities are in 0..31, along any such calls of `mutex_init`,
`mutex_lock` and `mutex_unlock` by tasks of the pool: an initialised mutex is
held iff its recorded owner, the one field `thread`, is not -1; the recorded
owner of a held mutex is the base priority of the task whose `mutex_lock`
acquired it; and such a `mutex_lock` does not write the owner of a mutex that
is held. -/
theorem mutex_ownership (s0 : Kernel)
    (hfree : ∀ m, initialised s0 m → (s0.heap m).lock = 0 ∧ (s0.heap m).thread = -1)
    (hp : ∀ p, p < THREAD_NUM → (s0.tcb_list p).priority < THREAD_NUM)
    (calls : List Call) (hc : ∀ c ∈ calls, c.by_task) (s : Kernel)
    (hrun : run s0 calls = some s) :
    (∀ m, initialised s m →
      (held s m ↔ (s.heap m).thread ≠ -1) ∧
      (held s m → ∃ p, acquirers s0 (fun _ => none) calls m = some p ∧
        (s.heap m).thread = toInt32 (s.tcb_list p).priority)) ∧
    (∀ m m' s', held s m' → mutex_lock s m = some s' →
      (s'.heap m').thread = (s.heap m').thread) := by
  have h0 : OwnInv s0 s0 (fun _ => none) := by
    refine ⟨fun _ => rfl, fun m hm => ?_⟩
    obtain ⟨h1, h2⟩ := hfree m hm
    unfold held
    rw [h1, h2]
    exact ⟨iff_of_false (fun hx => hx rfl) (fun hx => hx rfl), fun hx => absurd rfl hx⟩
  have h := own_inv_run hp calls s0 s _ h0 hc hrun
  refine ⟨fun m hm => ⟨(h.own m hm).1, fun hh => ?_⟩,
    fun m m' s' hh hl => mutex_lock_keeps_owner s s' m m' hh hl⟩
  obtain ⟨p, h1, -, h3⟩ := (h.own m hm).2 hh
  exact ⟨p, h1, by rw [h.prio p]; exact h3⟩

/-- Witness of `mutex_ownership`: in Test 8, task 1 locks `mutex0`; the mutex
is held, its recorded owner is 1 and the record of acquirers holds task 1. -/
theorem mutex_ownership_witness :
    (∀ m, initialised test8 m → (test8.heap m).lock = 0 ∧ (test8.heap m).thread = -1) ∧
    ∃ s, run test8 [.lock 1 0x40] = some s ∧ initialised s 0x40 ∧ held s 0x40 ∧
      (s.heap 0x40).thread ≠ -1 ∧
      ∃ p, acquirers test8 (fun _ => none) [.lock 1 0x40] 0x40 = some p ∧
        (s.heap 0x40).thread = toInt32 (s.tcb_list p).priority := by
  have hidx : test8.mutex_index = 2 := by decide
  have hfree : ∀ m, initialised test8 m →
      (test8.heap m).lock = 0 ∧ (test8.heap m).thread = -1 := by
    rintro m ⟨i, hi, rfl⟩
    rw [hidx] at hi
    interval_cases i <;> decide
  have hp : ∀ p, p < THREAD_NUM → (test8.tcb_list p).priority < THREAD_NUM := by decide
  have hc : ∀ c ∈ [Call.lock 1 0x40], c.by_task := by
    intro c hc
    simp only [List.mem_singleton] at hc
    subst hc
    show (1 : Nat) < THREAD_NUM
    decide
  have hr : run test8 [.lock 1 0x40] = some ((mutex_lock (asTask test8 1) 0x40).getD test8) := rfl
  have hin : initialised ((mutex_lock (asTask test8 1) 0x40).getD test8) 0x40 :=
    ⟨0, by decide, by decide⟩
  have hh : held ((mutex_lock (asTask test8 1) 0x40).getD test8) 0x40 := by
    unfold held
    decide
  have h := (mutex_ownership test8 hfree hp [.lock 1 0x40] hc _ hr).1 0x40 hin
  exact ⟨hfree, _, hr, hin, hh, h.1.mp hh, h.2 hh⟩

/-- The call `mutex_lock` is the test of the loop followed, when the mutex is
free, by the interrupt-disabled section. -/
theorem mutex_lock_eq_section (s : Kernel) (m : Nat) :
    mutex_lock s m = if (s.heap m).lock ≠ 0 then none else some (mutex_lock_section s m) := by
  unfold mutex_lock mutex_lock_section
  split_ifs <;> rfl

/-- With the system ceiling numerically at most the ceiling of the mutex, as
the minimum of the held ceilings is for a held mutex, the interrupt-disabled
section of `mutex_lock` writes nothing. -/
theorem mutex_lock_section_denied (s : Kernel) (m : Nat)
    (hk : s.mutex_ceiling ≤ (s.heap m).ceiling) : mutex_lock_section s m = s := by
  unfold mutex_lock_section
  rw [if_neg]
  intro h
  omega

/-- C34 (evaluation of the code). In `race_tasks`, task 2 is running at time
3, holds the mutex at `0x50` and reads `mutex->lock = 0` on the mutex at
`0x40` in the loop of `mutex_lock`: it leaves the loop. The tick of time 4
elects task 1, which acquires the mutex at `0x40` (owner 1); its
`mutex_unlock` on the mutex at `0x60` sets the system ceiling to the sum
1 + 2 = 3. When task 2 runs again at time 6, the mutex at `0x40` is
initialised and held with owner 1, and the interrupt-disabled section of the
`mutex_lock` of task 2 passes its test (2 ≥ 1, 2 < 3) and writes owner 2 over
owner 1 on the held mutex, while a call that tests `mutex->lock` in this
state stays in the loop. -/
theorem owner_overwritten_after_preemption :
    (race_at_test.time = 3 ∧ race_at_test.current_task = 2 ∧
      (cur race_at_test).status = RUNNING ∧ (race_at_test.heap 0x50).thread = 2 ∧
      (race_at_test.heap 0x40).lock = 0) ∧
    ((krun race_at_test [.tick (fun _ => 0)]).current_task = 1 ∧
      ((krun race_at_test [.tick (fun _ => 0), .lock 0x40]).heap 0x40).thread = 1) ∧
    (race_at_section.time = 6 ∧ race_at_section.current_task = 2 ∧
      (cur race_at_section).status = RUNNING ∧ (cur race_at_section).priority = 2 ∧
      initialised race_at_section 0x40 ∧ held race_at_section 0x40 ∧
      (race_at_section.heap 0x40).thread = 1 ∧ race_at_section.mutex_ceiling = 3) ∧
    mutex_lock race_at_section 0x40 = none ∧
    held (mutex_lock_section race_at_section 0x40) 0x40 ∧
    ((mutex_lock_section race_at_section 0x40).heap 0x40).thread = 2 := by
  refine ⟨by decide, by decide, ⟨by decide, by decide, by decide, by decide, ⟨0, by decide, by decide⟩,
    ?_, by decide, by decide⟩, ?_, ?_, by decide⟩
  · unfold held; decide
  · rw [mutex_lock_eq_section, if_pos]
    decide
  · unfold held; decide

/-! ### C35: the utilisation table and the Liu & Layland bound -/

/-- A rational `q` is within `ε` of `N * (2 ^ (1 / N) - 1)` when 2 lies
between the `N`-th powers of `1 + (q - ε) / N` and `1 + (q + ε) / N`. -/
theorem root_two_bounds (N : Nat) (hN : 0 < N) (q ε : ℝ) (hε : 0 ≤ ε) (ha : 0 ≤ 1 + (q - ε) / N)
    (h1 : (1 + (q - ε) / N) ^ N < 2) (h2 : 2 < (1 + (q + ε) / N) ^ N) :
    |q - N * ((2 : ℝ) ^ ((1 : ℝ) / N) - 1)| < ε := by
  have hNr : (0 : ℝ) < N := by exact_mod_cast hN
  have hx0 : (0 : ℝ) ≤ (2 : ℝ) ^ ((1 : ℝ) / N) := Real.rpow_nonneg (by norm_num) _
  have hxN : ((2 : ℝ) ^ ((1 : ℝ) / N)) ^ N = 2 := by
    rw [← Real.rpow_natCast, ← Real.rpow_mul (by norm_num), one_div_mul_cancel (ne_of_gt hNr),
      Real.rpow_one]
  have hlo : 1 + (q - ε) / N < (2 : ℝ) ^ ((1 : ℝ) / N) := by
    apply lt_of_pow_lt_pow_left₀ N hx0
    rw [hxN]
    exact h1
  have hb : 0 ≤ 1 + (q + ε) / N := by
    have : (q - ε) / N ≤ (q + ε) / N :=
      div_le_div_of_nonneg_right (by linarith) (le_of_lt hNr)
    linarith
  have hhi : (2 : ℝ) ^ ((1 : ℝ) / N) < 1 + (q + ε) / N := by
    apply lt_of_pow_lt_pow_left₀ N hb
    rw [hxN]
    exact h2
  have e1 : (q - ε) / N * N = q - ε := div_mul_cancel₀ _ (ne_of_gt hNr)
  have e2 : (q + ε) / N * N = q + ε := div_mul_cancel₀ _ (ne_of_gt hNr)
  have g1 : (q - ε) / N * N < ((2 : ℝ) ^ ((1 : ℝ) / N) - 1) * N :=
    mul_lt_mul_of_pos_right (by linarith) hNr
  have g2 : ((2 : ℝ) ^ ((1 : ℝ) / N) - 1) * N < (q + ε) / N * N :=
    mul_lt_mul_of_pos_right (by linarith) hNr
  rw [e1] at g1
  rw [e2] at g2
  rw [abs_lt]
  constructor <;> nlinarith

theorem table_powers (N : Nat) (h1 : 1 ≤ N) (h32 : N ≤ 32) :
    (1 + (utilization_list N - 1 / 1000000) / N) ^ N < 2 ∧
    2 < (1 + (utilization_list N + 1 / 1000000) / N) ^ N ∧
    700709 / 1000000 ≤ utilization_list N := by
  interval_cases N <;> simp only [utilization_list] <;> norm_num

/-- C35. The table `utilization_list` is the Liu & Layland least upper
bound: entry 0 is 0, entry 1 is 1, and for every `N` in 1..32 the decimal
entry differs from `N * (2 ^ (1 / N) - 1)` by less than `10 ^ (-6)`; the
entries are strictly decreasing from `N = 1` on and stay above `ln 2`. -/
theorem utilization_list_is_liu_layland :
    utilization_list 0 = 0 ∧ utilization_list 1 = 1 ∧
    (∀ N : Nat, 1 ≤ N → N ≤ 32 →
      |((utilization_list N : ℚ) : ℝ) - N * ((2 : ℝ) ^ ((1 : ℝ) / N) - 1)| < 1 / 1000000) ∧
    (∀ N : Nat, 1 ≤ N → N < 32 → utilization_list (N + 1) < utilization_list N) ∧
    (∀ N : Nat, 1 ≤ N → N ≤ 32 → Real.log 2 < ((utilization_list N : ℚ) : ℝ)) := by
  refine ⟨rfl, rfl, fun N h1 h32 => ?_, fun N h1 h32 => ?_, fun N h1 h32 => ?_⟩
  · obtain ⟨p1, p2, p3⟩ := table_powers N h1 h32
    have hNq : (0 : ℚ) < N := by exact_mod_cast h1
    have r1 : ((1 : ℝ) + (((utilization_list N : ℚ) : ℝ) - 1 / 1000000) / N) ^ N < 2 := by
      have := (Rat.cast_lt (K := ℝ)).mpr p1
      push_cast at this
      exact this
    have r2 : (2 : ℝ) < (1 + (((utilization_list N : ℚ) : ℝ) + 1 / 1000000) / N) ^ N := by
      have := (Rat.cast_lt (K := ℝ)).mpr p2
      push_cast at this
      exact this
    have r0 : (0 : ℚ) ≤ 1 + (utilization_list N - 1 / 1000000) / N := by
      have : (0 : ℚ) ≤ (utilization_list N - 1 / 1000000) / N :=
        div_nonneg (by linarith) (le_of_lt hNq)
      linarith
    have r0' : (0 : ℝ) ≤ 1 + (((utilization_list N : ℚ) : ℝ) - 1 / 1000000) / N := by
      have := (Rat.cast_le (K := ℝ)).mpr r0
      push_cast at this
      exact this
    exact root_two_bounds N h1 _ _ (by norm_num) r0' r1 r2
  · interval_cases N <;> simp only [utilization_list] <;> norm_num
  · obtain ⟨-, -, p3⟩ := table_powers N h1 h32
    have r3 : ((700709 : ℝ) / 1000000) ≤ ((utilization_list N : ℚ) : ℝ) := by
      have := (Rat.cast_le (K := ℝ)).mpr p3
      push_cast at this
      exact this
    have := Real.log_two_lt_d9
    have h9 : (0.6931471808 : ℝ) < 700709 / 1000000 := by norm_num
    linarith

/-! ### C36: the budget of the idle task -/

/-- A tick of the started kernel at which the idle task is RUNNING with
budget left, and no task is runnable or due: the idle task is elected again,
with its execution count incremented, and the tasks are left as they are. -/
theorem idle_tick {T : Nat → Bool} {s : Kernel} (sp : Nat → Nat) (h : Ticking T s)
    (hc : s.current_task = 31) (hr : (cur s).status = RUNNING)
    (hb : (cur s).execution < (cur s).computation)
    (hq : ∀ j, j < 31 → T j = true →
      is_runnable s j = 0 ∧ ¬ due (account (time_inc s)) j) :
    (call_scheduler s sp).1.current_task = 31 ∧
    ((call_scheduler s sp).1.tcb_list 31).status = RUNNING ∧
    ((call_scheduler s sp).1.tcb_list 31).execution = ((cur s).execution + 1) % WORD ∧
    (∀ j, j < 31 →
      ((call_scheduler s sp).1.tcb_list j).status = (s.tcb_list j).status ∧
      ((call_scheduler s sp).1.tcb_list j).wakeup = (s.tcb_list j).wakeup ∧
      ((call_scheduler s sp).1.runnable_pool.testBit j = true ↔
        s.runnable_pool.testBit j = true) ∧
      ((call_scheduler s sp).1.waiting_pool.testBit j = true ↔
        s.waiting_pool.testBit j = true)) := by
  have hc0 : (cur (time_inc s)).priority = (time_inc s).current_task :=
    h.prio _ h.cur_lt h.cur_task
  obtain ⟨-, abits, -⟩ := account_view (time_inc s) hc0 h.cur_status h.cur_lt
  have hcs : (time_inc s).current_task = 31 := hc
  have hjc : ∀ j, j < 31 → j ≠ (time_inc s).current_task := by
    intro j hj
    rw [hcs]
    omega
  -- no task is due, none is runnable
  have hnodue : ∀ j, j < 31 → ¬ (j < 31 ∧ due (account (time_inc s)) j) := by
    intro j hj
    rintro ⟨-, hd⟩
    cases hT : T j
    · have h2 : s.waiting_pool.testBit j = true :=
        (abits j (by omega) (hjc j hj)).2.mp ((is_waiting_ne_zero _ _).mp hd.1)
      have r2 := (h.rest j (show j < 32 by omega) hT).2.1
      rw [(is_waiting_eq_zero s j).mp r2] at h2
      cases h2
    · exact (hq j hj hT).2 hd
  have hnorun : ∀ j, j < 31 → is_runnable (after_wake (time_inc s)) j = 0 := by
    intro j hj
    rw [is_runnable_eq_zero, ← Bool.not_eq_true, (after_wake_view (time_inc s) j (by omega)).2.2.1]
    rintro (h1 | h1)
    · have h2 : s.runnable_pool.testBit j = true := (abits j (by omega) (hjc j hj)).1.mp h1
      have r1 : is_runnable s j = 0 := by
        cases hT : T j
        · exact (h.rest j (show j < 32 by omega) hT).1
        · exact (hq j hj hT).1
      rw [(is_runnable_eq_zero s j).mp r1] at h2
      cases h2
    · exact hnodue j hj h1
  have hn : (find_next_task (time_inc s)).2 = 31 := by
    have hnext : (find_next_task (time_inc s)).2 =
        select_from (after_wake (time_inc s)) (cur (time_inc s)).priority 31 0 := rfl
    rw [hnext]
    rcases select_from_spec (after_wake (time_inc s)) (cur (time_inc s)).priority 31 0 with
      ⟨h31, -⟩ | ⟨-, h2, h3, -, -⟩
    · exact h31
    · exact absurd (hnorun _ (by omega)) h3
  obtain ⟨-, -, hwc, hcw, hnw⟩ := tick_setup h
  obtain ⟨t1, -, t3, -, -, t6, -, -⟩ :=
    tail_view (after_wake (time_inc s)) sp (find_next_task (time_inc s)).2 31 (by decide) hcw hnw
  rw [← call_scheduler_fst] at t1 t3 t6
  have hw2 := (after_wake_view (time_inc s) 31 (by decide)).2.1
  rw [if_neg (fun hx => absurd hx.1 (by decide))] at hw2
  have a1 := (account_budget (time_inc s) hr hb).1
  rw [hcs] at a1
  refine ⟨t1.trans hn, ?_, ?_, fun j hj => ?_⟩
  · rw [t3, if_pos hn.symm]
  · rw [t6, hw2, a1]
    rfl
  · have hj1 : j ≠ (call_scheduler s sp).1.current_task := by
      rw [t1, hn]
      omega
    have hj2 : j ≠ s.current_task := by
      rw [hc]
      omega
    obtain ⟨-, -, -, -, -, i6, -⟩ := tick_index sp h j (by omega)
    obtain ⟨i1, i2, i3⟩ := i6 hj1 hj2 (hnodue j hj)
    refine ⟨i1, ?_, i2, i3⟩
    rw [tick_wakeup sp h j (by omega), account_other (time_inc s) hj2]
    rfl

theorem ticks_succ (s : Kernel) (n : Nat) :
    ticks s (n + 1) = (call_scheduler (ticks s n) (fun _ => 0)).1 := rfl

theorem prestart_late_task : Prestart one_task late_task :=
  ⟨by decide, by decide, by decide, by decide, by decide, by decide⟩

theorem ticking_late_sleeper : Ticking one_task late_sleeper :=
  ticking_krun [.tick (fun _ => 0), .wait] _ (ticking_start prestart_late_task).1

/-- The kernel of `late_sleeper` while its task sleeps: after `k + 1` ticks,
`k ≤ 99999`, the idle task is the running one, with `execution = k + 1`, and
task 1 is WAITING for the time 100002. -/
theorem idle_run (k : Nat) (hk : k ≤ 99999) :
    Ticking one_task (ticks late_sleeper (k + 1)) ∧
    (ticks late_sleeper (k + 1)).current_task = 31 ∧
    ((ticks late_sleeper (k + 1)).tcb_list 31).status = RUNNING ∧
    ((ticks late_sleeper (k + 1)).tcb_list 31).execution = k + 1 ∧
    ((ticks late_sleeper (k + 1)).tcb_list 31).computation = 100000 ∧
    (ticks late_sleeper (k + 1)).time = k + 2 ∧
    ((ticks late_sleeper (k + 1)).tcb_list 1).status = WAITING ∧
    ((ticks late_sleeper (k + 1)).tcb_list 1).wakeup = 100002 ∧
    (ticks late_sleeper (k + 1)).waiting_pool.testBit 1 = true ∧
    (ticks late_sleeper (k + 1)).runnable_pool.testBit 1 = false := by
  induction k with
  | zero =>
    refine ⟨?_, by decide, by decide, by decide, by decide, by decide, by decide, by decide,
      by decide, by decide⟩
    exact (ticking_tick (fun _ => 0) ticking_late_sleeper).1
  | succ k ih =>
    obtain ⟨hT, hcur, hst, hex, hco, hti, hs1, hw1, hwb, hrb⟩ := ih (by omega)
    have hcurs : cur (ticks late_sleeper (k + 1)) = (ticks late_sleeper (k + 1)).tcb_list 31 := by
      unfold cur
      rw [hcur]
    have hq : ∀ j, j < 31 → one_task j = true →
        is_runnable (ticks late_sleeper (k + 1)) j = 0 ∧
        ¬ due (account (time_inc (ticks late_sleeper (k + 1)))) j := by
      intro j hj hTj
      have hj1 : j = 1 := by
        have : (j == 1 || j == 31) = true := hTj
        simp at this
        omega
      subst hj1
      refine ⟨(is_runnable_eq_zero _ _).mpr hrb, fun hd => ?_⟩
      have hd2 := ((due_other hT 1 (by decide) (by rw [hcur]; decide)).mp hd).2
      rw [hti, hw1] at hd2
      have hlt : (k + 2 + 1) % WORD = k + 2 + 1 := Nat.mod_eq_of_lt (by unfold WORD; omega)
      rw [hlt] at hd2
      omega
    obtain ⟨r1, r2, r3, r4⟩ := idle_tick (fun _ => 0) hT hcur (by rw [hcurs]; exact hst)
      (by rw [hcurs, hex, hco]; omega) hq
    obtain ⟨q1, q2, q3, q4⟩ := r4 1 (by decide)
    rw [hcurs] at r3
    rw [ticks_succ]
    refine ⟨(ticking_tick (fun _ => 0) hT).1, r1, r2, ?_,
      (call_scheduler_static _ _ 31).1.trans hco, ?_, q1.trans hs1, q2.trans hw1, q4.mpr hwb, ?_⟩
    · rw [r3, hex]
      exact Nat.mod_eq_of_lt (by unfold WORD; omega)
    · rw [call_scheduler_time, hti]
      exact Nat.mod_eq_of_lt (by unfold WORD; omega)
    · cases hx : (call_scheduler (ticks late_sleeper (k + 1)) (fun _ => 0)).1.runnable_pool.testBit 1
      · rfl
      · have := q3.mp hx
        rw [hrb] at this
        cases this

/-- A tick of the started kernel at which the idle task is RUNNING with its
budget used up, and a task is due: the idle task is left WAITING, in the
waiting bitset, and a task is elected. -/
theorem idle_exhausted_tick {T : Nat → Bool} {s : Kernel} (sp : Nat → Nat) (h : Ticking T s)
    (hc : s.current_task = 31) (hr : (cur s).status = RUNNING)
    (hb : (cur s).computation ≤ (cur s).execution) (p : Nat) (hp : p < 31)
    (hd : due (account (time_inc s)) p) :
    ((call_scheduler s sp).1.tcb_list 31).status = WAITING ∧
    is_waiting (call_scheduler s sp).1 31 ≠ 0 ∧
    (call_scheduler s sp).1.current_task < 31 := by
  have hcs : (time_inc s).current_task = 31 := hc
  have hcp : (cur (time_inc s)).priority = 31 := by
    have := h.prio _ h.cur_lt h.cur_task
    rw [hc] at this
    unfold cur
    rw [hcs]
    exact this
  obtain ⟨a1, -, a3⟩ := account_exhausted (time_inc s) hr hb
  rw [hcs] at a1
  rw [hcp] at a3
  have hab : (account (time_inc s)).waiting_pool.testBit 31 = true := by
    rw [a3, set_bit_testBit]
    simp
  have hast : ((account (time_inc s)).tcb_list 31).status = WAITING := by
    rw [a1]
  obtain ⟨-, w2, -, w4⟩ := after_wake_view (time_inc s) 31 (by decide)
  rw [if_neg (fun hx => absurd hx.1 (by decide))] at w2
  have hwb : (after_wake (time_inc s)).waiting_pool.testBit 31 = true :=
    w4.mpr ⟨hab, fun hx => absurd hx.1 (by decide)⟩
  have hprun : is_runnable (after_wake (time_inc s)) p ≠ 0 := by
    rw [is_runnable_ne_zero, (after_wake_view (time_inc s) p (by omega)).2.2.1]
    exact Or.inr ⟨hp, hd⟩
  have hn : (find_next_task (time_inc s)).2 < 31 := by
    have hnext : (find_next_task (time_inc s)).2 =
        select_from (after_wake (time_inc s)) (cur (time_inc s)).priority 31 0 := rfl
    rw [hnext, hcp]
    rcases select_from_spec (after_wake (time_inc s)) 31 31 0 with ⟨-, hnone⟩ | ⟨-, h2, -, -, -⟩
    · exact absurd ⟨hprun, by omega⟩ (hnone p (Nat.zero_le _) (by omega))
    · omega
  obtain ⟨-, -, hwc, hcw, hnw⟩ := tick_setup h
  obtain ⟨t1, -, t3, -, -, -, -, t8⟩ :=
    tail_view (after_wake (time_inc s)) sp (find_next_task (time_inc s)).2 31 (by decide) hcw hnw
  rw [hwc, hc] at t3 t8
  rw [← call_scheduler_fst] at t1 t3 t8
  have hne : (31 : Nat) ≠ (find_next_task (time_inc s)).2 := by omega
  have hw31 : ¬ (((find_next_task (time_inc s)).2 ≠ 31 ∧
      is_waiting (after_wake (time_inc s)) 31 = 0) ∧ (31 : Nat) = 31) := by
    rintro ⟨⟨-, hz⟩, -⟩
    rw [is_waiting_eq_zero, hwb] at hz
    cases hz
  refine ⟨?_, ?_, by rw [t1]; exact hn⟩
  · rw [t3, if_neg hne, if_neg hw31, w2]
    exact hast
  · rw [is_waiting_ne_zero, t8]
    exact ⟨hwb, hw31, hne⟩

/-- C36 (evaluation of the code). The idle task has the budget
`computation = 100000`. In the kernel of `late_task`, task 1 sleeps from time
1 to its wakeup time 100002; the idle task is the running one after each of
the ticks of time 2 to 100001, with `execution` counting up to 100000; the
tick of time 100002 finds its budget used up and releases task 1, and after
it the idle TCB is WAITING, with its bit set in the waiting bitset, while a
task runs. -/
theorem idle_waiting_after_budget :
    (∀ k, k ≤ 99999 →
      (ticks late_sleeper (k + 1)).current_task = 31 ∧
      ((ticks late_sleeper (k + 1)).tcb_list 31).status = RUNNING ∧
      ((ticks late_sleeper (k + 1)).tcb_list 31).execution = k + 1 ∧
      (ticks late_sleeper (k + 1)).time = k + 2) ∧
    ((ticks late_sleeper 100001).tcb_list 31).status = WAITING ∧
    is_waiting (ticks late_sleeper 100001) 31 ≠ 0 ∧
    (ticks late_sleeper 100001).current_task < 31 := by
  constructor
  · intro k hk
    obtain ⟨-, h2, h3, h4, -, h6, -⟩ := idle_run k hk
    exact ⟨h2, h3, h4, h6⟩
  · obtain ⟨hT, hcur, hst, hex, hco, hti, -, hw1, hwb, -⟩ := idle_run 99999 (le_refl _)
    have hcurs : cur (ticks late_sleeper (99999 + 1)) =
        (ticks late_sleeper (99999 + 1)).tcb_list 31 := by
      rw [cur_eq, hcur]
    have hd : due (account (time_inc (ticks late_sleeper (99999 + 1)))) 1 := by
      rw [due_other hT 1 (by decide) (by rw [hcur]; decide), hti, hw1]
      exact ⟨hwb, by decide⟩
    have hfin := idle_exhausted_tick (fun _ => 0) hT hcur (by rw [hcurs]; exact hst)
      (by rw [hcurs, hex, hco]) 1 (by decide) hd
    rw [← ticks_succ] at hfin
    have e : (100001 : Nat) = 99999 + 1 + 1 := rfl
    rw [e]
    exact hfin

end Lab3
